import Mathlib

/-!
# CSH-backend: orders, catalogue and dashboard

A shallow embedding of the handlers of `src/controllers/orderController.js`,
`productController.js`, `categoryController.js` and `dashboardController.js`,
with the `save` middleware and the validators of `src/models/Product.js` and
`src/models/Category.js`.

Modelling conventions.

* For the order handlers a collection of the document store is a finite map
  from document ids to documents, written as a function `Id → Option _`;
  `findById` is application, a successful `save` is `Function.update`. The
  catalogue handlers count and list documents: there a collection is the list
  of its documents. The dashboard pipelines run over the list of the Order
  documents, each with its `createdAt` stamp.
* An update through `findByIdAndUpdate` sets the paths that are present in the
  update, runs the update validators of these paths and no `save` middleware;
  keys whose value is `undefined` are not part of the update.
* JavaScript numbers (price, stock, quantity, money amounts) are exact
  rationals: the IEEE rounding of the arithmetic is abstracted away.
* Request fields that the controller tests for truthiness are `Option String`
  (`none` is an absent field); ids are well formed.
* A handler is a function from the store (and the values the handler draws from
  its environment: the clock, the id of a newly inserted document) to the
  HTTP response and the store afterwards.
* `save` validates the document, then runs the `pre('save')` hooks, then
  writes; a failed validation is an exception that the handler's `catch` block
  turns into a response, with everything written so far left in the store.
* `models/Order.js` is not among the sources: the Order schema is a parameter.
-/

namespace CSH

/-! ## Data model -/

/-- Document identifier (a Mongo ObjectId). -/
abbrev Id := Nat

/-- Value of `new Date()`. -/
abbrev Timestamp := Nat

/-- The paths of a Product document (`src/models/Product.js`) that the order
workflow reads or writes. The document id is the key under which the document
is stored. -/
structure Product where
  name : String
  image : String
  price : ℚ
  stock : ℚ
  status : String
deriving DecidableEq

/-- The `customer` object of a request body, passed through to the order. -/
structure Customer where
  name : Option String
  email : Option String
  phone : Option String
deriving DecidableEq

/-- The `shippingAddress` object as it arrives in a JSON body. -/
structure RawAddress where
  street : Option String
  city : Option String
  state : Option String
  zip : Option String
  country : Option String
deriving DecidableEq

/-- The address after normalisation (`createOrder`, lines 118-124 and 130-136):
every field is a string. -/
structure Address where
  street : String
  city : String
  state : String
  zip : String
  country : String
deriving DecidableEq

/-- One element of the request's `items` array. -/
structure ReqItem where
  product : Id
  quantity : ℚ
deriving DecidableEq

/-- The line-item snapshot pushed to `processedItems` (lines 175-182). -/
structure OrderItem where
  product : Id
  name : String
  image : String
  price : ℚ
  quantity : ℚ
  total : ℚ
deriving DecidableEq

/-- One entry of `statusHistory`. -/
structure StatusEntry where
  status : String
  timestamp : Timestamp
  note : String
deriving DecidableEq

/-- An Order document: the fields `createOrder` hands to `Order.create`
(lines 195-211) and the `status` path that `updateOrderStatus` and
`deleteOrder` use. -/
structure Order where
  customer : Option Customer
  items : List OrderItem
  subtotal : ℚ
  tax : ℚ
  shipping : ℚ
  total : ℚ
  shippingAddress : Address
  billingAddress : Address
  paymentMethod : Option String
  notes : Option String
  status : String
  statusHistory : List StatusEntry
deriving DecidableEq

/-- Modelled from the spec: the Order schema (`models/Order.js` is not among
the sources). Its validators, run by `Order.create` and `order.save()`, return
the list of validation messages (empty when the document is valid); its
default for the `status` path is what a new order gets, since `createOrder`
passes no status. -/
structure OrderSchema where
  validate : Order → List String
  statusDefault : String

/-- The Product collection. -/
abbrev Products := Id → Option Product

/-- The Order collection. -/
abbrev Orders := Id → Option Order

/-- The document store: the two collections the order controller touches. -/
structure Store where
  products : Products
  orders : Orders

/-! ## Responses -/

/-- A piece of a template literal: literal text, an interpolated number, an
interpolated document id, an interpolated string. Number formatting is left
uninterpreted. -/
inductive Part where
  | lit (s : String)
  | num (q : ℚ)
  | ref (i : Id)
  | str (s : String)
deriving DecidableEq

/-- A response message: the pieces of the string, in order. -/
abbrev Message := List Part

/-- The JSON envelope sent with `res.status(..).json(..)`. The diagnostic
`error` and `stack` fields of 500 responses are not modelled. -/
structure Response where
  status : Nat
  success : Bool
  message : Message
  data : Option Order
  errors : List String
deriving DecidableEq

/-- Response `res.status(code).json({ success: false, message })`. -/
def failure (code : Nat) (message : Message) : Response :=
  { status := code, success := false, message := message, data := none, errors := [] }

/-- Line 140. -/
def msgCustomer : Message := [.lit "Customer name, email, and phone are required."]

/-- Line 143. -/
def msgAddress : Message := [.lit "Address is required."]

/-- Line 146. -/
def msgItems : Message := [.lit "Order must have at least one item."]

/-- Line 149. -/
def msgPayment : Message := [.lit "Payment method is required."]

/-- Line 161: the template "Product with ID (id) not found". -/
def msgProductNotFound (id : Id) : Message :=
  [.lit "Product with ID ", .ref id, .lit " not found"]

/-- Line 168: the template
"Insufficient stock for product (name). Available: (stock), Requested: (quantity)". -/
def msgInsufficientStock (name : String) (available requested : ℚ) : Message :=
  [.lit "Insufficient stock for product ", .str name, .lit ". Available: ", .num available,
   .lit ", Requested: ", .num requested]

/-- Lines 222-226: the response to a Mongoose `ValidationError`. -/
def validationFailure (messages : List String) : Response :=
  { status := 400, success := false, message := [.lit "Validation Error"], data := none,
    errors := messages }

/-! ## Product model: `src/models/Product.js` -/

/-- The first `pre('save')` hook (lines 78-87): status is recomputed from stock. -/
def Product.preSave (p : Product) : Product :=
  { p with status :=
      if p.stock = 0 then "out_of_stock"
      else if p.stock ≤ 10 then "low_stock"
      else "active" }

/-- Validation run by `save()`. The order workflow modifies the `stock` path
only, whose validator is `min: [0, 'Stock cannot be negative']` (line 34); the
other paths keep the values they were persisted with. -/
def Product.validate (p : Product) : List String :=
  if p.stock < 0 then ["Stock cannot be negative"] else []

/-- Model of `await product.save()` for the document stored under `id`: validation
first, then the `pre('save')` hook, then the write. An error is a thrown
`ValidationError`, in which case nothing is written. The second hook (SKU
generation) touches no modelled path. -/
def Product.save (products : Products) (id : Id) (p : Product) : Except (List String) Products :=
  match p.validate with
  | [] => .ok (Function.update products id (some p.preSave))
  | e :: es => .error (e :: es)

/-! ## `createOrder`: `src/controllers/orderController.js`, lines 107-235 -/

/-- A JSON request body, destructured at line 129. For `items`, `none` stands
for an absent value or one that is not an array. -/
structure JsonBody where
  customer : Option Customer
  items : Option (List ReqItem)
  shippingAddress : Option RawAddress
  paymentMethod : Option String
  notes : Option String

/-- A multipart request body, read at lines 112-126. `items` holds the outcome of
`JSON.parse(req.body['items'])`: the message of the exception it throws, or the
parsed value. -/
structure MultipartBody where
  customerName : Option String
  customerEmail : Option String
  customerPhone : Option String
  items : Except String (Option (List ReqItem))
  street : Option String
  city : Option String
  state : Option String
  zip : Option String
  country : Option String
  paymentMethod : Option String
  notes : Option String

/-- The two encodings of a `POST /api/orders` request. -/
inductive Request where
  | json (body : JsonBody)
  | multipart (body : MultipartBody)

/-- The local variables `customer, items, shippingAddress, paymentMethod, notes`
once line 137 is reached. -/
structure Fields where
  customer : Option Customer
  items : Option (List ReqItem)
  shippingAddress : Address
  paymentMethod : Option String
  notes : Option String

/-- JavaScript truthiness of an optional string: present and not empty. -/
def truthy : Option String → Bool
  | some s => s != ""
  | none => false

/-- The expression `x || ''`. -/
def orEmpty : Option String → String
  | some s => s
  | none => ""

/-- Lines 130-136: `shippingAddress?.street || ''` and so on. -/
def normalizeAddress : Option RawAddress → Address
  | some a =>
    { street := orEmpty a.street, city := orEmpty a.city, state := orEmpty a.state,
      zip := orEmpty a.zip, country := orEmpty a.country }
  | none => { street := "", city := "", state := "", zip := "", country := "" }

/-- Lines 110-137: both encodings are brought to one shape. The only exception
that can be thrown here is the one of `JSON.parse`. -/
def parseFields : Request → Except String Fields
  | .json b =>
    .ok { customer := b.customer, items := b.items,
          shippingAddress := normalizeAddress b.shippingAddress,
          paymentMethod := b.paymentMethod, notes := b.notes }
  | .multipart b =>
    match b.items with
    | .error e => .error e
    | .ok items =>
      .ok { customer := some { name := b.customerName, email := b.customerEmail,
                               phone := b.customerPhone },
            items := items,
            shippingAddress :=
              { street := orEmpty b.street, city := orEmpty b.city, state := orEmpty b.state,
                zip := orEmpty b.zip, country := orEmpty b.country },
            paymentMethod := b.paymentMethod, notes := b.notes }

/-- Line 139: `customer && customer.name && customer.email && customer.phone`. -/
def customerOk (f : Fields) : Bool :=
  match f.customer with
  | none => false
  | some c => truthy c.name && truthy c.email && truthy c.phone

/-- Line 142: `shippingAddress && shippingAddress.street`. -/
def addressOk (f : Fields) : Bool :=
  f.shippingAddress.street != ""

/-- Line 145: `items && Array.isArray(items) && items.length !== 0`. -/
def itemsOk (f : Fields) : Bool :=
  match f.items with
  | none => false
  | some [] => false
  | some (_ :: _) => true

/-- Line 148: `paymentMethod` is truthy. -/
def paymentOk (f : Fields) : Bool :=
  truthy f.paymentMethod

/-- Lines 138-150: the four checks, in source order; the response of the first
one that fails, or `none` when all pass. -/
def validateFields (f : Fields) : Option Response :=
  if !customerOk f then some (failure 400 msgCustomer)
  else if !addressOk f then some (failure 400 msgAddress)
  else if !itemsOk f then some (failure 400 msgItems)
  else if !paymentOk f then some (failure 400 msgPayment)
  else none

/-- The variables that the `for` loop of lines 156-187 carries from one item to
the next: the Product collection, `processedItems` and `subtotal`. -/
structure LoopState where
  products : Products
  processedItems : List OrderItem
  subtotal : ℚ

/-- The loop of lines 156-187 over the remaining `items`. An early `return` (or a
`ValidationError` thrown by `save`) yields the response together with the
Product collection as it is at that moment. -/
def processItems (s : LoopState) : List ReqItem → Except (Response × Products) LoopState
  | [] => .ok s
  | item :: rest =>
    match s.products item.product with
    | none => .error (failure 400 (msgProductNotFound item.product), s.products)
    | some product =>
      if product.stock < item.quantity then
        .error (failure 400 (msgInsufficientStock product.name product.stock item.quantity),
                s.products)
      else
        let itemTotal := product.price * item.quantity
        match Product.save s.products item.product
                { product with stock := product.stock - item.quantity } with
        | .error messages => .error (validationFailure messages, s.products)
        | .ok products =>
          processItems
            { products := products,
              processedItems := s.processedItems ++
                [{ product := item.product, name := product.name, image := product.image,
                   price := product.price, quantity := item.quantity, total := itemTotal }],
              subtotal := s.subtotal + itemTotal }
            rest

/-- The state in which the loop starts (lines 153-154): the stored products, no
processed item, subtotal 0. -/
def initialLoop (st : Store) : LoopState :=
  { products := st.products, processedItems := [], subtotal := 0 }

/-- Lines 189-211: the document handed to `Order.create`, with the schema default
for the status path. -/
def buildOrder (schema : OrderSchema) (now : Timestamp) (f : Fields) (s : LoopState) : Order :=
  let subtotal := s.subtotal
  let tax := subtotal * (8 / 100)
  let shipping : ℚ := if subtotal > 100 then 0 else 10
  let total := subtotal + tax + shipping
  { customer := f.customer, items := s.processedItems, subtotal := subtotal, tax := tax,
    shipping := shipping, total := total, shippingAddress := f.shippingAddress,
    billingAddress := f.shippingAddress, paymentMethod := f.paymentMethod, notes := f.notes,
    status := schema.statusDefault,
    statusHistory := [{ status := "pending", timestamp := now, note := "Order created" }] }

/-- The handler `createOrder`. `now` is the value of `new Date()`, `newId` the id
the store gives to the inserted order. -/
def createOrder (schema : OrderSchema) (now : Timestamp) (newId : Id) (st : Store)
    (req : Request) : Response × Store :=
  match parseFields req with
  | .error e => (failure 500 [.lit e], st)
  | .ok f =>
    match validateFields f with
    | some r => (r, st)
    | none =>
      match processItems (initialLoop st) (f.items.getD []) with
      | .error (r, products) => (r, { st with products := products })
      | .ok s =>
        let order := buildOrder schema now f s
        match schema.validate order with
        | [] =>
          ({ status := 201, success := true, message := [.lit "Order created successfully"],
             data := some order, errors := [] },
           { products := s.products, orders := Function.update st.orders newId (some order) })
        | e :: es => (validationFailure (e :: es), { st with products := s.products })

/-! ## `updateOrderStatus`: lines 284-320 -/

/-- The body of `PATCH /api/orders/:id/status`. -/
structure StatusBody where
  status : String
  note : Option String

/-- Line 303: the expression `note || "Status changed to " + status`. -/
def historyNote (status : String) : Option String → String
  | some s => if s != "" then s else "Status changed to " ++ status
  | none => "Status changed to " ++ status

/-- Lines 297-304: the in-memory document after `order.status = status` and the
push to `order.statusHistory`. -/
def appendStatus (order : Order) (now : Timestamp) (body : StatusBody) : Order :=
  { order with
    status := body.status,
    statusHistory := order.statusHistory ++
      [{ status := body.status, timestamp := now,
         note := historyNote body.status body.note }] }

/-- The handler `updateOrderStatus`. A `ValidationError` thrown by `order.save()`
ends in the `catch` block: status 500, nothing written. -/
def updateOrderStatus (schema : OrderSchema) (now : Timestamp) (st : Store) (id : Id)
    (body : StatusBody) : Response × Store :=
  match st.orders id with
  | none => (failure 404 [.lit "Order not found"], st)
  | some order =>
    let updated : Order := appendStatus order now body
    match schema.validate updated with
    | [] =>
      ({ status := 200, success := true, message := [.lit "Order status updated successfully"],
         data := some updated, errors := [] },
       { st with orders := Function.update st.orders id (some updated) })
    | _ :: _ => (failure 500 [.lit "Error updating order status"], st)

/-! ## `deleteOrder`: lines 325-360 -/

/-- The loop of lines 338-344. A `ValidationError` thrown by `save` leaves the
loop with the Product collection as it is at that moment (`.error`). -/
def restoreStock (products : Products) : List OrderItem → Except Products Products
  | [] => .ok products
  | item :: rest =>
    match products item.product with
    | none => restoreStock products rest
    | some product =>
      match Product.save products item.product
              { product with stock := product.stock + item.quantity } with
      | .error _ => .error products
      | .ok saved => restoreStock saved rest

/-- The handler `deleteOrder`. -/
def deleteOrder (st : Store) (id : Id) : Response × Store :=
  match st.orders id with
  | none => (failure 404 [.lit "Order not found"], st)
  | some order =>
    match (if order.status != "completed" then restoreStock st.products order.items
           else .ok st.products) with
    | .error products =>
      (failure 500 [.lit "Error deleting order"], { st with products := products })
    | .ok products =>
      ({ status := 200, success := true, message := [.lit "Order deleted successfully"],
         data := none, errors := [] },
       { products := products, orders := Function.update st.orders id none })

/-! ## The catalogue: `src/models/Category.js`, `src/controllers/productController.js`,
`src/controllers/categoryController.js`

The product and category handlers count documents (`countDocuments`) and list
them (`find`), so here a collection is the list of its documents, each with its
`_id`, in the collection's natural order. -/

/-- A Category document (`src/models/Category.js`); `metadata` has no validator and
is not modelled. A document inserted without `save` has no slug. -/
structure Category where
  _id : Id
  name : String
  description : Option String
  slug : Option String
  image : Option String
  parent : Option Id
  isActive : Bool
  sortOrder : ℚ
deriving DecidableEq

/-- A Product document as the catalogue handlers see it: the paths of `Product`
together with `description` and the `category` reference. -/
structure ProductDoc where
  _id : Id
  description : String
  category : Id
  fields : Product
deriving DecidableEq

/-- The Category and Product collections. -/
structure Catalog where
  categories : List Category
  products : List ProductDoc

/-- The JSON envelope of the catalogue handlers, with the document type of `data`
as a parameter. -/
structure Reply (α : Type) where
  status : Nat
  success : Bool
  message : Message
  data : Option α
  errors : List String

/-- Response `res.status(code).json({ success: false, message })`. -/
def Reply.failure {α : Type} (code : Nat) (message : Message) : Reply α :=
  { status := code, success := false, message := message, data := none, errors := [] }

/-- The response to a Mongoose `ValidationError` in the handlers that single it
out: status 400 with the itemised messages. -/
def Reply.validation {α : Type} (messages : List String) : Reply α :=
  { status := 400, success := false, message := [.lit "Validation Error"], data := none,
    errors := messages }

/-- Response `res.status(200).json({ success: true, data, message })`. -/
def Reply.ok {α : Type} (code : Nat) (data : Option α) (message : Message) : Reply α :=
  { status := code, success := true, message := message, data := data, errors := [] }

/-- The call `Category.findById(id)`. -/
def findCategory (categories : List Category) (id : Id) : Option Category :=
  categories.find? (fun c => c._id == id)

/-- The call `Product.findById(id)` on the catalogue. -/
def findProduct (products : List ProductDoc) (id : Id) : Option ProductDoc :=
  products.find? (fun p => p._id == id)

/-- The white space and line terminators that `String.prototype.trim` removes. -/
def isJsSpace (c : Char) : Bool :=
  c.val ∈ [0x9, 0xA, 0xB, 0xC, 0xD, 0x20, 0xA0, 0x1680, 0x2028, 0x2029, 0x202F, 0x205F,
    0x3000, 0xFEFF] || (0x2000 ≤ c.val && c.val ≤ 0x200A)

/-- The schema option `trim: true`: `String.prototype.trim`. -/
def jsTrim (s : String) : String :=
  String.mk ((s.data.dropWhile isJsSpace).reverse.dropWhile isJsSpace).reverse

/-- The `length` of a JavaScript string: its number of UTF-16 code units. -/
def jsLength (s : String) : Nat :=
  (s.data.map (fun c => if c.val < 0x10000 then 1 else 2)).sum

/-- The validators `required` and `maxlength` of a string path, run on a value that
is present (after `trim`). -/
def checkString (value : String) (max : Nat) (requiredMsg tooLongMsg : List String) :
    List String :=
  (if value = "" then requiredMsg else []) ++ (if max < jsLength value then tooLongMsg else [])

/-- The validator `min: 0` of a number path. -/
def checkMin (value : ℚ) (msg : String) : List String :=
  if value < 0 then [msg] else []

/-- The write of `findByIdAndUpdate`: the first document that satisfies `hit` is
replaced by its image under `f`. -/
def updateFirst {α : Type} (hit : α → Bool) (f : α → α) : List α → List α
  | [] => []
  | a :: rest => if hit a then f a :: rest else a :: updateFirst hit f rest

/-- The write of `findByIdAndDelete`: the first document that satisfies `hit` is
removed. -/
def removeFirst {α : Type} (hit : α → Bool) : List α → List α
  | [] => []
  | a :: rest => if hit a then rest else a :: removeFirst hit rest

/-! ### Product handlers: `src/controllers/productController.js` -/

/-- The default of the `status` path (Product.js, lines 40-44). -/
def Product.statusDefault (stock : ℚ) : String :=
  if stock = 0 then "out_of_stock"
  else if stock ≤ 10 then "low_stock"
  else "active"

/-- The body of `POST /api/products` and `PUT /api/products/:id`; `none` is an
absent field. `tags` has no validator and is not modelled. -/
structure ProductBody where
  name : Option String
  description : Option String
  price : Option ℚ
  category : Option Id
  image : Option String
  stock : Option ℚ

/-- The validators of the Product schema on a new document, in the order of the
schema's paths; `stock` has the default 0, and `category` is present when the
handler gets this far. -/
def validateNewProduct (b : ProductBody) : List String :=
  (match b.name with
    | none => ["Product name is required"]
    | some v => checkString (jsTrim v) 100 ["Product name is required"]
        ["Product name cannot exceed 100 characters"]) ++
  (match b.description with
    | none => ["Product description is required"]
    | some v => checkString v 1000 ["Product description is required"]
        ["Description cannot exceed 1000 characters"]) ++
  (match b.price with
    | none => ["Product price is required"]
    | some v => checkMin v "Price cannot be negative") ++
  (match b.image with
    | none => ["Product image is required"]
    | some v => if v = "" then ["Product image is required"] else []) ++
  checkMin (b.stock.getD 0) "Stock cannot be negative"

/-- The handler `createProduct` (lines 130-176). `Product.create` builds the
document (the status default, then validation, then the `pre('save')` hook) and
inserts it under the id `newId`. -/
def createProduct (newId : Id) (st : Catalog) (b : ProductBody) : Reply ProductDoc × Catalog :=
  match b.category with
  | none => (Reply.failure 400 [.lit "Category not found"], st)
  | some category =>
    match findCategory st.categories category with
    | none => (Reply.failure 400 [.lit "Category not found"], st)
    | some _ =>
      match validateNewProduct b with
      | e :: es => (Reply.validation (e :: es), st)
      | [] =>
        let stock := b.stock.getD 0
        let fresh : Product :=
          { name := jsTrim (b.name.getD ""), image := b.image.getD "", price := b.price.getD 0,
            stock := stock, status := Product.statusDefault stock }
        let doc : ProductDoc :=
          { _id := newId, description := b.description.getD "", category := category,
            fields := fresh.preSave }
        (Reply.ok 201 (some doc) [.lit "Product created successfully"],
         { st with products := st.products ++ [doc] })

/-- The update validators (`runValidators: true`) of the Product schema: the
validators of the paths the update sets. -/
def validateProductUpdate (b : ProductBody) : List String :=
  (match b.name with
    | none => []
    | some v => checkString (jsTrim v) 100 ["Product name is required"]
        ["Product name cannot exceed 100 characters"]) ++
  (match b.description with
    | none => []
    | some v => checkString v 1000 ["Product description is required"]
        ["Description cannot exceed 1000 characters"]) ++
  (match b.price with
    | none => []
    | some v => checkMin v "Price cannot be negative") ++
  (match b.image with
    | none => []
    | some v => if v = "" then ["Product image is required"] else []) ++
  (match b.stock with
    | none => []
    | some v => checkMin v "Stock cannot be negative")

/-- The document after the update of `updateProduct`: the paths present in the
body are set, every other path (the status among them) is left as it is. No
`save` middleware runs on `findByIdAndUpdate`. -/
def applyProductUpdate (b : ProductBody) (p : ProductDoc) : ProductDoc :=
  { p with
    description := b.description.getD p.description,
    category := b.category.getD p.category,
    fields :=
      { p.fields with
        name := (b.name.map jsTrim).getD p.fields.name,
        image := b.image.getD p.fields.image,
        price := b.price.getD p.fields.price,
        stock := b.stock.getD p.fields.stock } }

/-- The handler `updateProduct` (lines 181-241). -/
def updateProduct (st : Catalog) (id : Id) (b : ProductBody) : Reply ProductDoc × Catalog :=
  match (match b.category with
         | none => true
         | some category => (findCategory st.categories category).isSome) with
  | false => (Reply.failure 400 [.lit "Category not found"], st)
  | true =>
    match validateProductUpdate b with
    | e :: es => (Reply.validation (e :: es), st)
    | [] =>
      match findProduct st.products id with
      | none => (Reply.failure 404 [.lit "Product not found"], st)
      | some p =>
        (Reply.ok 200 (some (applyProductUpdate b p)) [.lit "Product updated successfully"],
         { st with
           products := updateFirst (fun d => d._id == id) (applyProductUpdate b) st.products })

/-- The document after the update `{ stock }` of `updateProductStock`. -/
def applyStockUpdate (stock : Option ℚ) (p : ProductDoc) : ProductDoc :=
  { p with fields := { p.fields with stock := stock.getD p.fields.stock } }

/-- The handler `updateProductStock` (lines 295-324). Its `catch` block does not
single out validation errors: a negative stock is answered with 500. -/
def updateProductStock (st : Catalog) (id : Id) (stock : Option ℚ) :
    Reply ProductDoc × Catalog :=
  match (match stock with
         | none => []
         | some v => checkMin v "Stock cannot be negative") with
  | _ :: _ => (Reply.failure 500 [.lit "Error updating stock"], st)
  | [] =>
    match findProduct st.products id with
    | none => (Reply.failure 404 [.lit "Product not found"], st)
    | some p =>
      (Reply.ok 200 (some (applyStockUpdate stock p)) [.lit "Stock updated successfully"],
       { st with
         products := updateFirst (fun d => d._id == id) (applyStockUpdate stock) st.products })

/-! ### Category model: `src/models/Category.js` -/

/-- The character class `[a-z0-9]`. -/
def isSlugLetter (c : Char) : Bool :=
  ('a' ≤ c && c ≤ 'z') || ('0' ≤ c && c ≤ '9')

/-- The call `.replace(/[^a-z0-9]+/g, '-')` (line 59), read from left to right:
the flag tells whether the characters just read are a run that has already been
replaced. -/
def replaceRuns : Bool → List Char → List Char
  | _, [] => []
  | inRun, c :: cs =>
    if isSlugLetter c then c :: replaceRuns false cs
    else if inRun then replaceRuns true cs
    else '-' :: replaceRuns true cs

/-- The call `.replace(/(^-|-$)/g, '')` (line 60): a hyphen at the start is removed,
then a hyphen at the end. -/
def stripHyphens (s : List Char) : List Char :=
  let t := if s.head? = some '-' then s.tail else s
  if t.getLast? = some '-' then t.dropLast else t

/-- The slug expression of lines 57-60. `toLowerCase` is the JavaScript method of
that name, a parameter here. -/
def slugify (toLowerCase : String → String) (name : String) : String :=
  String.mk (stripHyphens (replaceRuns false (toLowerCase name).data))

/-- The `pre('save')` hook of lines 55-63; `nameModified` is `this.isModified('name')`. -/
def Category.preSave (toLowerCase : String → String) (nameModified : Bool) (c : Category) :
    Category :=
  if nameModified then { c with slug := some (slugify toLowerCase c.name) } else c

/-- `toLowerCase` on the strings whose letters with case are the ASCII ones. -/
def asciiLower (s : String) : String := String.mk (s.data.map Char.toLower)

/-- The test of the regular expression
`/^https?:\/\/.+\.(jpg|jpeg|png|webp|gif)$/i` (line 25): the string is `http://` or
`https://`, then at least one character, none a line terminator, then a dot and
one of the five extensions, letter case ignored. -/
def matchesImageUrl (v : String) : Bool :=
  ["http://", "https://"].any fun pre =>
    ["jpg", "jpeg", "png", "webp", "gif"].any fun ext =>
      let s := v.data
      let tail := ('.' :: ext.data)
      let middle := (s.drop pre.length).take (s.length - pre.length - tail.length)
      decide (pre.length + 1 + tail.length ≤ s.length) &&
      ((s.take pre.length).map Char.toLower == pre.data) &&
      ((s.drop (s.length - tail.length)).map Char.toLower == tail) &&
      middle.all (fun c => !(c.val ∈ [0xA, 0xD, 0x2028, 0x2029]))

/-- The validator of the `image` path (lines 24-26): `!v || regex.test(v)`. -/
def imageUrlOk (v : String) : Bool :=
  v == "" || matchesImageUrl v

/-! ### Category handlers: `src/controllers/categoryController.js` -/

/-- The body of `PUT /api/categories/:id`; `none` is an absent (or falsy) field.
`metadata` is not modelled. -/
structure CategoryBody where
  name : Option String
  description : Option String
  parent : Option Id
  image : Option String
  isActive : Option Bool
  sortOrder : Option ℚ

/-- The update validators (`runValidators: true`) of the Category schema on the
paths the update sets. -/
def validateCategoryUpdate (b : CategoryBody) : List String :=
  (match b.name with
    | none => []
    | some v => checkString (jsTrim v) 50 ["Category name is required"]
        ["Category name cannot exceed 50 characters"]) ++
  (match b.description with
    | none => []
    | some v =>
      if 200 < jsLength (jsTrim v) then ["Description cannot exceed 200 characters"] else []) ++
  (match b.image with
    | none => []
    | some v => if imageUrlOk v then [] else ["Please provide a valid image URL"])

/-- The document after the update of `updateCategory` (lines 172-180): the paths
present in the body are set, `parent` is always set to `parent || null`, every
other path (the slug among them) is left as it is. No `save` middleware runs on
`findByIdAndUpdate`. -/
def applyCategoryUpdate (b : CategoryBody) (c : Category) : Category :=
  { c with
    name := (b.name.map jsTrim).getD c.name,
    description := match b.description with
      | some v => some (jsTrim v)
      | none => c.description,
    parent := b.parent,
    image := match b.image with
      | some v => some v
      | none => c.image,
    isActive := b.isActive.getD c.isActive,
    sortOrder := b.sortOrder.getD c.sortOrder }

/-- The unique index on `name`: another document already has the name the update
sets (error code 11000). -/
def nameTaken (categories : List Category) (id : Id) (b : CategoryBody) : Bool :=
  match b.name with
  | none => false
  | some v => categories.any (fun d => d._id != id && d.name == jsTrim v)

/-- The handler `updateCategory` (lines 155-222). -/
def updateCategory (st : Catalog) (id : Id) (b : CategoryBody) : Reply Category × Catalog :=
  match (match b.parent with
         | none => true
         | some parent =>
           if parent != id then (findCategory st.categories parent).isSome else true) with
  | false => (Reply.failure 400 [.lit "Parent category not found"], st)
  | true =>
    match validateCategoryUpdate b with
    | e :: es => (Reply.validation (e :: es), st)
    | [] =>
      match findCategory st.categories id with
      | none => (Reply.failure 404 [.lit "Category not found"], st)
      | some c =>
        if nameTaken st.categories id b then
          (Reply.failure 400 [.lit "Category name already exists"], st)
        else
          (Reply.ok 200 (some (applyCategoryUpdate b c)) [.lit "Category updated successfully"],
           { st with
             categories :=
               updateFirst (fun d => d._id == id) (applyCategoryUpdate b) st.categories })

/-- Line 239: `Product.countDocuments({ category: id })`. -/
def productCount (st : Catalog) (id : Id) : Nat :=
  (st.products.filter (fun p => p.category == id)).length

/-- Line 248: `Category.countDocuments({ parent: id })`. -/
def subcategoryCount (st : Catalog) (id : Id) : Nat :=
  (st.categories.filter (fun c => c.parent == some id)).length

/-- The handler `deleteCategory` (lines 227-269). -/
def deleteCategory (st : Catalog) (id : Id) : Reply Category × Catalog :=
  match findCategory st.categories id with
  | none => (Reply.failure 404 [.lit "Category not found"], st)
  | some _ =>
    if productCount st id > 0 then
      (Reply.failure 400
        [.lit "Cannot delete category. It has ", .num (productCount st id),
         .lit " products associated with it."], st)
    else if subcategoryCount st id > 0 then
      (Reply.failure 400
        [.lit "Cannot delete category. It has ", .num (subcategoryCount st id),
         .lit " subcategories."], st)
    else
      (Reply.ok 200 none [.lit "Category deleted successfully"],
       { st with categories := removeFirst (fun c => c._id == id) st.categories })

/-! ### `updateOrder`: `src/controllers/orderController.js`, lines 240-279 -/

/-- The body of `PUT /api/orders/:id`, restricted to the paths of `Order`; `none` is
an absent key. -/
structure OrderUpdate where
  customer : Option Customer
  items : Option (List OrderItem)
  subtotal : Option ℚ
  tax : Option ℚ
  shipping : Option ℚ
  total : Option ℚ
  shippingAddress : Option Address
  billingAddress : Option Address
  paymentMethod : Option String
  notes : Option String
  status : Option String
  statusHistory : Option (List StatusEntry)

/-- The document after `findByIdAndUpdate(id, req.body)`: each path present in the
body is set to the body's value, every other path is left as it is. -/
def applyOrderUpdate (b : OrderUpdate) (o : Order) : Order :=
  { customer := match b.customer with
      | some c => some c
      | none => o.customer,
    items := b.items.getD o.items,
    subtotal := b.subtotal.getD o.subtotal,
    tax := b.tax.getD o.tax,
    shipping := b.shipping.getD o.shipping,
    total := b.total.getD o.total,
    shippingAddress := b.shippingAddress.getD o.shippingAddress,
    billingAddress := b.billingAddress.getD o.billingAddress,
    paymentMethod := match b.paymentMethod with
      | some m => some m
      | none => o.paymentMethod,
    notes := match b.notes with
      | some n => some n
      | none => o.notes,
    status := b.status.getD o.status,
    statusHistory := b.statusHistory.getD o.statusHistory }

/-- The handler `updateOrder`. `validateUpdate` stands for the update validators
(`runValidators: true`) of the Order schema, which is not among the sources: it
returns the validation messages, none when the update is valid. -/
def updateOrder (validateUpdate : OrderUpdate → List String) (st : Store) (id : Id)
    (b : OrderUpdate) : Response × Store :=
  match validateUpdate b with
  | e :: es => (validationFailure (e :: es), st)
  | [] =>
    match st.orders id with
    | none => (failure 404 [.lit "Order not found"], st)
    | some order =>
      ({ status := 200, success := true, message := [.lit "Order updated successfully"],
         data := some (applyOrderUpdate b order), errors := [] },
       { st with orders := Function.update st.orders id (some (applyOrderUpdate b order)) })

/-! ### Dashboard: `src/controllers/dashboardController.js` -/

/-- Line 54: the month-over-month change, from the revenue of the current month
and of the last month. -/
def revenueChange (totalRevenue lastMonthTotal : ℚ) : ℚ :=
  if lastMonthTotal > 0 then (totalRevenue - lastMonthTotal) / lastMonthTotal * 100 else 0

/-- The function `Math.round`: the nearest integer, halves rounded up. -/
def mathRound (x : ℚ) : ℤ := ⌊x + 1 / 2⌋

/-- Line 149: the `revenueChange` field of the overview,
`Math.round(revenueChange * 100) / 100`. -/
def overviewRevenueChange (totalRevenue lastMonthTotal : ℚ) : ℚ :=
  (mathRound (revenueChange totalRevenue lastMonthTotal * 100) : ℚ) / 100

/-! ### The category tree: `getCategoryTree`, lines 274-314 -/

/-- A value of `categoryMap` (lines 286-289): the copy of the category with its
`children` array. The array holds references to other values of the map; a
reference is the key of the value it points to. -/
structure TreeEntry where
  category : Category
  children : List Id
deriving DecidableEq

/-- The variables `categoryMap` and `tree` of lines 281-282; `tree` holds
references as well. -/
structure TreeBuild where
  categoryMap : Id → Option TreeEntry
  tree : List Id

/-- One round of the first pass (lines 286-289). -/
def firstPassStep (categoryMap : Id → Option TreeEntry) (category : Category) :
    Id → Option TreeEntry :=
  Function.update categoryMap category._id (some { category := category, children := [] })

/-- The first pass (lines 285-290). -/
def firstPass (categories : List Category) : Id → Option TreeEntry :=
  categories.foldl firstPassStep (fun _ => none)

/-- One round of the second pass (lines 294-300). -/
def secondPassStep (s : TreeBuild) (category : Category) : TreeBuild :=
  match category.parent with
  | some parent =>
    match s.categoryMap parent with
    | some entry =>
      let pushed : TreeEntry := { entry with children := entry.children ++ [category._id] }
      { s with categoryMap := Function.update s.categoryMap parent (some pushed) }
    | none => s
  | none => { s with tree := s.tree ++ [category._id] }

/-- The second pass (lines 293-301). -/
def secondPass (categories : List Category) (categoryMap : Id → Option TreeEntry) :
    TreeBuild :=
  categories.foldl secondPassStep { categoryMap := categoryMap, tree := [] }

/-- A node of the JSON document sent as `data`: a category with its `children`. -/
inductive CategoryNode where
  | node (category : Category) (children : List CategoryNode)

/-- The category of a node. -/
def CategoryNode.category : CategoryNode → Category
  | .node c _ => c

/-- The `children` of a node. -/
def CategoryNode.children : CategoryNode → List CategoryNode
  | .node _ cs => cs

/-- All the values of a list, if none is missing. -/
def allOrNone {α : Type} : List (Option α) → Option (List α)
  | [] => some []
  | none :: _ => none
  | some a :: rest =>
    match allOrNone rest with
    | some as => some (a :: as)
    | none => none

/-- The serialisation of the value a reference points to, by `res.json`: the
references in `children` are followed. `JSON.stringify` throws on a circular
structure; here the fuel runs out (`none`) on a chain of references longer than
the number of keys, which has to go through some key twice. -/
def serialize (categoryMap : Id → Option TreeEntry) : Nat → Id → Option CategoryNode
  | 0, _ => none
  | fuel + 1, ref =>
    match categoryMap ref with
    | none => none
    | some entry =>
      (allOrNone (entry.children.map (serialize categoryMap fuel))).map
        (CategoryNode.node entry.category)

/-- Lines 280-306: the two passes over the categories found, and the document that
`res.json` makes of `tree`. -/
def buildCategoryTree (categories : List Category) : Option (List CategoryNode) :=
  let s := secondPass categories (firstPass categories)
  allOrNone (s.tree.map (serialize s.categoryMap categories.length))

/-- The handler `getCategoryTree`, from the result `categories` of the query of
lines 276-278 (the active categories, sorted). -/
def getCategoryTree (categories : List Category) : Reply (List CategoryNode) :=
  match buildCategoryTree categories with
  | some tree => Reply.ok 200 (some tree) []
  | none => Reply.failure 500 [.lit "Error fetching category tree"]

/-! ### Pagination: `getProducts`, `getOrders`, `getCategories` -/

/-- The query parameters `page` and `limit` after `parseInt`. The value `none` is
`NaN`, the result of `parseInt` for an absent parameter and for a text that does
not start with a number. -/
structure PageQuery where
  page : Option ℤ
  limit : Option ℤ

/-- The expression `parseInt(v) || d`: `NaN` and 0 are falsy, every other number
is kept. -/
def orDefault (parsed : Option ℤ) (d : ℤ) : ℤ :=
  match parsed with
  | some n => if n = 0 then d else n
  | none => d

/-- The function `Math.ceil`. -/
def mathCeil (x : ℚ) : ℤ := ⌈x⌉

/-- The `pagination` object of a list response. -/
structure Pagination where
  page : ℤ
  limit : ℤ
  total : ℕ
  pages : ℤ
deriving DecidableEq

/-- The object `{ page, limit, total, pages: Math.ceil(total / limit) }` that the
three list handlers send. -/
def paginate (page limit : ℤ) (total : ℕ) : Pagination :=
  { page := page, limit := limit, total := total,
    pages := mathCeil ((total : ℚ) / (limit : ℚ)) }

/-- The pagination object of `getOrders` (`orderController.js`, lines 11-12 and
57-66), from the parsed query and the result `total` of `countDocuments(query)`.
The documents of the page are not modelled. -/
def getOrdersPagination (q : PageQuery) (total : ℕ) : Pagination :=
  paginate (orDefault q.page 1) (orDefault q.limit 10) total

/-- The pagination object of `getProducts` (`productController.js`, lines 9-10,
37-46 and 81-90). With `unknownCategory` the category filter is a name under
which no category is stored (lines 32-36): the handler answers at once, with
the literals `total: 0` and `pages: 0`. Otherwise `total` is the result of
`countDocuments(query)`. -/
def getProductsPagination (q : PageQuery) (unknownCategory : Bool) (total : ℕ) : Pagination :=
  if unknownCategory then
    { page := orDefault q.page 1, limit := orDefault q.limit 10, total := 0, pages := 0 }
  else paginate (orDefault q.page 1) (orDefault q.limit 10) total

/-- The pagination object of `getCategories` (`categoryController.js`, lines 9-10
and 43-52): the default limit is 50. -/
def getCategoriesPagination (q : PageQuery) (total : ℕ) : Pagination :=
  paginate (orDefault q.page 1) (orDefault q.limit 50) total

/-! ### Dashboard aggregates: `getDashboardStats` and `getSalesAnalytics`

The `Date` values of the handlers are numbers of milliseconds since the epoch;
the server's local time is taken to be UTC. The calendar functions below follow
the definitions of the ECMAScript language specification (`MakeDay`,
`DayFromYear`, `YearFromTime`, `MonthFromTime`). -/

/-- A stored Order document: the paths of the order with the id and the
`createdAt` stamp that the store gives it, in milliseconds since the epoch. -/
structure OrderDoc where
  _id : Id
  createdAt : Timestamp
  fields : Order

/-- The number of milliseconds of a day, `24 * 60 * 60 * 1000`. -/
def msPerDay : ℤ := 24 * 60 * 60 * 1000

/-- The day number of the first day of year `y` (ECMAScript `DayFromYear`). -/
def dayFromYear (y : ℤ) : ℤ :=
  365 * (y - 1970) + (y - 1969) / 4 - (y - 1901) / 100 + (y - 1601) / 400

/-- Whether year `y` has 366 days. -/
def isLeapYear (y : ℤ) : Bool :=
  y % 4 = 0 && (y % 100 != 0 || y % 400 = 0)

/-- The number of days of a year that lie before its month `m` (0 for January). -/
def daysBeforeMonth (leap : Bool) (m : ℤ) : ℤ :=
  let extra : ℤ := if leap then 1 else 0
  if m = 0 then 0
  else if m = 1 then 31
  else if m = 2 then 59 + extra
  else if m = 3 then 90 + extra
  else if m = 4 then 120 + extra
  else if m = 5 then 151 + extra
  else if m = 6 then 181 + extra
  else if m = 7 then 212 + extra
  else if m = 8 then 243 + extra
  else if m = 9 then 273 + extra
  else if m = 10 then 304 + extra
  else 334 + extra

/-- The day number of a date given by year, month and day of the month
(ECMAScript `MakeDay`): a month outside 0..11 carries into the year, and the day
of the month counts on from the first of the month, so that day 0 is the last
day of the month before. -/
def makeDay (year month date : ℤ) : ℤ :=
  let ym := year + month / 12
  let mn := month % 12
  dayFromYear ym + daysBeforeMonth (isLeapYear ym) mn + date - 1

/-- The time value of `new Date(year, month, date)`: midnight at the start of that
day. -/
def newDate (year month date : ℤ) : ℤ := makeDay year month date * msPerDay

/-- The year and the month (0 for January) in which a day number lies, by the
proleptic Gregorian calendar. The computation counts days from 1 March of year
0, in eras of 400 years. -/
def yearMonthOfDay (day : ℤ) : ℤ × ℤ :=
  let z := day + 719468
  let era := z / 146097
  let doe := z - era * 146097
  let yoe := (doe - doe / 1460 + doe / 36524 - doe / 146096) / 365
  let doy := doe - (365 * yoe + yoe / 4 - yoe / 100)
  let mp := (5 * doy + 2) / 153
  let year := yoe + era * 400
  if mp < 10 then (year, mp + 2) else (year + 1, mp - 10)

/-- The method `getFullYear` of the date with time value `t`. -/
def getFullYear (t : Timestamp) : ℤ := (yearMonthOfDay ((t : ℤ) / msPerDay)).1

/-- The method `getMonth` of the date with time value `t`. -/
def getMonth (t : Timestamp) : ℤ := (yearMonthOfDay ((t : ℤ) / msPerDay)).2

/-- Line 12: `new Date(now.getFullYear(), now.getMonth(), 1)`. -/
def startOfMonth (now : Timestamp) : ℤ := newDate (getFullYear now) (getMonth now) 1

/-- Line 13: `new Date(now.getFullYear(), now.getMonth() - 1, 1)`. -/
def startOfLastMonth (now : Timestamp) : ℤ := newDate (getFullYear now) (getMonth now - 1) 1

/-- Line 14: `new Date(now.getFullYear(), now.getMonth(), 0)`. -/
def endOfLastMonth (now : Timestamp) : ℤ := newDate (getFullYear now) (getMonth now) 0

/-- The condition `status: { $ne: 'cancelled' }` of a `$match` stage. -/
def notCancelled (o : OrderDoc) : Bool := o.fields.status != "cancelled"

/-- The stage `$group: { _id: null, total: { $sum: '$total' } }`: one group when a
document reaches the stage, no group otherwise. -/
def groupTotal (docs : List OrderDoc) : List ℚ :=
  match docs with
  | [] => []
  | _ :: _ => [(docs.map (fun o => o.fields.total)).sum]

/-- The expression `groups[0]?.total || 0` of lines 52-53. -/
def firstTotalOrZero (groups : List ℚ) : ℚ :=
  match groups with
  | [] => 0
  | total :: _ => if total = 0 then 0 else total

/-- Lines 22-35: the pipeline `currentMonthRevenue`. -/
def currentMonthRevenue (now : Timestamp) (orders : List OrderDoc) : List ℚ :=
  groupTotal (orders.filter (fun o =>
    decide (startOfMonth now ≤ (o.createdAt : ℤ)) && notCancelled o))

/-- Lines 37-50: the pipeline `lastMonthRevenue`. -/
def lastMonthRevenue (now : Timestamp) (orders : List OrderDoc) : List ℚ :=
  groupTotal (orders.filter (fun o =>
    (decide (startOfLastMonth now ≤ (o.createdAt : ℤ)) &&
      decide ((o.createdAt : ℤ) ≤ endOfLastMonth now)) && notCancelled o))

/-- The distinct values of a list, each at its first occurrence. -/
def distinct {α : Type} [DecidableEq α] : List α → List α
  | [] => []
  | a :: as => a :: (distinct as).filter (fun b => b ≠ a)

/-- The key `$dateToString: { format: '%Y-%m-%d', date: '$createdAt' }` of a
document: its UTC calendar day. The day is represented by its day number, which
the text of the date determines and which orders the days as the texts do. -/
def dayOf (o : OrderDoc) : ℤ := (o.createdAt : ℤ) / msPerDay

/-- A group of the per-day pipelines: the day, the sum of the totals and the
number of the orders of that day. -/
structure DaySales where
  _id : ℤ
  sales : ℚ
  orders : ℕ
deriving DecidableEq

/-- The stages `$group` by day and `$sort: { _id: 1 }` of lines 112-123 and
210-221. -/
def salesByDay (docs : List OrderDoc) : List DaySales :=
  ((distinct (docs.map dayOf)).map (fun day =>
    ({ _id := day,
       sales := ((docs.filter (fun o => dayOf o = day)).map (fun o => o.fields.total)).sum,
       orders := (docs.filter (fun o => dayOf o = day)).length } : DaySales))).insertionSort
    (fun a b => a._id ≤ b._id)

/-- Lines 105-124: the pipeline `salesTrend`; `later` is the value of `Date.now()`
at line 108. -/
def salesTrend (later : Timestamp) (orders : List OrderDoc) : List DaySales :=
  salesByDay (orders.filter (fun o =>
    decide ((later : ℤ) - 7 * 24 * 60 * 60 * 1000 ≤ (o.createdAt : ℤ)) && notCancelled o))

/-- A group of the pipeline `topProducts`. -/
structure ProductSales where
  _id : Id
  totalSold : ℚ
  revenue : ℚ
  productName : Option String
deriving DecidableEq

/-- The stage `$unwind: '$items'`: one row for every item of every order. -/
def unwindItems (docs : List OrderDoc) : List OrderItem :=
  (docs.map (fun o => o.fields.items)).flatten

/-- Lines 127-139: the pipeline `topProducts`. It has no `$match` stage: the items
of every order reach the `$group` stage. The store does not fix the order of
groups with the same `totalSold`; here they keep the order in which their
products first occur. -/
def topProducts (orders : List OrderDoc) : List ProductSales :=
  let rows := unwindItems orders
  let groups := (distinct (rows.map (fun it => it.product))).map (fun id =>
    ({ _id := id,
       totalSold := ((rows.filter (fun it => it.product = id)).map (fun it => it.quantity)).sum,
       revenue := ((rows.filter (fun it => it.product = id)).map (fun it => it.total)).sum,
       productName := ((rows.filter (fun it => it.product = id)).head?).map (fun it => it.name) }
      : ProductSales))
  (groups.insertionSort (fun a b => a.totalSold ≥ b.totalSold)).take 5

/-- The revenue figures of the `data` that `getDashboardStats` sends (lines
141-158); the counts, the statistics by status and by category, the low-stock
products and the recent orders are not modelled. -/
structure DashboardStats where
  totalRevenue : ℚ
  revenueChange : ℚ
  salesTrend : List DaySales
  topProducts : List ProductSales

/-- The handler `getDashboardStats`, from the Order collection; `now` is the value
of `new Date()` at line 11 and `later` that of `Date.now()` at line 108. -/
def getDashboardStats (now later : Timestamp) (orders : List OrderDoc) : DashboardStats :=
  let totalRevenue := firstTotalOrZero (currentMonthRevenue now orders)
  let lastMonthTotal := firstTotalOrZero (lastMonthRevenue now orders)
  { totalRevenue := totalRevenue,
    revenueChange := overviewRevenueChange totalRevenue lastMonthTotal,
    salesTrend := salesTrend later orders,
    topProducts := topProducts orders }

/-- A group of the pipeline `categoryPerformance`. -/
structure CategorySales where
  _id : String
  revenue : ℚ
  quantity : ℚ
deriving DecidableEq

/-- Lines 226-245 after the `$match` stage: every item of every order, joined with
the product it references and with the category of that product; an item whose
product or whose product's category is not stored is dropped by `$unwind`. A
row is the name of the category with the item. -/
def categoryRows (catalog : Catalog) (docs : List OrderDoc) : List (String × OrderItem) :=
  ((unwindItems docs).map (fun it =>
    ((catalog.products.filter (fun p => p._id = it.product)).map (fun p =>
      (catalog.categories.filter (fun c => c._id = p.category)).map (fun c =>
        (c.name, it)))).flatten)).flatten

/-- Lines 225-254: the pipeline `categoryPerformance`. Groups with the same revenue
keep the order in which their categories first occur. -/
def categoryPerformance (catalog : Catalog) (startDate : ℤ) (orders : List OrderDoc) :
    List CategorySales :=
  let rows := categoryRows catalog (orders.filter (fun o =>
    decide (startDate ≤ (o.createdAt : ℤ)) && notCancelled o))
  let groups := (distinct (rows.map (fun r => r.1))).map (fun name =>
    ({ _id := name,
       revenue := ((rows.filter (fun r => r.1 = name)).map (fun r => r.2.total)).sum,
       quantity := ((rows.filter (fun r => r.1 = name)).map (fun r => r.2.quantity)).sum }
      : CategorySales))
  groups.insertionSort (fun a b => a.revenue ≥ b.revenue)

/-- Lines 203-222: the pipeline `dailySales`. -/
def dailySales (startDate : ℤ) (orders : List OrderDoc) : List DaySales :=
  salesByDay (orders.filter (fun o =>
    decide (startDate ≤ (o.createdAt : ℤ)) && notCancelled o))

/-- The `data` that `getSalesAnalytics` sends. -/
structure SalesAnalytics where
  dailySales : List DaySales
  categoryPerformance : List CategorySales

/-- The handler `getSalesAnalytics`. The value `period` is `parseInt` of the query
parameter, `none` when the parameter is absent (the default is 30 days); `now`
is the value of `Date.now()` at line 200. -/
def getSalesAnalytics (catalog : Catalog) (now : Timestamp) (period : Option ℤ)
    (orders : List OrderDoc) : SalesAnalytics :=
  let days : ℤ := period.getD 30
  let startDate : ℤ := (now : ℤ) - days * 24 * 60 * 60 * 1000
  { dailySales := dailySales startDate orders,
    categoryPerformance := categoryPerformance catalog startDate orders }

/-! ## Vocabulary of the specification -/

/-- Rounding to two decimal places, as the specification's `round2` words it:
the nearest multiple of 1/100, halves rounded up. -/
def round2 (x : ℚ) : ℚ := (round (x * 100) : ℚ) / 100

/-- Sum of the quantities of the request items that reference product `id`. -/
def requestedQuantity (id : Id) (items : List ReqItem) : ℚ :=
  ((items.filter (fun it => it.product = id)).map (fun it => it.quantity)).sum

/-- Sum of the quantities of the order items that reference product `id`. -/
def orderedQuantity (id : Id) (items : List OrderItem) : ℚ :=
  ((items.filter (fun it => it.product = id)).map (fun it => it.quantity)).sum

/-- The snapshot `createOrder` takes of product `p` for a request item. -/
def snapshot (item : ReqItem) (p : Product) : OrderItem :=
  { product := item.product, name := p.name, image := p.image, price := p.price,
    quantity := item.quantity, total := p.price * item.quantity }

/-- The loop state after one item has been processed successfully. -/
def stepLoop (s : LoopState) (item : ReqItem) (product : Product) : LoopState :=
  { products := Function.update s.products item.product
      (some (Product.preSave { product with stock := product.stock - item.quantity })),
    processedItems := s.processedItems ++ [snapshot item product],
    subtotal := s.subtotal + product.price * item.quantity }

/-- The specification's rule for the derived status of a product: out_of_stock
at stock 0, low_stock at a stock other than 0 and at most 10, active above 10. -/
def statusMatchesStock (p : Product) : Prop :=
  (p.stock = 0 → p.status = "out_of_stock") ∧
  (p.stock ≠ 0 → p.stock ≤ 10 → p.status = "low_stock") ∧
  (10 < p.stock → p.status = "active")

/-- Two neighbouring characters that are not both hyphens. -/
def notBothHyphens (a b : Char) : Prop := ¬ (a = '-' ∧ b = '-')

/-- The input categories whose parent is the category `c`, in input order. -/
def childrenOf (categories : List Category) (c : Category) : List Category :=
  categories.filter (fun d => d.parent = some c._id)

/-- The input categories whose parent is null, in input order. -/
def rootsOf (categories : List Category) : List Category :=
  categories.filter (fun d => d.parent = none)

/-- The tree the specification describes under a category: the category with,
recursively, the subtrees of its children in input order, down to the given
depth. -/
def subtree (categories : List Category) : Nat → Category → CategoryNode
  | 0, c => .node c []
  | depth + 1, c => .node c ((childrenOf categories c).map (subtree categories depth))

mutual
/-- All the nodes of a tree, the root first. -/
def CategoryNode.nodes : CategoryNode → List CategoryNode
  | .node c cs => .node c cs :: nodesOfAll cs
/-- All the nodes of the trees of a list. -/
def nodesOfAll : List CategoryNode → List CategoryNode
  | [] => []
  | t :: ts => t.nodes ++ nodesOfAll ts
end

/-- The input category `c` has an ancestor chain of `k` parents, all of them input
categories, that ends at a category whose parent is null. -/
inductive Level (categories : List Category) : Category → Nat → Prop where
  | root (c : Category) : c ∈ categories → c.parent = none → Level categories c 0
  | child (c p : Category) (k : Nat) : c ∈ categories → p ∈ categories →
      c.parent = some p._id → Level categories p k → Level categories c (k + 1)

/-- The input category `x` is reached from `c` by going down `m` times from a
category to one of its children. -/
inductive Descends (categories : List Category) (c : Category) : Category → Nat → Prop where
  | self : Descends categories c c 0
  | step (x y : Category) (m : Nat) : x ∈ categories → y ∈ categories →
      x.parent = some y._id → Descends categories c y m → Descends categories c x (m + 1)

/-- The specification's rule for the pagination object of a list endpoint whose
default limit is `d`: the limit is the parsed query value, or `d` when that is
absent, not a number or 0; `pages` is the ceiling of total / limit; and for a
limit of at least 1, `pages` is the least integer p with p × limit ≥ total. -/
def PaginationRule (q : PageQuery) (d : ℤ) (pg : Pagination) : Prop :=
  (q.limit = none ∨ q.limit = some 0 → pg.limit = d) ∧
  (∀ n : ℤ, q.limit = some n → n ≠ 0 → pg.limit = n) ∧
  pg.pages = ⌈(pg.total : ℚ) / (pg.limit : ℚ)⌉ ∧
  (1 ≤ pg.limit →
    (pg.total : ℤ) ≤ pg.pages * pg.limit ∧
    ∀ p : ℤ, (pg.total : ℤ) ≤ p * pg.limit → pg.pages ≤ p)

/-! ## Sample data -/

/-- An Order schema that accepts every document and defaults status to pending. -/
def sampleSchema : OrderSchema :=
  { validate := fun _ => [], statusDefault := "pending" }

/-- The product of the specification's end-to-end example. -/
def gameX : Product :=
  { name := "Game X", image := "game-x.png", price := 20, stock := 5, status := "low_stock" }

/-- A product priced 0.10. -/
def sticker : Product :=
  { name := "Sticker", image := "sticker.png", price := 1 / 10, stock := 50, status := "active" }

/-- A store with `gameX` under id 1, `sticker` under id 2 and no order. -/
def sampleStore : Store :=
  { products := fun i => if i = 1 then some gameX else if i = 2 then some sticker else none,
    orders := fun _ => none }

/-- A complete JSON request for the given items. -/
def sampleRequest (items : List ReqItem) : Request :=
  .json
    { customer := some { name := some "Ada", email := some "ada@example.com",
                         phone := some "555-0100" },
      items := some items,
      shippingAddress := some { street := some "1 Main St", city := some "Colombo",
                                state := none, zip := none, country := none },
      paymentMethod := some "bank_transfer",
      notes := none }

/-- The order of the specification's end-to-end example: two units of `gameX`. -/
def gameRequest : Request := sampleRequest [{ product := 1, quantity := 2 }]

/-- An order of one `sticker`: a subtotal of 0.10. -/
def stickerRequest : Request := sampleRequest [{ product := 2, quantity := 1 }]

/-- One sticker, then nine units of `gameX`, which has five in stock. -/
def overdrawnItems : List ReqItem :=
  [{ product := 2, quantity := 1 }, { product := 1, quantity := 9 }]

/-- Two lines for `gameX`, three units each, with five in stock. -/
def repeatedItems : List ReqItem :=
  [{ product := 1, quantity := 3 }, { product := 1, quantity := 3 }]

/-- A JSON request without `customer.phone` and without `paymentMethod`. -/
def incompleteRequest : Request :=
  .json
    { customer := some { name := some "Ada", email := some "ada@example.com", phone := none },
      items := some [{ product := 1, quantity := 2 }],
      shippingAddress := some { street := some "1 Main St", city := none, state := none,
                                zip := none, country := none },
      paymentMethod := none,
      notes := none }

/-- An order of two `gameX` with the given status. -/
def gameOrder (status : String) : Order :=
  { customer := some { name := some "Ada", email := some "ada@example.com",
                       phone := some "555-0100" },
    items := [{ product := 1, name := "Game X", image := "game-x.png", price := 20,
                quantity := 2, total := 40 }],
    subtotal := 40, tax := 3.2, shipping := 10, total := 53.2,
    shippingAddress := { street := "1 Main St", city := "Colombo", state := "", zip := "",
                         country := "" },
    billingAddress := { street := "1 Main St", city := "Colombo", state := "", zip := "",
                        country := "" },
    paymentMethod := some "bank_transfer", notes := none, status := status,
    statusHistory := [{ status := "pending", timestamp := 0, note := "Order created" }] }

/-- The sample store with a pending order under id 7 and a completed one under
id 8. -/
def storeWithOrders : Store :=
  { products := sampleStore.products,
    orders := fun i =>
      if i = 7 then some (gameOrder "pending")
      else if i = 8 then some (gameOrder "completed") else none }

/-- A product with eleven units in stock. -/
def console : Product :=
  { name := "Console", image := "console.png", price := 300, stock := 11, status := "active" }

/-- A store with `gameX` under id 1 and `console` under id 3. -/
def shelfStore : Store :=
  { products := fun i => if i = 1 then some gameX else if i = 3 then some console else none,
    orders := fun _ => none }

/-- One console and all five Game X. -/
def clearanceItems : List ReqItem :=
  [{ product := 3, quantity := 1 }, { product := 1, quantity := 5 }]

/-- A top-level category with a product and a subcategory. -/
def games : Category :=
  { _id := 10, name := "Games", description := none, slug := some "games", image := none,
    parent := none, isActive := true, sortOrder := 0 }

/-- A subcategory of `games`, with a product. -/
def boardGames : Category :=
  { _id := 11, name := "Board Games", description := none, slug := some "board-games",
    image := none, parent := some 10, isActive := true, sortOrder := 0 }

/-- A top-level category with a subcategory and no product. -/
def music : Category :=
  { _id := 12, name := "Music", description := none, slug := some "music", image := none,
    parent := none, isActive := true, sortOrder := 1 }

/-- A subcategory of `music`, with no product. -/
def vinyl : Category :=
  { _id := 13, name := "Vinyl", description := none, slug := some "vinyl", image := none,
    parent := some 12, isActive := true, sortOrder := 0 }

/-- A catalogue of four categories and two products: Game X in `games`, the
console in `boardGames`. -/
def shop : Catalog :=
  { categories := [games, boardGames, music, vinyl],
    products :=
      [{ _id := 1, description := "A game", category := 10, fields := gameX },
       { _id := 2, description := "A console", category := 11, fields := console }] }

/-- A full body of `PUT /api/products/2`: the console as stored, with stock 0. -/
def soldOutBody : ProductBody :=
  { name := some "Console", description := some "A console", price := some 300,
    category := some 11, image := some "console.png", stock := some 0 }

/-- A body of `PUT /api/categories/10` that renames `games`. -/
def renameBody : CategoryBody :=
  { name := some "Video Games", description := none, parent := none, image := none,
    isActive := some true, sortOrder := some 0 }

/-- A body of `PUT /api/categories/10` that names category 10 as its own parent. -/
def selfParentBody : CategoryBody :=
  { name := some "Games", description := none, parent := some 10, image := none,
    isActive := some true, sortOrder := some 0 }

/-- A body of `PUT /api/orders/:id` that sets nothing. -/
def emptyOrderUpdate : OrderUpdate :=
  { customer := none, items := none, subtotal := none, tax := none, shipping := none,
    total := none, shippingAddress := none, billingAddress := none, paymentMethod := none,
    notes := none, status := none, statusHistory := none }

/-- Update validators that accept every update. -/
def acceptUpdate : OrderUpdate → List String := fun _ => []

/-- The categories of the specification's tree example: A is a root. -/
def catA : Category :=
  { _id := 1, name := "A", description := none, slug := some "a", image := none,
    parent := none, isActive := true, sortOrder := 0 }

/-- The category B, a child of A. -/
def catB : Category :=
  { _id := 2, name := "B", description := none, slug := some "b", image := none,
    parent := some 1, isActive := true, sortOrder := 0 }

/-- The category C, whose parent id 99 is not among the categories. -/
def catC : Category :=
  { _id := 3, name := "C", description := none, slug := some "c", image := none,
    parent := some 99, isActive := true, sortOrder := 0 }

/-- The category D, a child of B that is listed before B and A. -/
def catD : Category :=
  { _id := 4, name := "D", description := none, slug := some "d", image := none,
    parent := some 2, isActive := true, sortOrder := -1 }

/-- One sticker, then a product id under which nothing is stored, then two
Game X. -/
def missingItems : List ReqItem :=
  [{ product := 2, quantity := 1 }, { product := 9, quantity := 1 },
   { product := 1, quantity := 2 }]

/-- Two lines for Game X, with five in stock: the quantity -6, then 11. -/
def swingItems : List ReqItem :=
  [{ product := 1, quantity := -6 }, { product := 1, quantity := 11 }]

/-- Two lines for Game X, with five in stock: two units, then three. -/
def splitItems : List ReqItem :=
  [{ product := 1, quantity := 2 }, { product := 1, quantity := 3 }]

/-- A single line for Game X with the quantity -2. -/
def negativeItems : List ReqItem := [{ product := 1, quantity := -2 }]

/-- The instant 15 February 2024, 00:00 UTC. -/
def midFebruary : Timestamp := 1707955200000

/-- A pending order of two Game X, created on 31 January 2024 at 12:00 UTC. -/
def januaryOrder : OrderDoc :=
  { _id := 7, createdAt := 1706702400000, fields := gameOrder "pending" }

/-- A cancelled order of two Game X, created on 10 February 2024 at 00:00 UTC. -/
def cancelledOrder : OrderDoc :=
  { _id := 8, createdAt := 1707523200000, fields := gameOrder "cancelled" }

/-! ## Saving a product -/

theorem Product.save_of_nonneg (products : Products) (id : Id) (p : Product)
    (h : 0 ≤ p.stock) :
    Product.save products id p = .ok (Function.update products id (some p.preSave)) := by
  have hv : p.validate = [] := by
    unfold Product.validate
    rw [if_neg (not_lt.mpr h)]
  unfold Product.save
  rw [hv]

theorem Product.save_of_neg (products : Products) (id : Id) (p : Product)
    (h : p.stock < 0) :
    Product.save products id p = .error ["Stock cannot be negative"] := by
  have hv : p.validate = ["Stock cannot be negative"] := by
    unfold Product.validate
    rw [if_pos h]
  unfold Product.save
  rw [hv]

/-! ## The item loop of `createOrder` -/

theorem processItems_nil (s : LoopState) : processItems s [] = .ok s := rfl

theorem processItems_cons_missing (s : LoopState) (item : ReqItem) (rest : List ReqItem)
    (h : s.products item.product = none) :
    processItems s (item :: rest)
      = .error (failure 400 (msgProductNotFound item.product), s.products) := by
  rw [processItems, h]

theorem processItems_cons_short (s : LoopState) (item : ReqItem) (rest : List ReqItem)
    (product : Product) (h : s.products item.product = some product)
    (hlt : product.stock < item.quantity) :
    processItems s (item :: rest)
      = .error (failure 400 (msgInsufficientStock product.name product.stock item.quantity),
                s.products) := by
  rw [processItems, h]
  simp only [if_pos hlt]

theorem processItems_cons_enough (s : LoopState) (item : ReqItem) (rest : List ReqItem)
    (product : Product) (h : s.products item.product = some product)
    (hge : ¬ product.stock < item.quantity) :
    processItems s (item :: rest) = processItems (stepLoop s item product) rest := by
  have hs : (0 : ℚ) ≤ ({ product with stock := product.stock - item.quantity } : Product).stock := by
    show (0 : ℚ) ≤ product.stock - item.quantity
    linarith [not_lt.mp hge]
  rw [processItems, h]
  simp only [if_neg hge, Product.save_of_nonneg _ _ _ hs]
  rfl

theorem processItems_cons_ok (s t : LoopState) (item : ReqItem) (rest : List ReqItem)
    (h : processItems s (item :: rest) = .ok t) :
    ∃ product, s.products item.product = some product ∧ ¬ product.stock < item.quantity ∧
      processItems (stepLoop s item product) rest = .ok t := by
  cases hp : s.products item.product with
  | none =>
    rw [processItems_cons_missing s item rest hp] at h
    cases h
  | some product =>
    by_cases hlt : product.stock < item.quantity
    · rw [processItems_cons_short s item rest product hp hlt] at h
      cases h
    · rw [processItems_cons_enough s item rest product hp hlt] at h
      exact ⟨product, rfl, hlt, h⟩

theorem processItems_append (s t : LoopState) (done rest : List ReqItem)
    (h : processItems s done = .ok t) :
    processItems s (done ++ rest) = processItems t rest := by
  induction done generalizing s with
  | nil =>
    rw [processItems_nil] at h
    cases h
    rfl
  | cons item done ih =>
    obtain ⟨product, hp, hge, hrest⟩ := processItems_cons_ok s t item done h
    rw [List.cons_append, processItems_cons_enough s item (done ++ rest) product hp hge]
    exact ih _ hrest

/-- What a successful run of the loop does to the Product collection: a product
that exists keeps existing with its name, image and price, and its stock goes
down by the quantities requested of it; no product appears. -/
theorem processItems_ok_products (s t : LoopState) (items : List ReqItem)
    (h : processItems s items = .ok t) (id : Id) :
    (∀ p, s.products id = some p →
        ∃ q, t.products id = some q ∧ q.stock = p.stock - requestedQuantity id items ∧
          q.name = p.name ∧ q.image = p.image ∧ q.price = p.price) ∧
      (s.products id = none → t.products id = none) := by
  induction items generalizing s with
  | nil =>
    rw [processItems_nil] at h
    cases h
    refine ⟨fun p hp => ⟨p, hp, ?_, rfl, rfl, rfl⟩, fun hn => hn⟩
    simp [requestedQuantity]
  | cons item rest ih =>
    obtain ⟨product, hp, _, hrest⟩ := processItems_cons_ok s t item rest h
    obtain ⟨ih1, ih2⟩ := ih (stepLoop s item product) hrest
    by_cases hid : item.product = id
    · subst hid
      constructor
      · intro p hp2
        rw [hp] at hp2
        cases hp2
        obtain ⟨q, hq, hstock, hname, himage, hprice⟩ :=
          ih1 (Product.preSave { product with stock := product.stock - item.quantity })
            (by simp [stepLoop])
        refine ⟨q, hq, ?_, hname, himage, hprice⟩
        rw [hstock]
        simp only [Product.preSave, requestedQuantity, List.filter_cons, decide_True, if_true,
          List.map_cons, List.sum_cons]
        ring
      · intro hn
        rw [hp] at hn
        cases hn
    · have hsame : (stepLoop s item product).products id = s.products id := by
        simp [stepLoop, Function.update_noteq (Ne.symm hid)]
      constructor
      · intro p hp2
        obtain ⟨q, hq, hstock, hrest2⟩ := ih1 p (hsame.trans hp2)
        refine ⟨q, hq, ?_, hrest2⟩
        rw [hstock]
        simp [requestedQuantity, List.filter_cons, hid]
      · intro hn
        exact ih2 (hsame.trans hn)

/-- The loop does not touch a product that no item references. -/
theorem processItems_ok_frame (s t : LoopState) (items : List ReqItem)
    (h : processItems s items = .ok t) (id : Id) (hid : ∀ it ∈ items, it.product ≠ id) :
    t.products id = s.products id := by
  induction items generalizing s with
  | nil =>
    rw [processItems_nil] at h
    cases h
    rfl
  | cons item rest ih =>
    obtain ⟨product, _, _, hrest⟩ := processItems_cons_ok s t item rest h
    rw [ih (stepLoop s item product) hrest (fun it hit => hid it (List.mem_cons_of_mem _ hit))]
    simp [stepLoop, Function.update_noteq (Ne.symm (hid item (List.mem_cons_self _ _)))]

/-- The snapshots a successful run of the loop appends, and the subtotal it
accumulates. The products are looked up in the collection the loop starts from:
the loop changes no name, image or price. -/
theorem processItems_ok_items (s t : LoopState) (items : List ReqItem)
    (h : processItems s items = .ok t) :
    ∃ entries : List OrderItem,
      t.processedItems = s.processedItems ++ entries ∧
      List.Forall₂ (fun item entry => ∃ p, s.products item.product = some p ∧
        entry = snapshot item p) items entries ∧
      t.subtotal = s.subtotal + (entries.map (fun e => e.total)).sum := by
  induction items generalizing s with
  | nil =>
    rw [processItems_nil] at h
    cases h
    exact ⟨[], by simp, List.Forall₂.nil, by simp⟩
  | cons item rest ih =>
    obtain ⟨product, hp, _, hrest⟩ := processItems_cons_ok s t item rest h
    obtain ⟨entries, hitems, hrel, hsub⟩ := ih (stepLoop s item product) hrest
    refine ⟨snapshot item product :: entries, ?_, ?_, ?_⟩
    · rw [hitems]
      simp [stepLoop]
    · refine List.Forall₂.cons ⟨product, hp, rfl⟩ ?_
      refine List.Forall₂.imp ?_ hrel
      intro it entry hit
      obtain ⟨q, hq, hentry⟩ := hit
      by_cases hid : item.product = it.product
      · have hq2 : q = Product.preSave { product with stock := product.stock - item.quantity } := by
          have := hq
          simp only [stepLoop, hid, Function.update_same] at this
          exact (Option.some.inj this).symm
        refine ⟨product, hid ▸ hp, ?_⟩
        rw [hentry, hq2]
        rfl
      · refine ⟨q, ?_, hentry⟩
        have := hq
        simp only [stepLoop] at this
        rwa [Function.update_noteq (Ne.symm hid)] at this
    · rw [hsub]
      simp [stepLoop, snapshot]
      ring

theorem processItems_error_status (s : LoopState) (items : List ReqItem) (r : Response)
    (ps : Products) (h : processItems s items = .error (r, ps)) : r.status = 400 := by
  induction items generalizing s with
  | nil =>
    rw [processItems_nil] at h
    cases h
  | cons item rest ih =>
    cases hp : s.products item.product with
    | none =>
      rw [processItems_cons_missing s item rest hp] at h
      cases h
      rfl
    | some product =>
      by_cases hlt : product.stock < item.quantity
      · rw [processItems_cons_short s item rest product hp hlt] at h
        cases h
        rfl
      · rw [processItems_cons_enough s item rest product hp hlt] at h
        exact ih _ h

theorem validateFields_status (f : Fields) (r : Response) (h : validateFields f = some r) :
    r.status = 400 := by
  unfold validateFields at h
  split_ifs at h <;> cases h <;> rfl

theorem validateFields_none (f : Fields) :
    validateFields f = none ↔
      customerOk f = true ∧ addressOk f = true ∧ itemsOk f = true ∧ paymentOk f = true := by
  unfold validateFields
  cases customerOk f <;> cases addressOk f <;> cases itemsOk f <;> cases paymentOk f <;> simp

/-- The response and the store of a `createOrder` call that ends with status 201. -/
theorem createOrder_created (schema : OrderSchema) (now : Timestamp) (newId : Id) (st : Store)
    (req : Request) (h : (createOrder schema now newId st req).1.status = 201) :
    ∃ f items s,
      parseFields req = .ok f ∧ validateFields f = none ∧ f.items = some items ∧
      processItems (initialLoop st) items = .ok s ∧
      schema.validate (buildOrder schema now f s) = [] ∧
      (createOrder schema now newId st req).1.data = some (buildOrder schema now f s) ∧
      (createOrder schema now newId st req).2 =
        { products := s.products,
          orders := Function.update st.orders newId (some (buildOrder schema now f s)) } := by
  have h0 := h
  unfold createOrder at h0
  cases hf : parseFields req with
  | error e =>
    rw [hf] at h0
    simp [failure] at h0
  | ok f =>
    rw [hf] at h0
    simp only at h0
    cases hv : validateFields f with
    | some r =>
      rw [hv] at h0
      simp only at h0
      rw [validateFields_status f r hv] at h0
      cases h0
    | none =>
      rw [hv] at h0
      simp only at h0
      have hitems : ∃ items, f.items = some items := by
        cases hi : f.items with
        | none =>
          have hok := ((validateFields_none f).mp hv).2.2.1
          simp [itemsOk, hi] at hok
        | some items => exact ⟨items, rfl⟩
      obtain ⟨items, hi⟩ := hitems
      have hget : f.items.getD [] = items := by rw [hi]; rfl
      rw [hget] at h0
      cases hl : processItems (initialLoop st) items with
      | error e =>
        obtain ⟨r, ps⟩ := e
        rw [hl] at h0
        simp only at h0
        rw [processItems_error_status _ _ r ps hl] at h0
        cases h0
      | ok s =>
        rw [hl] at h0
        simp only at h0
        cases hs : schema.validate (buildOrder schema now f s) with
        | nil =>
          refine ⟨f, items, s, rfl, hv, hi, hl, hs, ?_, ?_⟩ <;>
          · unfold createOrder
            rw [hf]
            simp only
            rw [hv]
            simp only
            rw [hget, hl]
            simp only
            rw [hs]
        | cons e es =>
          rw [hs] at h0
          simp [validationFailure] at h0

/-- The run of `createOrder` on a request that passes the four checks and whose
items the loop processes to the end, when the Order schema accepts the order. -/
theorem createOrder_of_loop_ok (schema : OrderSchema) (now : Timestamp) (newId : Id)
    (st : Store) (req : Request) (f : Fields) (items : List ReqItem) (s : LoopState)
    (hf : parseFields req = .ok f) (hv : validateFields f = none) (hi : f.items = some items)
    (hl : processItems (initialLoop st) items = .ok s)
    (hs : schema.validate (buildOrder schema now f s) = []) :
    createOrder schema now newId st req =
      ({ status := 201, success := true, message := [.lit "Order created successfully"],
         data := some (buildOrder schema now f s), errors := [] },
       { products := s.products,
         orders := Function.update st.orders newId (some (buildOrder schema now f s)) }) := by
  have hget : f.items.getD [] = items := by rw [hi]; rfl
  unfold createOrder
  rw [hf]
  simp only
  rw [hv]
  simp only
  rw [hget, hl]
  simp only
  rw [hs]

/-- The run of `createOrder` on a request that passes the four checks and whose
item loop is left early. -/
theorem createOrder_of_loop_error (schema : OrderSchema) (now : Timestamp) (newId : Id)
    (st : Store) (req : Request) (f : Fields) (items : List ReqItem) (r : Response)
    (ps : Products)
    (hf : parseFields req = .ok f) (hv : validateFields f = none) (hi : f.items = some items)
    (hl : processItems (initialLoop st) items = .error (r, ps)) :
    createOrder schema now newId st req = (r, { products := ps, orders := st.orders }) := by
  have hget : f.items.getD [] = items := by rw [hi]; rfl
  unfold createOrder
  rw [hf]
  simp only
  rw [hv]
  simp only
  rw [hget, hl]

/-- The sample request passes the four checks, whatever its items (if any). -/
theorem sampleRequest_fields (item : ReqItem) (items : List ReqItem) :
    ∃ f, parseFields (sampleRequest (item :: items)) = .ok f ∧ validateFields f = none ∧
      f.items = some (item :: items) :=
  ⟨_, rfl, by
    rw [validateFields_none]
    exact ⟨rfl, rfl, rfl, rfl⟩, rfl⟩

/-! ## Order totals -/

/-- C1: when `createOrder` succeeds (status 201), the order it persists and returns
satisfies total = subtotal + tax + shipping, where shipping is 0 when the
subtotal exceeds 100 and 10 otherwise (also at a subtotal of exactly 100). -/
theorem createOrder_total (schema : OrderSchema) (now : Timestamp) (newId : Id) (st : Store)
    (req : Request) (h : (createOrder schema now newId st req).1.status = 201) :
    ∃ o, (createOrder schema now newId st req).2.orders newId = some o ∧
      (createOrder schema now newId st req).1.data = some o ∧
      o.total = o.subtotal + o.tax + o.shipping ∧
      o.shipping = (if o.subtotal > 100 then 0 else 10) ∧
      (o.subtotal = 100 → o.shipping = 10) := by
  obtain ⟨f, items, s, _, _, _, _, _, hdata, hstore⟩ :=
    createOrder_created schema now newId st req h
  refine ⟨buildOrder schema now f s, ?_, hdata, rfl, rfl, ?_⟩
  · rw [hstore]
    simp
  · intro h100
    have h100' : s.subtotal = 100 := h100
    show (if s.subtotal > 100 then (0 : ℚ) else 10) = 10
    rw [h100']
    norm_num

/-- C1, the specification's example: price 20, quantity 2 gives subtotal 40,
tax 3.2, shipping 10 and total 53.2. -/
theorem createOrder_total_witness :
    (createOrder sampleSchema 0 7 sampleStore gameRequest).1.status = 201 ∧
    (∃ o, (createOrder sampleSchema 0 7 sampleStore gameRequest).2.orders 7 = some o ∧
      (createOrder sampleSchema 0 7 sampleStore gameRequest).1.data = some o ∧
      o.total = o.subtotal + o.tax + o.shipping ∧
      o.shipping = (if o.subtotal > 100 then 0 else 10) ∧
      (o.subtotal = 100 → o.shipping = 10)) ∧
    (∃ o, (createOrder sampleSchema 0 7 sampleStore gameRequest).2.orders 7 = some o ∧
      o.subtotal = 40 ∧ o.tax = 3.2 ∧ o.shipping = 10 ∧ o.total = 53.2) :=
  ⟨by with_unfolding_all decide,
   createOrder_total sampleSchema 0 7 sampleStore gameRequest (by with_unfolding_all decide),
   by
    refine ⟨buildOrder sampleSchema 0
      { customer := some { name := some "Ada", email := some "ada@example.com",
                           phone := some "555-0100" },
        items := some [{ product := 1, quantity := 2 }],
        shippingAddress := { street := "1 Main St", city := "Colombo", state := "", zip := "",
                             country := "" },
        paymentMethod := some "bank_transfer", notes := none }
      { products := Function.update sampleStore.products 1
          (some (Product.preSave { gameX with stock := 3 })),
        processedItems := [snapshot { product := 1, quantity := 2 } gameX],
        subtotal := 40 }, ?_, ?_, ?_, ?_, ?_⟩
    · with_unfolding_all decide
    · rfl
    · norm_num [buildOrder]
    · norm_num [buildOrder]
    · norm_num [buildOrder]⟩

/-- The value `round2` rounds to itself exactly when it is a whole number of
hundredths. -/
theorem round2_eq_self_iff (x : ℚ) : round2 x = x ↔ ∃ n : ℤ, x * 100 = n := by
  unfold round2
  constructor
  · intro h
    refine ⟨round (x * 100), ?_⟩
    have h2 := congrArg (fun y => y * 100) h
    simp only at h2
    rw [← h2]
    field_simp
  · rintro ⟨n, hn⟩
    rw [hn, round_intCast, ← hn]
    field_simp

/-- C2, counterexample: an order of one item priced 0.10 succeeds and is persisted
with tax 0.008, while `round2` of subtotal × 0.08 is 0.01. -/
theorem createOrder_tax_not_rounded :
    (createOrder sampleSchema 0 7 sampleStore stickerRequest).1.status = 201 ∧
    ∃ o, (createOrder sampleSchema 0 7 sampleStore stickerRequest).2.orders 7 = some o ∧
      o.subtotal = 0.10 ∧ o.tax = 0.008 ∧ round2 (o.subtotal * 0.08) = 0.01 ∧
      o.tax ≠ round2 (o.subtotal * 0.08) := by
  obtain ⟨f, hf, hv, hi⟩ := sampleRequest_fields { product := 2, quantity := 1 } []
  have hl : processItems (initialLoop sampleStore) [{ product := 2, quantity := 1 }]
      = .ok (stepLoop (initialLoop sampleStore) { product := 2, quantity := 1 } sticker) :=
    processItems_cons_enough _ _ _ sticker rfl (by norm_num [sticker])
  have hrun := createOrder_of_loop_ok sampleSchema 0 7 sampleStore stickerRequest f _ _
    hf hv hi hl rfl
  rw [hrun]
  refine ⟨rfl, buildOrder sampleSchema 0 f
    (stepLoop (initialLoop sampleStore) { product := 2, quantity := 1 } sticker),
    ?_, ?_, ?_, ?_, ?_⟩
  · simp only [Function.update_same]
  all_goals norm_num [buildOrder, stepLoop, initialLoop, sticker, round2, round_eq]

/-- C2, amended: when `createOrder` succeeds, the persisted tax is subtotal × 0.08
with no rounding; it equals `round2 (subtotal × 0.08)` exactly when subtotal × 8
is a whole number. -/
theorem createOrder_tax (schema : OrderSchema) (now : Timestamp) (newId : Id) (st : Store)
    (req : Request) (h : (createOrder schema now newId st req).1.status = 201) :
    ∃ o, (createOrder schema now newId st req).2.orders newId = some o ∧
      (createOrder schema now newId st req).1.data = some o ∧
      o.tax = o.subtotal * 0.08 ∧
      (o.tax = round2 (o.subtotal * 0.08) ↔ ∃ n : ℤ, o.subtotal * 8 = n) := by
  obtain ⟨f, items, s, _, _, _, _, _, hdata, hstore⟩ :=
    createOrder_created schema now newId st req h
  have htax : (buildOrder schema now f s).tax = (buildOrder schema now f s).subtotal * 0.08 := by
    show s.subtotal * (8 / 100) = s.subtotal * 0.08
    norm_num
  refine ⟨buildOrder schema now f s, ?_, hdata, htax, ?_⟩
  · rw [hstore]
    simp
  · rw [htax, eq_comm, round2_eq_self_iff]
    constructor
    · rintro ⟨n, hn⟩
      refine ⟨n, ?_⟩
      rw [← hn]
      norm_num
      ring
    · rintro ⟨n, hn⟩
      refine ⟨n, ?_⟩
      rw [← hn]
      norm_num
      ring

/-- C2, amended, at the order of one 0.10 item: the tax is 0.10 × 0.08. -/
theorem createOrder_tax_witness :
    (createOrder sampleSchema 0 7 sampleStore stickerRequest).1.status = 201 ∧
    ∃ o, (createOrder sampleSchema 0 7 sampleStore stickerRequest).2.orders 7 = some o ∧
      (createOrder sampleSchema 0 7 sampleStore stickerRequest).1.data = some o ∧
      o.tax = o.subtotal * 0.08 ∧
      (o.tax = round2 (o.subtotal * 0.08) ↔ ∃ n : ℤ, o.subtotal * 8 = n) :=
  ⟨by with_unfolding_all decide,
   createOrder_tax sampleSchema 0 7 sampleStore stickerRequest (by with_unfolding_all decide)⟩

/-! ## Line items and stock -/

/-- C3: when `createOrder` succeeds, the persisted order's items correspond one to
one, in request order, to the request's items; each entry carries the id, name,
image and price of the product stored under the requested id, the requested
quantity and total = price × quantity; the subtotal is the sum of the entries'
totals. -/
theorem createOrder_items (schema : OrderSchema) (now : Timestamp) (newId : Id) (st : Store)
    (req : Request) (h : (createOrder schema now newId st req).1.status = 201) :
    ∃ f items o, parseFields req = .ok f ∧ f.items = some items ∧
      (createOrder schema now newId st req).2.orders newId = some o ∧
      (createOrder schema now newId st req).1.data = some o ∧
      o.items.length = items.length ∧
      List.Forall₂ (fun (item : ReqItem) (entry : OrderItem) =>
          ∃ p, st.products item.product = some p ∧
            entry.product = item.product ∧ entry.name = p.name ∧ entry.image = p.image ∧
            entry.price = p.price ∧ entry.quantity = item.quantity ∧
            entry.total = p.price * item.quantity ∧ entry.total = entry.price * entry.quantity)
        items o.items ∧
      o.subtotal = (o.items.map (fun e => e.total)).sum := by
  obtain ⟨f, items, s, hf, _, hi, hl, _, hdata, hstore⟩ :=
    createOrder_created schema now newId st req h
  obtain ⟨entries, hitems, hrel, hsub⟩ := processItems_ok_items _ _ _ hl
  have hentries : s.processedItems = entries := by
    rw [hitems]
    rfl
  have hrel2 : List.Forall₂ (fun (item : ReqItem) (entry : OrderItem) =>
      ∃ p, st.products item.product = some p ∧
        entry.product = item.product ∧ entry.name = p.name ∧ entry.image = p.image ∧
        entry.price = p.price ∧ entry.quantity = item.quantity ∧
        entry.total = p.price * item.quantity ∧ entry.total = entry.price * entry.quantity)
      items entries := by
    refine List.Forall₂.imp ?_ hrel
    rintro item entry ⟨p, hp, rfl⟩
    exact ⟨p, hp, rfl, rfl, rfl, rfl, rfl, rfl, rfl⟩
  refine ⟨f, items, buildOrder schema now f s, hf, hi, ?_, hdata, ?_, ?_, ?_⟩
  · rw [hstore]
    simp
  · show s.processedItems.length = items.length
    rw [hentries]
    exact hrel2.length_eq.symm
  · show List.Forall₂ _ items s.processedItems
    rw [hentries]
    exact hrel2
  · show s.subtotal = (s.processedItems.map (fun e => e.total)).sum
    rw [hsub, hentries]
    show (0 : ℚ) + _ = _
    rw [zero_add]

/-- C3 at the specification's example: one entry, Game X at 20, quantity 2,
total 40. -/
theorem createOrder_items_witness :
    (createOrder sampleSchema 0 7 sampleStore gameRequest).1.status = 201 ∧
    ∃ f items o, parseFields gameRequest = .ok f ∧ f.items = some items ∧
      (createOrder sampleSchema 0 7 sampleStore gameRequest).2.orders 7 = some o ∧
      (createOrder sampleSchema 0 7 sampleStore gameRequest).1.data = some o ∧
      o.items.length = items.length ∧
      List.Forall₂ (fun (item : ReqItem) (entry : OrderItem) =>
          ∃ p, sampleStore.products item.product = some p ∧
            entry.product = item.product ∧ entry.name = p.name ∧ entry.image = p.image ∧
            entry.price = p.price ∧ entry.quantity = item.quantity ∧
            entry.total = p.price * item.quantity ∧ entry.total = entry.price * entry.quantity)
        items o.items ∧
      o.subtotal = (o.items.map (fun e => e.total)).sum :=
  ⟨by with_unfolding_all decide,
   createOrder_items sampleSchema 0 7 sampleStore gameRequest (by with_unfolding_all decide)⟩

/-- C4: when `createOrder` succeeds, every product's stock afterwards is its stock
before minus the sum of the quantities of the request items that reference it,
no product appears or disappears, and a product that no item references is
left as it was. -/
theorem createOrder_stock (schema : OrderSchema) (now : Timestamp) (newId : Id) (st : Store)
    (req : Request) (h : (createOrder schema now newId st req).1.status = 201) :
    ∃ f items, parseFields req = .ok f ∧ f.items = some items ∧
      ∀ id,
        (∀ p, st.products id = some p →
          ∃ q, (createOrder schema now newId st req).2.products id = some q ∧
            q.stock = p.stock - requestedQuantity id items) ∧
        (st.products id = none → (createOrder schema now newId st req).2.products id = none) ∧
        ((∀ it ∈ items, it.product ≠ id) →
          (createOrder schema now newId st req).2.products id = st.products id) := by
  obtain ⟨f, items, s, hf, _, hi, hl, _, _, hstore⟩ :=
    createOrder_created schema now newId st req h
  refine ⟨f, items, hf, hi, fun id => ?_⟩
  rw [hstore]
  obtain ⟨h1, h2⟩ := processItems_ok_products _ _ _ hl id
  refine ⟨fun p hp => ?_, h2, processItems_ok_frame _ _ _ hl id⟩
  obtain ⟨q, hq, hstock, _⟩ := h1 p hp
  exact ⟨q, hq, hstock⟩

/-- C4 at the specification's example: a product with stock 5 ordered with
quantity 2 ends with stock 3, and the other product keeps its stock. -/
theorem createOrder_stock_witness :
    (createOrder sampleSchema 0 7 sampleStore gameRequest).1.status = 201 ∧
    (∃ f items, parseFields gameRequest = .ok f ∧ f.items = some items ∧
      ∀ id,
        (∀ p, sampleStore.products id = some p →
          ∃ q, (createOrder sampleSchema 0 7 sampleStore gameRequest).2.products id = some q ∧
            q.stock = p.stock - requestedQuantity id items) ∧
        (sampleStore.products id = none →
          (createOrder sampleSchema 0 7 sampleStore gameRequest).2.products id = none) ∧
        ((∀ it ∈ items, it.product ≠ id) →
          (createOrder sampleSchema 0 7 sampleStore gameRequest).2.products id
            = sampleStore.products id)) ∧
    ((createOrder sampleSchema 0 7 sampleStore gameRequest).2.products 1).map (fun p => p.stock)
      = some 3 ∧
    ((createOrder sampleSchema 0 7 sampleStore gameRequest).2.products 2).map (fun p => p.stock)
      = some 50 :=
  ⟨by with_unfolding_all decide,
   createOrder_stock sampleSchema 0 7 sampleStore gameRequest (by with_unfolding_all decide),
   by with_unfolding_all decide, by with_unfolding_all decide⟩

/-! ## Insufficient stock -/

/-- C5: when the loop has processed the items before item k and item k's product
has less stock than requested, `createOrder` answers 400 with the message naming
the product, its available stock and the requested quantity; no order is
persisted; the Product collection is exactly the one left by the items before k
(their decrements stay, item k and the later items change nothing). -/
theorem createOrder_insufficient (schema : OrderSchema) (now : Timestamp) (newId : Id)
    (st : Store) (req : Request) (f : Fields) (done rest : List ReqItem) (item : ReqItem)
    (s : LoopState) (product : Product)
    (hf : parseFields req = .ok f) (hv : validateFields f = none)
    (hi : f.items = some (done ++ item :: rest))
    (hdone : processItems (initialLoop st) done = .ok s)
    (hp : s.products item.product = some product) (hlt : product.stock < item.quantity) :
    (createOrder schema now newId st req).1
        = failure 400 (msgInsufficientStock product.name product.stock item.quantity) ∧
      (createOrder schema now newId st req).1.status = 400 ∧
      (createOrder schema now newId st req).2.orders = st.orders ∧
      (createOrder schema now newId st req).2.products = s.products ∧
      (createOrder schema now newId st req).2.products item.product = some product ∧
      (∀ id p, st.products id = some p →
        ∃ q, (createOrder schema now newId st req).2.products id = some q ∧
          q.stock = p.stock - requestedQuantity id done) := by
  have hl : processItems (initialLoop st) (done ++ item :: rest)
      = .error (failure 400 (msgInsufficientStock product.name product.stock item.quantity),
                s.products) := by
    rw [processItems_append _ _ _ _ hdone]
    exact processItems_cons_short s item rest product hp hlt
  rw [createOrder_of_loop_error schema now newId st req f _ _ _ hf hv hi hl]
  refine ⟨rfl, rfl, rfl, rfl, hp, fun id p hpid => ?_⟩
  obtain ⟨q, hq, hstock, _⟩ := (processItems_ok_products _ _ _ hdone id).1 p hpid
  exact ⟨q, hq, hstock⟩

/-- C5 at a request for one sticker and then nine Game X with five in stock: the
answer names Game X, 5 and 9, the sticker's stock stays decremented to 49 and
Game X keeps its stock of 5. -/
theorem createOrder_insufficient_witness :
    (createOrder sampleSchema 0 7 sampleStore (sampleRequest overdrawnItems)).1
        = failure 400 (msgInsufficientStock "Game X" 5 9) ∧
      (createOrder sampleSchema 0 7 sampleStore (sampleRequest overdrawnItems)).1.status = 400 ∧
      (createOrder sampleSchema 0 7 sampleStore (sampleRequest overdrawnItems)).2.orders
        = sampleStore.orders ∧
      (createOrder sampleSchema 0 7 sampleStore (sampleRequest overdrawnItems)).2.products
        = (stepLoop (initialLoop sampleStore) { product := 2, quantity := 1 } sticker).products ∧
      (createOrder sampleSchema 0 7 sampleStore (sampleRequest overdrawnItems)).2.products 1
        = some gameX ∧
      (∀ id p, sampleStore.products id = some p →
        ∃ q, (createOrder sampleSchema 0 7 sampleStore (sampleRequest overdrawnItems)).2.products id
            = some q ∧
          q.stock = p.stock - requestedQuantity id [{ product := 2, quantity := 1 }]) := by
  obtain ⟨f, hf, hv, hi⟩ :=
    sampleRequest_fields { product := 2, quantity := 1 } [{ product := 1, quantity := 9 }]
  exact createOrder_insufficient sampleSchema 0 7 sampleStore (sampleRequest overdrawnItems) f
    [{ product := 2, quantity := 1 }] [] { product := 1, quantity := 9 }
    (stepLoop (initialLoop sampleStore) { product := 2, quantity := 1 } sticker) gameX
    hf hv hi
    (processItems_cons_enough _ _ _ sticker rfl (by norm_num [sticker]))
    (by simp [stepLoop, initialLoop, sampleStore])
    (by norm_num [gameX])

/-! ## Sequential processing -/

/-- When every item references the same product, the loop runs to its end exactly
when no non-empty prefix of the quantities adds up to more than the stock the
loop starts with. -/
theorem processItems_single_product (pid : Id) (items : List ReqItem)
    (hall : ∀ it ∈ items, it.product = pid) (s : LoopState) (p : Product)
    (hp : s.products pid = some p) :
    (∃ t, processItems s items = .ok t) ↔
      ∀ n, 1 ≤ n → n ≤ items.length →
        ((items.take n).map (fun it => it.quantity)).sum ≤ p.stock := by
  induction items generalizing s p with
  | nil =>
    constructor
    · intro _ n h1 h2
      simp only [List.length_nil] at h2
      omega
    · intro _
      exact ⟨s, rfl⟩
  | cons item rest ih =>
    have hitem : item.product = pid := hall item (List.mem_cons_self _ _)
    have hrest : ∀ it ∈ rest, it.product = pid :=
      fun it hit => hall it (List.mem_cons_of_mem _ hit)
    have hp1 : s.products item.product = some p := by rw [hitem]; exact hp
    have hnext : (stepLoop s item p).products pid
        = some (Product.preSave { p with stock := p.stock - item.quantity }) := by
      simp [stepLoop, hitem]
    have hih := ih hrest (stepLoop s item p) _ hnext
    have hstock : (Product.preSave { p with stock := p.stock - item.quantity }).stock
        = p.stock - item.quantity := rfl
    rw [hstock] at hih
    constructor
    · rintro ⟨t, ht⟩
      obtain ⟨product, hprod, hge, hrun⟩ := processItems_cons_ok s t item rest ht
      rw [hp1] at hprod
      cases hprod
      have hle := hih.mp ⟨t, hrun⟩
      intro n h1 h2
      obtain ⟨m, rfl⟩ : ∃ m, n = m + 1 := ⟨n - 1, by omega⟩
      simp only [List.take_succ_cons, List.map_cons, List.sum_cons]
      rcases Nat.eq_zero_or_pos m with hm | hm
      · subst hm
        simp only [List.take_zero, List.map_nil, List.sum_nil, add_zero]
        exact not_lt.mp hge
      · have := hle m hm (by simpa using h2)
        linarith
    · intro hle
      have h1 := hle 1 le_rfl (by simp)
      simp only [List.take_succ_cons, List.take_zero, List.map_cons, List.map_nil,
        List.sum_cons, List.sum_nil, add_zero] at h1
      have hge : ¬ p.stock < item.quantity := not_lt.mpr h1
      rw [processItems_cons_enough s item rest p hp1 hge]
      apply hih.mpr
      intro n hn1 hn2
      have := hle (n + 1) (by omega) (by simpa using hn2)
      simp only [List.take_succ_cons, List.map_cons, List.sum_cons] at this
      linarith

/-- C6: the items of a request are processed one after the other, each stock check
seeing the decrements of the items before it. For a product stored with stock
`p.stock`: a request with two items for it, quantities q1 and q2 with
q1 ≤ stock, q2 ≤ stock and q1 + q2 > stock, is refused with the insufficient
stock message reporting stock − q1 available and q2 requested; and a request
all of whose items reference it (one the Order schema accepts) succeeds exactly
when every non-empty prefix of the quantities sums to at most the stock, which
for a stock that is not negative is to say every prefix. -/
theorem createOrder_sequential (schema : OrderSchema) (now : Timestamp) (newId : Id)
    (st : Store) (req : Request) (f : Fields) (pid : Id) (p : Product)
    (hf : parseFields req = .ok f) (hv : validateFields f = none)
    (hp : st.products pid = some p) :
    (∀ q1 q2 : ℚ,
      f.items = some [{ product := pid, quantity := q1 }, { product := pid, quantity := q2 }] →
      q1 ≤ p.stock → q2 ≤ p.stock → q1 + q2 > p.stock →
      (createOrder schema now newId st req).1
        = failure 400 (msgInsufficientStock p.name (p.stock - q1) q2)) ∧
    (∀ items, f.items = some items → (∀ it ∈ items, it.product = pid) →
      (∀ s, schema.validate (buildOrder schema now f s) = []) →
      ((createOrder schema now newId st req).1.status = 201 ↔
          ∀ n, 1 ≤ n → n ≤ items.length →
            ((items.take n).map (fun it => it.quantity)).sum ≤ p.stock) ∧
      (0 ≤ p.stock →
        ((createOrder schema now newId st req).1.status = 201 ↔
          ∀ n, n ≤ items.length →
            ((items.take n).map (fun it => it.quantity)).sum ≤ p.stock))) := by
  constructor
  · intro q1 q2 hi h1 _ h12
    have hstep : processItems (initialLoop st) [{ product := pid, quantity := q1 }]
        = .ok (stepLoop (initialLoop st) { product := pid, quantity := q1 } p) :=
      processItems_cons_enough _ _ _ p hp (not_lt.mpr h1)
    have hl : processItems (initialLoop st)
        ([{ product := pid, quantity := q1 }] ++ [{ product := pid, quantity := q2 }])
        = .error (failure 400 (msgInsufficientStock p.name (p.stock - q1) q2),
            (stepLoop (initialLoop st) { product := pid, quantity := q1 } p).products) := by
      rw [processItems_append _ _ _ _ hstep]
      exact processItems_cons_short _ _ _
        (Product.preSave { p with stock := p.stock - q1 })
        (by simp [stepLoop])
        (by show p.stock - q1 < q2
            linarith)
    rw [createOrder_of_loop_error schema now newId st req f _ _ _ hf hv hi hl]
  · intro items hi hall hschema
    have hiff : (createOrder schema now newId st req).1.status = 201 ↔
        ∀ n, 1 ≤ n → n ≤ items.length →
          ((items.take n).map (fun it => it.quantity)).sum ≤ p.stock := by
      rw [← processItems_single_product pid items hall (initialLoop st) p hp]
      constructor
      · intro h201
        obtain ⟨f2, items2, s, hf2, _, hi2, hl, _⟩ :=
          createOrder_created schema now newId st req h201
        rw [hf] at hf2
        cases hf2
        rw [hi] at hi2
        cases hi2
        exact ⟨s, hl⟩
      · rintro ⟨t, ht⟩
        rw [createOrder_of_loop_ok schema now newId st req f items t hf hv hi ht (hschema t)]
    refine ⟨hiff, fun h0 => hiff.trans ⟨fun hall1 n hn => ?_, fun hall0 n _ hn => hall0 n hn⟩⟩
    rcases Nat.eq_zero_or_pos n with hz | hpos
    · subst hz
      simpa using h0
    · exact hall1 n hpos hn

/-- C6 at two lines of three Game X with five in stock: the second line is refused
with 2 available; and the request succeeds exactly when the prefix sums 3 and 6
are at most 5, which they are not. -/
theorem createOrder_sequential_witness :
    (createOrder sampleSchema 0 7 sampleStore (sampleRequest repeatedItems)).1
        = failure 400 (msgInsufficientStock "Game X" (5 - 3) 3) ∧
    ((createOrder sampleSchema 0 7 sampleStore (sampleRequest repeatedItems)).1.status = 201 ↔
      ∀ n, 1 ≤ n → n ≤ repeatedItems.length →
        ((repeatedItems.take n).map (fun it => it.quantity)).sum ≤ (5 : ℚ)) := by
  obtain ⟨f, hf, hv, hi⟩ :=
    sampleRequest_fields { product := 1, quantity := 3 } [{ product := 1, quantity := 3 }]
  have h := createOrder_sequential sampleSchema 0 7 sampleStore (sampleRequest repeatedItems) f
    1 gameX hf hv rfl
  refine ⟨h.1 3 3 hi (by norm_num [gameX]) (by norm_num [gameX]) (by norm_num [gameX]), ?_⟩
  exact (h.2 repeatedItems hi (by simp [repeatedItems]) (fun _ => rfl)).1

/-! ## Request validation -/

/-- A request that fails one of the four checks is answered by `validateFields`
and leaves the store as it is. -/
theorem createOrder_of_invalid (schema : OrderSchema) (now : Timestamp) (newId : Id)
    (st : Store) (req : Request) (f : Fields) (r : Response)
    (hf : parseFields req = .ok f) (hv : validateFields f = some r) :
    createOrder schema now newId st req = (r, st) := by
  unfold createOrder
  rw [hf]
  simp only
  rw [hv]

/-- C7: `createOrder` checks customer, then address, then items, then payment
method, and answers 400 with the message of the first check that fails; the
four messages are pairwise different; when a check fails the store (product
stock and orders) is unchanged. -/
theorem createOrder_validation_order (schema : OrderSchema) (now : Timestamp) (newId : Id)
    (st : Store) (req : Request) (f : Fields) (hf : parseFields req = .ok f) :
    (customerOk f = false →
      (createOrder schema now newId st req).1 = failure 400 msgCustomer) ∧
    (customerOk f = true → addressOk f = false →
      (createOrder schema now newId st req).1 = failure 400 msgAddress) ∧
    (customerOk f = true → addressOk f = true → itemsOk f = false →
      (createOrder schema now newId st req).1 = failure 400 msgItems) ∧
    (customerOk f = true → addressOk f = true → itemsOk f = true → paymentOk f = false →
      (createOrder schema now newId st req).1 = failure 400 msgPayment) ∧
    (msgCustomer ≠ msgAddress ∧ msgCustomer ≠ msgItems ∧ msgCustomer ≠ msgPayment ∧
      msgAddress ≠ msgItems ∧ msgAddress ≠ msgPayment ∧ msgItems ≠ msgPayment) ∧
    ((customerOk f = false ∨ addressOk f = false ∨ itemsOk f = false ∨ paymentOk f = false) →
      (createOrder schema now newId st req).1.status = 400 ∧
      (createOrder schema now newId st req).2 = st) := by
  refine ⟨?_, ?_, ?_, ?_, ⟨by decide, by decide, by decide, by decide, by decide, by decide⟩, ?_⟩
  · intro h1
    have hv : validateFields f = some (failure 400 msgCustomer) := by
      simp [validateFields, h1]
    rw [createOrder_of_invalid schema now newId st req f _ hf hv]
  · intro h1 h2
    have hv : validateFields f = some (failure 400 msgAddress) := by
      simp [validateFields, h1, h2]
    rw [createOrder_of_invalid schema now newId st req f _ hf hv]
  · intro h1 h2 h3
    have hv : validateFields f = some (failure 400 msgItems) := by
      simp [validateFields, h1, h2, h3]
    rw [createOrder_of_invalid schema now newId st req f _ hf hv]
  · intro h1 h2 h3 h4
    have hv : validateFields f = some (failure 400 msgPayment) := by
      simp [validateFields, h1, h2, h3, h4]
    rw [createOrder_of_invalid schema now newId st req f _ hf hv]
  · intro hfail
    cases hv : validateFields f with
    | none =>
      obtain ⟨h1, h2, h3, h4⟩ := (validateFields_none f).mp hv
      rw [h1, h2, h3, h4] at hfail
      simp at hfail
    | some r =>
      rw [createOrder_of_invalid schema now newId st req f r hf hv]
      exact ⟨validateFields_status f r hv, rfl⟩

/-- C7 at a request that lacks both `customer.phone` and `paymentMethod`: the
answer is the customer message, and the store is unchanged. -/
theorem createOrder_validation_order_witness :
    (createOrder sampleSchema 0 7 sampleStore incompleteRequest).1 = failure 400 msgCustomer ∧
    (createOrder sampleSchema 0 7 sampleStore incompleteRequest).1.status = 400 ∧
    (createOrder sampleSchema 0 7 sampleStore incompleteRequest).2 = sampleStore :=
  have h := createOrder_validation_order sampleSchema 0 7 sampleStore incompleteRequest _ rfl
  ⟨h.1 rfl, h.2.2.2.2.2 (Or.inl rfl)⟩

/-! ## `deleteOrder` -/

theorem restoreStock_cons_missing (products : Products) (item : OrderItem)
    (rest : List OrderItem) (h : products item.product = none) :
    restoreStock products (item :: rest) = restoreStock products rest := by
  rw [restoreStock, h]

theorem restoreStock_cons_found (products : Products) (item : OrderItem)
    (rest : List OrderItem) (product : Product) (h : products item.product = some product)
    (hnn : 0 ≤ product.stock + item.quantity) :
    restoreStock products (item :: rest)
      = restoreStock (Function.update products item.product
          (some (Product.preSave { product with stock := product.stock + item.quantity })))
          rest := by
  rw [restoreStock, h]
  simp only [Product.save_of_nonneg products item.product
    { product with stock := product.stock + item.quantity } hnn]

theorem restoreStock_cons_negative (products : Products) (item : OrderItem)
    (rest : List OrderItem) (product : Product) (h : products item.product = some product)
    (hneg : product.stock + item.quantity < 0) :
    restoreStock products (item :: rest) = .error products := by
  rw [restoreStock, h]
  simp only [Product.save_of_neg products item.product
    { product with stock := product.stock + item.quantity } hneg]

/-- What a run of the restoring loop that reaches its end does: every product that
exists gets the quantities of the items that reference it added to its stock,
and nothing else changes. -/
theorem restoreStock_ok_effect (products ps : Products) (items : List OrderItem)
    (h : restoreStock products items = .ok ps) (id : Id) :
    (∀ p, products id = some p →
      ∃ q, ps id = some q ∧ q.stock = p.stock + orderedQuantity id items ∧
        q.name = p.name ∧ q.image = p.image ∧ q.price = p.price) ∧
    (products id = none → ps id = none) ∧
    ((∀ it ∈ items, it.product ≠ id) → ps id = products id) := by
  induction items generalizing products with
  | nil =>
    rw [restoreStock] at h
    cases h
    refine ⟨fun p hp => ⟨p, hp, ?_, rfl, rfl, rfl⟩, fun hn => hn, fun _ => rfl⟩
    simp [orderedQuantity]
  | cons item rest ih =>
    cases hp : products item.product with
    | none =>
      rw [restoreStock_cons_missing products item rest hp] at h
      obtain ⟨h1, h2, h3⟩ := ih products h
      refine ⟨fun p hpid => ?_, h2,
        fun hne => h3 (fun it hit => hne it (List.mem_cons_of_mem _ hit))⟩
      have hne : item.product ≠ id := by
        intro heq
        rw [heq, hpid] at hp
        cases hp
      obtain ⟨q, hq1, hq2, hq3⟩ := h1 p hpid
      refine ⟨q, hq1, ?_, hq3⟩
      rw [hq2]
      simp [orderedQuantity, List.filter_cons, hne]
    | some product =>
      by_cases hneg : product.stock + item.quantity < 0
      · rw [restoreStock_cons_negative products item rest product hp hneg] at h
        cases h
      · rw [restoreStock_cons_found products item rest product hp (not_lt.mp hneg)] at h
        obtain ⟨h1, h2, h3⟩ := ih _ h
        by_cases heq : id = item.product
        · subst heq
          refine ⟨fun p hpid => ?_, fun hn => ?_, fun hne => ?_⟩
          · rw [hp] at hpid
            cases hpid
            obtain ⟨q, hq1, hq2, hq3⟩ :=
              h1 (Product.preSave { product with stock := product.stock + item.quantity })
                (Function.update_same _ _ _)
            refine ⟨q, hq1, ?_, hq3⟩
            rw [hq2]
            simp only [Product.preSave, orderedQuantity, List.filter_cons, decide_True, if_true,
              List.map_cons, List.sum_cons]
            ring
          · rw [hp] at hn
            cases hn
          · exact absurd rfl (hne item (List.mem_cons_self _ _))
        · have hsame : Function.update products item.product
              (some (Product.preSave { product with stock := product.stock + item.quantity })) id
              = products id := Function.update_noteq heq _ _
          refine ⟨fun p hpid => ?_, fun hn => h2 (hsame.trans hn), fun hne => ?_⟩
          · obtain ⟨q, hq1, hq2, hq3⟩ := h1 p (hsame.trans hpid)
            refine ⟨q, hq1, ?_, hq3⟩
            rw [hq2]
            simp [orderedQuantity, List.filter_cons, Ne.symm heq]
          · rw [h3 (fun it hit => hne it (List.mem_cons_of_mem _ hit))]
            exact hsame

/-- With no negative stock in the collection and no negative quantity in the
items, no `save` of the restoring loop throws. -/
theorem restoreStock_total (products : Products) (items : List OrderItem)
    (hstock : ∀ id p, products id = some p → 0 ≤ p.stock)
    (hq : ∀ it ∈ items, 0 ≤ it.quantity) :
    ∃ ps, restoreStock products items = .ok ps := by
  induction items generalizing products with
  | nil => exact ⟨products, rfl⟩
  | cons item rest ih =>
    have hqrest : ∀ it ∈ rest, 0 ≤ it.quantity :=
      fun it hit => hq it (List.mem_cons_of_mem _ hit)
    have hqitem : 0 ≤ item.quantity := hq item (List.mem_cons_self _ _)
    cases hp : products item.product with
    | none =>
      rw [restoreStock_cons_missing products item rest hp]
      exact ih products hstock hqrest
    | some product =>
      have hnn : 0 ≤ product.stock + item.quantity := by
        have := hstock _ _ hp
        linarith
      rw [restoreStock_cons_found products item rest product hp hnn]
      apply ih _ _ hqrest
      intro id p hpid
      by_cases heq : id = item.product
      · subst heq
        rw [Function.update_same] at hpid
        cases hpid
        exact hnn
      · rw [Function.update_noteq heq] at hpid
        exact hstock id p hpid

/-- C8: `deleteOrder` on an existing order. When the status is not completed, the
handler adds every item's quantity back to the stock of its product and then
removes the order: it answers 200 whenever no stored stock and no item quantity
is negative, and whenever it answers 200 the order is gone, every product that
exists has its stock raised by the sum of the quantities of the order's items
that reference it, and a product that no item references is unchanged. When
the status is completed, the order is removed and the products are untouched. -/
theorem deleteOrder_restores (st : Store) (id : Id) (o : Order)
    (ho : st.orders id = some o) :
    (o.status ≠ "completed" →
      ((∀ i p, st.products i = some p → 0 ≤ p.stock) → (∀ it ∈ o.items, 0 ≤ it.quantity) →
        (deleteOrder st id).1.status = 200) ∧
      ((deleteOrder st id).1.status = 200 →
        (deleteOrder st id).2.orders = Function.update st.orders id none ∧
        ∀ i,
          (∀ p, st.products i = some p →
            ∃ q, (deleteOrder st id).2.products i = some q ∧
              q.stock = p.stock + orderedQuantity i o.items) ∧
          (st.products i = none → (deleteOrder st id).2.products i = none) ∧
          ((∀ it ∈ o.items, it.product ≠ i) →
            (deleteOrder st id).2.products i = st.products i))) ∧
    (o.status = "completed" →
      (deleteOrder st id).1.status = 200 ∧
      (deleteOrder st id).2.orders = Function.update st.orders id none ∧
      (deleteOrder st id).2.products = st.products) := by
  constructor
  · intro hstatus
    have hrun : deleteOrder st id =
        match restoreStock st.products o.items with
        | .error products =>
          (failure 500 [.lit "Error deleting order"], { st with products := products })
        | .ok products =>
          ({ status := 200, success := true, message := [.lit "Order deleted successfully"],
             data := none, errors := [] },
           { products := products, orders := Function.update st.orders id none }) := by
      unfold deleteOrder
      rw [ho]
      simp [hstatus]
    rw [hrun]
    constructor
    · intro hstock hq
      obtain ⟨ps, hps⟩ := restoreStock_total st.products o.items hstock hq
      rw [hps]
    · intro h200
      cases hr : restoreStock st.products o.items with
      | error ps =>
        rw [hr] at h200
        simp [failure] at h200
      | ok ps =>
        refine ⟨rfl, fun i => ?_⟩
        obtain ⟨h1, h2, h3⟩ := restoreStock_ok_effect st.products ps o.items hr i
        refine ⟨fun p hp => ?_, h2, h3⟩
        obtain ⟨q, hq1, hq2, _⟩ := h1 p hp
        exact ⟨q, hq1, hq2⟩
  · intro hstatus
    have hrun : deleteOrder st id =
        ({ status := 200, success := true, message := [.lit "Order deleted successfully"],
           data := none, errors := [] },
         { products := st.products, orders := Function.update st.orders id none }) := by
      unfold deleteOrder
      rw [ho]
      simp [hstatus]
    rw [hrun]
    exact ⟨rfl, rfl, rfl⟩

/-- C8 on the sample store: deleting the pending order of two Game X answers 200,
removes the order and takes the stock of Game X from 5 to 7, the sticker
keeping its 50; deleting the completed order answers 200, removes it and leaves
the products as they are. -/
theorem deleteOrder_restores_witness :
    ((deleteOrder storeWithOrders 7).1.status = 200 ∧
      (deleteOrder storeWithOrders 7).2.orders 7 = none ∧
      (∃ q, (deleteOrder storeWithOrders 7).2.products 1 = some q ∧ q.stock = 7) ∧
      (deleteOrder storeWithOrders 7).2.products 2 = some sticker) ∧
    ((deleteOrder storeWithOrders 8).1.status = 200 ∧
      (deleteOrder storeWithOrders 8).2.orders 8 = none ∧
      (deleteOrder storeWithOrders 8).2.products = storeWithOrders.products) := by
  have h7 := (deleteOrder_restores storeWithOrders 7 (gameOrder "pending") rfl).1 (by decide)
  have h8 := (deleteOrder_restores storeWithOrders 8 (gameOrder "completed") rfl).2 rfl
  have hstock : ∀ i p, storeWithOrders.products i = some p → 0 ≤ p.stock := by
    intro i p hp
    simp only [storeWithOrders, sampleStore] at hp
    split_ifs at hp <;> cases hp <;> norm_num [gameX, sticker]
  have hq : ∀ it ∈ (gameOrder "pending").items, 0 ≤ it.quantity := by
    intro it hit
    simp only [gameOrder, List.mem_singleton] at hit
    rw [hit]
    norm_num
  have h200 := h7.1 hstock hq
  obtain ⟨horders, hproducts⟩ := h7.2 h200
  refine ⟨⟨h200, ?_, ?_, ?_⟩, h8.1, ?_, h8.2.2⟩
  · rw [horders, Function.update_same]
  · obtain ⟨q, hq1, hq2⟩ := (hproducts 1).1 gameX rfl
    refine ⟨q, hq1, ?_⟩
    rw [hq2]
    norm_num [gameX, gameOrder, orderedQuantity]
  · rw [(hproducts 2).2.2 (by simp [gameOrder])]
    rfl
  · rw [h8.2.1, Function.update_same]

/-! ## Status history -/

/-- C9: when `createOrder` succeeds, the persisted order's status history is the
single entry pending / "Order created" (stamped with the current time), and its
billing address is its shipping address, which is the normalised shipping
address of the request. -/
theorem createOrder_history (schema : OrderSchema) (now : Timestamp) (newId : Id) (st : Store)
    (req : Request) (h : (createOrder schema now newId st req).1.status = 201) :
    ∃ f o, parseFields req = .ok f ∧
      (createOrder schema now newId st req).2.orders newId = some o ∧
      (createOrder schema now newId st req).1.data = some o ∧
      o.statusHistory = [{ status := "pending", timestamp := now, note := "Order created" }] ∧
      o.billingAddress = o.shippingAddress ∧
      o.shippingAddress = f.shippingAddress ∧
      (∀ b, req = .json b → o.billingAddress = normalizeAddress b.shippingAddress) := by
  obtain ⟨f, items, s, hf, _, _, _, _, hdata, hstore⟩ :=
    createOrder_created schema now newId st req h
  refine ⟨f, buildOrder schema now f s, hf, ?_, hdata, rfl, rfl, rfl, ?_⟩
  · rw [hstore]
    simp
  · intro b hb
    subst hb
    simp only [parseFields] at hf
    cases hf
    rfl

/-- C9 at the specification's example. -/
theorem createOrder_history_witness :
    (createOrder sampleSchema 0 7 sampleStore gameRequest).1.status = 201 ∧
    ∃ f o, parseFields gameRequest = .ok f ∧
      (createOrder sampleSchema 0 7 sampleStore gameRequest).2.orders 7 = some o ∧
      (createOrder sampleSchema 0 7 sampleStore gameRequest).1.data = some o ∧
      o.statusHistory = [{ status := "pending", timestamp := 0, note := "Order created" }] ∧
      o.billingAddress = o.shippingAddress ∧
      o.shippingAddress = f.shippingAddress ∧
      (∀ b, gameRequest = .json b → o.billingAddress = normalizeAddress b.shippingAddress) :=
  ⟨by with_unfolding_all decide,
   createOrder_history sampleSchema 0 7 sampleStore gameRequest (by with_unfolding_all decide)⟩

/-- C10: `updateOrderStatus` on an existing order (whose updated document the Order
schema accepts) answers 200, sets the status to the given one and appends
exactly one entry to the status history: the old history is a prefix of the new
one, the new one is one longer, its last entry has the given status, the
current time and the caller's note, or "Status changed to (status)" when the
note is absent or empty; the order's status is the status of the last entry;
no other order and no product changes. When the id resolves to no order the
answer is 404 and the store is unchanged; so it is, with answer 500, when the
schema rejects the updated document. -/
theorem updateOrderStatus_appends (schema : OrderSchema) (now : Timestamp) (st : Store)
    (id : Id) (body : StatusBody) :
    (∀ o, st.orders id = some o → schema.validate (appendStatus o now body) = [] →
      (updateOrderStatus schema now st id body).1.status = 200 ∧
      (updateOrderStatus schema now st id body).2.products = st.products ∧
      (∀ j, j ≠ id → (updateOrderStatus schema now st id body).2.orders j = st.orders j) ∧
      ∃ o2 e, (updateOrderStatus schema now st id body).2.orders id = some o2 ∧
        (updateOrderStatus schema now st id body).1.data = some o2 ∧
        o2.status = body.status ∧
        o2.statusHistory = o.statusHistory ++ [e] ∧
        o.statusHistory <+: o2.statusHistory ∧
        o2.statusHistory.length = o.statusHistory.length + 1 ∧
        o2.statusHistory.getLast? = some e ∧
        e.status = body.status ∧ e.timestamp = now ∧
        (∀ n, body.note = some n → n ≠ "" → e.note = n) ∧
        (body.note = none ∨ body.note = some "" →
          e.note = "Status changed to " ++ body.status) ∧
        o2.status = e.status) ∧
    (st.orders id = none →
      (updateOrderStatus schema now st id body).1.status = 404 ∧
      (updateOrderStatus schema now st id body).2 = st) ∧
    (∀ o, st.orders id = some o → schema.validate (appendStatus o now body) ≠ [] →
      (updateOrderStatus schema now st id body).1.status = 500 ∧
      (updateOrderStatus schema now st id body).2 = st) := by
  refine ⟨?_, ?_, ?_⟩
  · intro o ho hvalid
    have hrun : updateOrderStatus schema now st id body =
        ({ status := 200, success := true,
           message := [.lit "Order status updated successfully"],
           data := some (appendStatus o now body), errors := [] },
         { st with orders := Function.update st.orders id (some (appendStatus o now body)) }) := by
      unfold updateOrderStatus
      rw [ho]
      simp only
      rw [hvalid]
    rw [hrun]
    refine ⟨rfl, rfl, fun j hj => Function.update_noteq hj _ _, appendStatus o now body,
      { status := body.status, timestamp := now, note := historyNote body.status body.note },
      Function.update_same _ _ _, rfl, rfl, rfl, ?_, ?_, ?_, rfl, rfl, ?_, ?_, rfl⟩
    · exact ⟨_, rfl⟩
    · simp [appendStatus]
    · simp [appendStatus]
    · intro n hn hne
      rw [hn]
      simp [historyNote, hne]
    · rintro (hn | hn) <;> rw [hn] <;> simp [historyNote]
  · intro ho
    unfold updateOrderStatus
    rw [ho]
    exact ⟨rfl, rfl⟩
  · intro o ho hinvalid
    unfold updateOrderStatus
    rw [ho]
    simp only
    cases hv : schema.validate (appendStatus o now body) with
    | nil => exact absurd hv hinvalid
    | cons e es => exact ⟨rfl, rfl⟩

/-- C10 on the sample store: moving the pending order 7 to processing without a
note appends the entry processing / "Status changed to processing"; an unknown
id is answered with 404. -/
theorem updateOrderStatus_appends_witness :
    (∃ o2, (updateOrderStatus sampleSchema 5 storeWithOrders 7
          { status := "processing", note := none }).2.orders 7 = some o2 ∧
      o2.status = "processing" ∧
      o2.statusHistory =
        [{ status := "pending", timestamp := 0, note := "Order created" },
         { status := "processing", timestamp := 5, note := "Status changed to processing" }]) ∧
    (updateOrderStatus sampleSchema 5 storeWithOrders 9
        { status := "processing", note := none }).1.status = 404 := by
  have h7 := (updateOrderStatus_appends sampleSchema 5 storeWithOrders 7
    { status := "processing", note := none }).1 (gameOrder "pending") rfl rfl
  have h9 := (updateOrderStatus_appends sampleSchema 5 storeWithOrders 9
    { status := "processing", note := none }).2.1 rfl
  obtain ⟨_, _, _, o2, e, ho2, _, hstatus, hhist, _, _, _, hes, het, _, hnote, _⟩ := h7
  refine ⟨⟨o2, ho2, hstatus, ?_⟩, h9.1⟩
  have hnote2 := hnote (Or.inl rfl)
  obtain ⟨es, et, en⟩ := e
  simp only at hes het hnote2
  rw [hhist, hes, het, hnote2]
  rfl

/-! ## Derived product status -/

/-- The `pre('save')` hook leaves a status that matches the stock, whatever the
status was. -/
theorem Product.preSave_matches (p : Product) :
    p.preSave.stock = p.stock ∧ statusMatchesStock p.preSave := by
  refine ⟨rfl, ?_, ?_, ?_⟩
  · intro h
    have h0 : p.stock = 0 := h
    simp [Product.preSave, h0]
  · intro h0 h10
    have h0 : p.stock ≠ 0 := h0
    have h10 : p.stock ≤ 10 := h10
    simp [Product.preSave, h0, h10]
  · intro h
    have h10 : 10 < p.stock := h
    have h0 : p.stock ≠ 0 := by
      intro h0
      rw [h0] at h10
      norm_num at h10
    simp [Product.preSave, h0, not_le.mpr h10]

/-- What a successful `save` writes. -/
theorem Product.save_ok (products ps : Products) (id : Id) (p : Product)
    (h : Product.save products id p = .ok ps) :
    ps = Function.update products id (some p.preSave) := by
  by_cases hneg : p.stock < 0
  · rw [Product.save_of_neg products id p hneg] at h
    cases h
  · rw [Product.save_of_nonneg products id p (not_lt.mp hneg)] at h
    cases h
    rfl

/-- A product whose status matches its stock before the loop has one after it,
if the loop runs to its end. -/
theorem processItems_ok_status_kept (s t : LoopState) (items : List ReqItem)
    (h : processItems s items = .ok t) (id : Id) (p : Product)
    (hp : s.products id = some p) (hm : statusMatchesStock p) :
    ∃ q, t.products id = some q ∧ statusMatchesStock q := by
  induction items generalizing s p with
  | nil =>
    rw [processItems_nil] at h
    cases h
    exact ⟨p, hp, hm⟩
  | cons item rest ih =>
    obtain ⟨product, _, _, hrest⟩ := processItems_cons_ok s t item rest h
    by_cases hid : item.product = id
    · exact ih (stepLoop s item product) hrest
        (Product.preSave { product with stock := product.stock - item.quantity })
        (by simp [stepLoop, hid]) (Product.preSave_matches _).2
    · exact ih (stepLoop s item product) hrest p
        (by simp [stepLoop, Function.update_noteq (Ne.symm hid), hp]) hm

/-- After a run of the loop to its end, every product an item references has a
status that matches its stock. -/
theorem processItems_ok_status (s t : LoopState) (items : List ReqItem)
    (h : processItems s items = .ok t) (it : ReqItem) (hit : it ∈ items) :
    ∃ q, t.products it.product = some q ∧ statusMatchesStock q := by
  induction items generalizing s with
  | nil => cases hit
  | cons item rest ih =>
    obtain ⟨product, _, _, hrest⟩ := processItems_cons_ok s t item rest h
    rcases List.mem_cons.mp hit with heq | hmem
    · subst heq
      exact processItems_ok_status_kept (stepLoop s it product) t rest hrest it.product
        (Product.preSave { product with stock := product.stock - it.quantity })
        (by simp [stepLoop]) (Product.preSave_matches _).2
    · exact ih (stepLoop s item product) hrest hmem

/-- After a run of the restoring loop to its end, every product that an item
references and that exists has a status that matches its stock. -/
theorem restoreStock_ok_status (products ps : Products) (items : List OrderItem)
    (h : restoreStock products items = .ok ps) (id : Id) :
    (∀ p, products id = some p → statusMatchesStock p →
      ∃ q, ps id = some q ∧ statusMatchesStock q) ∧
    (∀ it ∈ items, it.product = id → products id ≠ none →
      ∃ q, ps id = some q ∧ statusMatchesStock q) := by
  induction items generalizing products with
  | nil =>
    rw [restoreStock] at h
    cases h
    exact ⟨fun p hp hm => ⟨p, hp, hm⟩, fun it hit => absurd hit (List.not_mem_nil it)⟩
  | cons item rest ih =>
    cases hp : products item.product with
    | none =>
      rw [restoreStock_cons_missing products item rest hp] at h
      obtain ⟨h1, h2⟩ := ih products h
      refine ⟨h1, fun it hit hid hne => ?_⟩
      rcases List.mem_cons.mp hit with heq | hmem
      · subst heq
        rw [hid] at hp
        exact absurd hp hne
      · exact h2 it hmem hid hne
    | some product =>
      by_cases hneg : product.stock + item.quantity < 0
      · rw [restoreStock_cons_negative products item rest product hp hneg] at h
        cases h
      · rw [restoreStock_cons_found products item rest product hp (not_lt.mp hneg)] at h
        obtain ⟨h1, h2⟩ := ih _ h
        by_cases heq : item.product = id
        · have hnew := h1 (Product.preSave
              { product with stock := product.stock + item.quantity })
            (by rw [← heq]; exact Function.update_same _ _ _) (Product.preSave_matches _).2
          exact ⟨fun _ _ _ => hnew, fun _ _ _ _ => hnew⟩
        · have hsame : Function.update products item.product
              (some (Product.preSave { product with stock := product.stock + item.quantity })) id
              = products id := Function.update_noteq (Ne.symm heq) _ _
          refine ⟨fun p hpid hm => h1 p (hsame.trans hpid) hm, fun it hit hid hne => ?_⟩
          rcases List.mem_cons.mp hit with hhead | hmem
          · subst hhead
            exact absurd hid heq
          · exact h2 it hmem hid (by rw [hsame]; exact hne)

/-- The run of `deleteOrder` on an order that is not completed. -/
theorem deleteOrder_of_open (st : Store) (id : Id) (o : Order) (ho : st.orders id = some o)
    (hstatus : o.status ≠ "completed") :
    deleteOrder st id =
      match restoreStock st.products o.items with
      | .error products =>
        (failure 500 [.lit "Error deleting order"], { st with products := products })
      | .ok products =>
        ({ status := 200, success := true, message := [.lit "Order deleted successfully"],
           data := none, errors := [] },
         { products := products, orders := Function.update st.orders id none }) := by
  unfold deleteOrder
  rw [ho]
  simp [hstatus]

/-- The response and the catalogue of a `createProduct` call that ends with
status 201. -/
theorem createProduct_created (newId : Id) (st : Catalog) (b : ProductBody)
    (h : (createProduct newId st b).1.status = 201) :
    ∃ category, b.category = some category ∧
      (createProduct newId st b).1.data = some
        { _id := newId, description := b.description.getD "", category := category,
          fields := Product.preSave
            { name := jsTrim (b.name.getD ""), image := b.image.getD "",
              price := b.price.getD 0, stock := b.stock.getD 0,
              status := Product.statusDefault (b.stock.getD 0) } } ∧
      (createProduct newId st b).2.products = st.products ++
        [{ _id := newId, description := b.description.getD "", category := category,
           fields := Product.preSave
             { name := jsTrim (b.name.getD ""), image := b.image.getD "",
               price := b.price.getD 0, stock := b.stock.getD 0,
               status := Product.statusDefault (b.stock.getD 0) } }] := by
  unfold createProduct at h ⊢
  cases hc : b.category with
  | none =>
    rw [hc] at h
    simp [Reply.failure] at h
  | some category =>
    rw [hc] at h
    simp only at h ⊢
    cases hf : findCategory st.categories category with
    | none =>
      rw [hf] at h
      simp [Reply.failure] at h
    | some c =>
      rw [hf] at h
      simp only at h ⊢
      cases hv : validateNewProduct b with
      | cons e es =>
        rw [hv] at h
        simp [Reply.validation] at h
      | nil => exact ⟨category, rfl, rfl, rfl⟩

/-- C12: whenever a product is saved, its persisted status is the one derived from
its stock (out_of_stock at 0, low_stock at a stock other than 0 and at most 10,
active above 10), whatever status the document carried: for every successful
`save`; for every product referenced by an item of a `createOrder` request that
succeeds; for every existing product referenced by an item of a non-completed
order that `deleteOrder` removes; and for the product `createProduct` creates. -/
theorem product_status_on_save :
    (∀ (products ps : Products) (id : Id) (p : Product),
      Product.save products id p = .ok ps →
      ∃ q, ps id = some q ∧ q.stock = p.stock ∧ statusMatchesStock q) ∧
    (∀ (schema : OrderSchema) (now : Timestamp) (newId : Id) (st : Store) (req : Request),
      (createOrder schema now newId st req).1.status = 201 →
      ∃ f items, parseFields req = .ok f ∧ f.items = some items ∧
        ∀ it ∈ items, ∃ q, (createOrder schema now newId st req).2.products it.product = some q ∧
          statusMatchesStock q) ∧
    (∀ (st : Store) (id : Id) (o : Order),
      st.orders id = some o → o.status ≠ "completed" → (deleteOrder st id).1.status = 200 →
      ∀ it ∈ o.items, st.products it.product ≠ none →
        ∃ q, (deleteOrder st id).2.products it.product = some q ∧ statusMatchesStock q) ∧
    (∀ (newId : Id) (st : Catalog) (b : ProductBody),
      (createProduct newId st b).1.status = 201 →
      ∃ doc, (createProduct newId st b).1.data = some doc ∧
        doc ∈ (createProduct newId st b).2.products ∧
        doc.fields.stock = b.stock.getD 0 ∧ statusMatchesStock doc.fields) := by
  refine ⟨?_, ?_, ?_, ?_⟩
  · intro products ps id p h
    rw [Product.save_ok products ps id p h]
    exact ⟨p.preSave, Function.update_same _ _ _, (Product.preSave_matches p).1,
      (Product.preSave_matches p).2⟩
  · intro schema now newId st req h
    obtain ⟨f, items, s, hf, _, hi, hl, _, _, hstore⟩ :=
      createOrder_created schema now newId st req h
    refine ⟨f, items, hf, hi, fun it hit => ?_⟩
    rw [hstore]
    exact processItems_ok_status _ _ _ hl it hit
  · intro st id o ho hstatus h200 it hit hne
    rw [deleteOrder_of_open st id o ho hstatus] at h200 ⊢
    cases hr : restoreStock st.products o.items with
    | error ps =>
      rw [hr] at h200
      simp [failure] at h200
    | ok ps => exact (restoreStock_ok_status st.products ps o.items hr it.product).2 it hit rfl hne
  · intro newId st b h
    obtain ⟨category, _, hdata, hproducts⟩ := createProduct_created newId st b h
    refine ⟨_, hdata, ?_, rfl, (Product.preSave_matches _).2⟩
    rw [hproducts]
    simp

/-- C12 on a shelf with a console (stock 11, active) and Game X (stock 5): an order
of one console and five Game X leaves the console at 10 with status low_stock
and Game X at 0 with status out_of_stock. -/
theorem product_status_on_save_witness :
    (createOrder sampleSchema 0 7 shelfStore (sampleRequest clearanceItems)).1.status = 201 ∧
    (∃ f items, parseFields (sampleRequest clearanceItems) = .ok f ∧ f.items = some items ∧
      ∀ it ∈ items,
        ∃ q, (createOrder sampleSchema 0 7 shelfStore (sampleRequest clearanceItems)).2.products
            it.product = some q ∧ statusMatchesStock q) ∧
    (createOrder sampleSchema 0 7 shelfStore (sampleRequest clearanceItems)).2.products 3
      = some { console with stock := 10, status := "low_stock" } ∧
    (createOrder sampleSchema 0 7 shelfStore (sampleRequest clearanceItems)).2.products 1
      = some { gameX with stock := 0, status := "out_of_stock" } :=
  ⟨by with_unfolding_all decide,
   product_status_on_save.2.1 sampleSchema 0 7 shelfStore (sampleRequest clearanceItems)
     (by with_unfolding_all decide),
   by with_unfolding_all decide, by with_unfolding_all decide⟩

/-! ## Product updates -/

/-- C13 at the failing input: the console is stored with stock 11 and status
active; `updateProductStock` with stock 0, and `updateProduct` with a body that
repeats the stored paths and sets stock 0, both answer 200 and leave it stored
with stock 0 and status active, which does not match the stock. -/
theorem update_leaves_status_stale :
    ((updateProductStock shop 2 (some 0)).1.status = 200 ∧
      ∃ d, findProduct (updateProductStock shop 2 (some 0)).2.products 2 = some d ∧
        d.fields.stock = 0 ∧ d.fields.status = "active" ∧ ¬ statusMatchesStock d.fields) ∧
    ((updateProduct shop 2 soldOutBody).1.status = 200 ∧
      ∃ d, findProduct
          (updateProduct shop 2 soldOutBody).2.products 2 = some d ∧
        d.fields.stock = 0 ∧ d.fields.status = "active" ∧ ¬ statusMatchesStock d.fields) := by
  have hbad : ¬ statusMatchesStock { console with stock := 0 } := by
    intro h
    have := h.1 rfl
    simp [console] at this
  refine ⟨⟨by with_unfolding_all decide,
      { _id := 2, description := "A console", category := 11,
        fields := { console with stock := 0 } },
      by with_unfolding_all decide, rfl, rfl, hbad⟩,
    by with_unfolding_all decide,
    { _id := 2, description := "A console", category := 11,
      fields := { console with stock := 0 } },
    by with_unfolding_all decide, rfl, rfl, hbad⟩

/-! ## Deleting a category -/

theorem findCategory_cons (a : Category) (rest : List Category) (j : Id) :
    findCategory (a :: rest) j = if a._id = j then some a else findCategory rest j := by
  unfold findCategory
  rw [List.find?_cons]
  by_cases h : a._id = j
  · have hb : (a._id == j) = true := by simpa using h
    rw [hb, if_pos h]
  · have hb : (a._id == j) = false := by simpa using h
    rw [hb, if_neg h]

theorem removeFirst_id_cons (a : Category) (rest : List Category) (id : Id) :
    removeFirst (fun c => c._id == id) (a :: rest)
      = if a._id = id then rest else a :: removeFirst (fun c => c._id == id) rest := by
  by_cases h : a._id = id <;> simp [removeFirst, h]

theorem findCategory_removeFirst_ne (categories : List Category) (id j : Id) (h : j ≠ id) :
    findCategory (removeFirst (fun c => c._id == id) categories) j
      = findCategory categories j := by
  induction categories with
  | nil => rfl
  | cons a rest ih =>
    rw [removeFirst_id_cons]
    by_cases ha : a._id = id
    · have hj : ¬ a._id = j := fun hj => h (hj.symm.trans ha)
      rw [if_pos ha, findCategory_cons, if_neg hj]
    · rw [if_neg ha, findCategory_cons, findCategory_cons, ih]

theorem findCategory_eq_none (categories : List Category) (id : Id)
    (h : ∀ c ∈ categories, c._id ≠ id) : findCategory categories id = none := by
  unfold findCategory
  rw [List.find?_eq_none]
  intro c hc
  simpa using h c hc

theorem findCategory_removeFirst_self (categories : List Category) (id : Id)
    (h : (categories.map (fun c => c._id)).Nodup) :
    findCategory (removeFirst (fun c => c._id == id) categories) id = none := by
  induction categories with
  | nil => rfl
  | cons a rest ih =>
    rw [List.map_cons, List.nodup_cons] at h
    by_cases ha : a._id = id
    · rw [removeFirst_id_cons, if_pos ha]
      apply findCategory_eq_none
      intro c hc hcid
      exact h.1 (List.mem_map.mpr ⟨c, hc, hcid.trans ha.symm⟩)
    · rw [removeFirst_id_cons, if_neg ha, findCategory_cons, if_neg ha]
      exact ih h.2

theorem removeFirst_sublist {α : Type} (hit : α → Bool) (l : List α) :
    (removeFirst hit l).Sublist l := by
  induction l with
  | nil => exact List.Sublist.slnil
  | cons a rest ih =>
    by_cases ha : hit a = true
    · simp only [removeFirst, ha, if_true]
      exact List.sublist_cons_self a rest
    · simp only [removeFirst, ha, if_false]
      exact List.Sublist.cons₂ a ih

theorem removeFirst_length {α : Type} (hit : α → Bool) (l : List α)
    (h : ∃ a ∈ l, hit a = true) : (removeFirst hit l).length + 1 = l.length := by
  induction l with
  | nil =>
    obtain ⟨a, ha, _⟩ := h
    cases ha
  | cons a rest ih =>
    by_cases ha : hit a = true
    · simp [removeFirst, ha]
    · obtain ⟨b, hb, hbhit⟩ := h
      rcases List.mem_cons.mp hb with heq | hmem
      · subst heq
        exact absurd hbhit ha
      · have ha2 : hit a = false := by simpa using ha
        simp only [removeFirst, ha2, Bool.false_eq_true, if_false, List.length_cons]
        rw [ih ⟨b, hmem, hbhit⟩]

/-- C14: `deleteCategory` on an existing category. With products referencing it the
answer is 400 with the message that holds their number, the catalogue
unchanged; with none but with subcategories it is 400 with the message that
holds their number, the catalogue unchanged; so the product check comes first
when both counts are positive. With neither, the answer is 200, the products
and the other categories are as before and the category is gone. -/
theorem deleteCategory_guard (st : Catalog) (id : Id) (c : Category)
    (hc : findCategory st.categories id = some c) :
    (0 < productCount st id →
      (deleteCategory st id).1.status = 400 ∧
      (deleteCategory st id).1.message =
        [.lit "Cannot delete category. It has ", .num (productCount st id),
         .lit " products associated with it."] ∧
      (deleteCategory st id).2 = st) ∧
    (productCount st id = 0 → 0 < subcategoryCount st id →
      (deleteCategory st id).1.status = 400 ∧
      (deleteCategory st id).1.message =
        [.lit "Cannot delete category. It has ", .num (subcategoryCount st id),
         .lit " subcategories."] ∧
      (deleteCategory st id).2 = st) ∧
    (productCount st id = 0 → subcategoryCount st id = 0 →
      (deleteCategory st id).1.status = 200 ∧
      (deleteCategory st id).2.products = st.products ∧
      (∀ j, j ≠ id →
        findCategory (deleteCategory st id).2.categories j = findCategory st.categories j) ∧
      ((deleteCategory st id).2.categories).Sublist st.categories ∧
      (deleteCategory st id).2.categories.length + 1 = st.categories.length ∧
      ((st.categories.map (fun d => d._id)).Nodup →
        findCategory (deleteCategory st id).2.categories id = none)) := by
  refine ⟨?_, ?_, ?_⟩
  · intro hp
    have hrun : deleteCategory st id =
        (Reply.failure 400
          [.lit "Cannot delete category. It has ", .num (productCount st id),
           .lit " products associated with it."], st) := by
      unfold deleteCategory
      rw [hc]
      simp only [gt_iff_lt, hp, if_true]
    rw [hrun]
    exact ⟨rfl, rfl, rfl⟩
  · intro hp hs
    have hrun : deleteCategory st id =
        (Reply.failure 400
          [.lit "Cannot delete category. It has ", .num (subcategoryCount st id),
           .lit " subcategories."], st) := by
      unfold deleteCategory
      rw [hc]
      simp only [gt_iff_lt, hp, lt_self_iff_false, if_false, hs, if_true]
    rw [hrun]
    exact ⟨rfl, rfl, rfl⟩
  · intro hp hs
    have hrun : deleteCategory st id =
        (Reply.ok 200 none [.lit "Category deleted successfully"],
         { st with categories := removeFirst (fun d => d._id == id) st.categories }) := by
      unfold deleteCategory
      rw [hc]
      simp only [gt_iff_lt, hp, hs, lt_self_iff_false, if_false]
    rw [hrun]
    refine ⟨rfl, rfl, fun j hj => findCategory_removeFirst_ne _ id j hj,
      removeFirst_sublist _ _, ?_, fun hnodup => findCategory_removeFirst_self _ id hnodup⟩
    apply removeFirst_length
    unfold findCategory at hc
    have hhit := List.find?_some hc
    exact ⟨c, List.mem_of_find?_eq_some hc, hhit⟩

/-- C14 on the sample catalogue: `games` has one product and one subcategory and is
refused with the product message; `music` has no product and one subcategory
and is refused with the subcategory message; `vinyl` has neither and is
removed. -/
theorem deleteCategory_guard_witness :
    ((deleteCategory shop 10).1.status = 400 ∧
      (deleteCategory shop 10).1.message =
        [.lit "Cannot delete category. It has ", .num 1, .lit " products associated with it."] ∧
      (deleteCategory shop 10).2.categories = shop.categories) ∧
    ((deleteCategory shop 12).1.status = 400 ∧
      (deleteCategory shop 12).1.message =
        [.lit "Cannot delete category. It has ", .num 1, .lit " subcategories."] ∧
      (deleteCategory shop 12).2.categories = shop.categories) ∧
    ((deleteCategory shop 13).1.status = 200 ∧
      (deleteCategory shop 13).2.categories = [games, boardGames, music] ∧
      (deleteCategory shop 13).2.products = shop.products) := by
  have h10 := (deleteCategory_guard shop 10 games rfl).1 (by decide)
  have h12 := (deleteCategory_guard shop 12 music rfl).2.1 (by decide) (by decide)
  have h13 := (deleteCategory_guard shop 13 vinyl rfl).2.2 (by decide) (by decide)
  refine ⟨⟨h10.1, ?_, ?_⟩, ⟨h12.1, ?_, ?_⟩, h13.1, by with_unfolding_all decide, h13.2.1⟩
  · rw [h10.2.1]
    have : productCount shop 10 = 1 := by decide
    rw [this]
    norm_num
  · rw [h10.2.2]
  · rw [h12.2.1]
    have : subcategoryCount shop 12 = 1 := by decide
    rw [this]
    norm_num
  · rw [h12.2.2]

/-! ## Category slugs -/

theorem isSlugLetter_ne_hyphen (c : Char) (h : isSlugLetter c = true) : c ≠ '-' := by
  intro hc
  subst hc
  exact absurd h (by decide)

theorem replaceRuns_chars (s : List Char) (b : Bool) (c : Char)
    (hc : c ∈ replaceRuns b s) : isSlugLetter c = true ∨ c = '-' := by
  induction s generalizing b with
  | nil => cases hc
  | cons a rest ih =>
    unfold replaceRuns at hc
    by_cases ha : isSlugLetter a = true
    · rw [if_pos ha] at hc
      rcases List.mem_cons.mp hc with h | h
      · exact Or.inl (h ▸ ha)
      · exact ih false h
    · rw [if_neg ha] at hc
      cases b with
      | true =>
        simp only [if_true] at hc
        exact ih true hc
      | false =>
        simp only [Bool.false_eq_true, if_false] at hc
        rcases List.mem_cons.mp hc with h | h
        · exact Or.inr h
        · exact ih true h

theorem replaceRuns_chain (s : List Char) (b : Bool) :
    List.Chain' notBothHyphens (replaceRuns b s) ∧
      (b = true → (replaceRuns b s).head? ≠ some '-') := by
  induction s generalizing b with
  | nil =>
    refine ⟨List.chain'_nil, fun _ => ?_⟩
    simp [replaceRuns]
  | cons a rest ih =>
    unfold replaceRuns
    by_cases ha : isSlugLetter a = true
    · rw [if_pos ha]
      refine ⟨List.chain'_cons'.mpr ⟨fun y _ hboth => ?_, (ih false).1⟩, fun _ => ?_⟩
      · exact isSlugLetter_ne_hyphen a ha hboth.1
      · simp only [List.head?_cons, ne_eq, Option.some.injEq]
        exact isSlugLetter_ne_hyphen a ha
    · rw [if_neg ha]
      cases b with
      | true =>
        simp only [if_true]
        exact ⟨(ih true).1, fun _ => (ih true).2 rfl⟩
      | false =>
        simp only [Bool.false_eq_true, if_false]
        refine ⟨List.chain'_cons'.mpr ⟨fun y hy hboth => ?_, (ih true).1⟩, fun h => by cases h⟩
        apply (ih true).2 rfl
        rw [Option.mem_def] at hy
        rw [hy, hboth.2]

theorem stripHyphens_part (s : List Char) : stripHyphens s <:+: s := by
  unfold stripHyphens
  have ht : (if s.head? = some '-' then s.tail else s) <:+: s := by
    split_ifs
    · exact (List.tail_suffix s).isInfix
    · exact List.infix_refl s
  simp only
  generalize (if s.head? = some '-' then s.tail else s) = t at ht ⊢
  split_ifs
  · exact (List.dropLast_prefix _).isInfix.trans ht
  · exact ht

theorem head?_dropLast_ne (t : List Char) (h : t.head? ≠ some '-') :
    t.dropLast.head? ≠ some '-' := by
  match t with
  | [] => simp
  | [x] => simp
  | x :: y :: l => simpa using h

theorem stripHyphens_head (s : List Char) (hs : List.Chain' notBothHyphens s) :
    (stripHyphens s).head? ≠ some '-' := by
  have ht : (if s.head? = some '-' then s.tail else s).head? ≠ some '-' := by
    split_ifs with h
    · match s, hs, h with
      | a :: rest, hs, h =>
        simp only [List.head?_cons, Option.some.injEq] at h
        subst h
        intro hrest
        exact (List.chain'_cons'.mp hs).1 _ hrest ⟨rfl, rfl⟩
    · assumption
  unfold stripHyphens
  simp only
  generalize (if s.head? = some '-' then s.tail else s) = t at ht ⊢
  split_ifs
  · exact head?_dropLast_ne _ ht
  · exact ht

theorem getLast?_dropLast_ne (t : List Char) (ht : List.Chain' notBothHyphens t)
    (hlast : t.getLast? = some '-') : t.dropLast.getLast? ≠ some '-' := by
  intro h
  have hsplit : t = t.dropLast ++ ['-'] := by
    have := List.dropLast_append_getLast? '-' hlast
    exact this.symm
  rw [hsplit, List.chain'_append] at ht
  exact ht.2.2 '-' h '-' rfl ⟨rfl, rfl⟩

theorem stripHyphens_last (s : List Char) (hs : List.Chain' notBothHyphens s) :
    (stripHyphens s).getLast? ≠ some '-' := by
  have ht : List.Chain' notBothHyphens (if s.head? = some '-' then s.tail else s) := by
    split_ifs
    · exact hs.tail
    · exact hs
  unfold stripHyphens
  simp only
  generalize (if s.head? = some '-' then s.tail else s) = t at ht ⊢
  split_ifs with h
  · exact getLast?_dropLast_ne _ ht h
  · exact h

theorem replaceRuns_fixed (x : List Char) (b : Bool)
    (hchars : ∀ c ∈ x, isSlugLetter c = true ∨ c = '-')
    (hchain : List.Chain' notBothHyphens x) (hhead : b = true → x.head? ≠ some '-') :
    replaceRuns b x = x := by
  induction x generalizing b with
  | nil => rfl
  | cons a rest ih =>
    have hrest : ∀ c ∈ rest, isSlugLetter c = true ∨ c = '-' :=
      fun c hc => hchars c (List.mem_cons_of_mem _ hc)
    unfold replaceRuns
    by_cases ha : isSlugLetter a = true
    · rw [if_pos ha, ih false hrest hchain.tail (fun h => by cases h)]
    · have hhyphen : a = '-' := (hchars a (List.mem_cons_self _ _)).resolve_left ha
      rw [if_neg ha]
      cases b with
      | true => exact absurd (by rw [hhyphen]; rfl) (hhead rfl)
      | false =>
        simp only [Bool.false_eq_true, if_false]
        rw [ih true hrest hchain.tail, hhyphen]
        intro _ hh
        exact (List.chain'_cons'.mp hchain).1 _ hh ⟨hhyphen, rfl⟩

theorem stripHyphens_fixed (x : List Char) (hhead : x.head? ≠ some '-')
    (hlast : x.getLast? ≠ some '-') : stripHyphens x = x := by
  unfold stripHyphens
  simp only [if_neg hhead, if_neg hlast]

theorem replaceRuns_letters (s : List Char) (b : Bool) :
    (replaceRuns b s).filter isSlugLetter = s.filter isSlugLetter := by
  induction s generalizing b with
  | nil => rfl
  | cons a rest ih =>
    unfold replaceRuns
    by_cases ha : isSlugLetter a = true
    · rw [if_pos ha, List.filter_cons_of_pos ha, List.filter_cons_of_pos ha, ih false]
    · rw [if_neg ha, List.filter_cons_of_neg ha]
      cases b with
      | true =>
        simp only [if_true]
        exact ih true
      | false =>
        simp only [Bool.false_eq_true, if_false]
        rw [List.filter_cons_of_neg (by decide), ih true]

theorem stripHyphens_letters (s : List Char) :
    (stripHyphens s).filter isSlugLetter = s.filter isSlugLetter := by
  have ht : (if s.head? = some '-' then s.tail else s).filter isSlugLetter
      = s.filter isSlugLetter := by
    split_ifs with h
    · match s, h with
      | a :: rest, h =>
        simp only [List.head?_cons, Option.some.injEq] at h
        subst h
        rw [List.tail_cons, List.filter_cons_of_neg (by decide)]
    · rfl
  unfold stripHyphens
  simp only
  generalize (if s.head? = some '-' then s.tail else s) = t at ht ⊢
  split_ifs with h
  · rw [← ht]
    conv_rhs => rw [← List.dropLast_append_getLast? '-' h]
    rw [List.filter_append, List.filter_cons_of_neg (by decide), List.filter_nil,
      List.append_nil]
  · exact ht

theorem asciiLower_fixed (s : String)
    (h : ∀ c ∈ s.data, isSlugLetter c = true ∨ c = '-') : asciiLower s = s := by
  have hchar : ∀ c : Char, isSlugLetter c = true ∨ c = '-' → c.toLower = c := by
    intro c hc
    have hnot : ¬ (c.toNat ≥ 65 ∧ c.toNat ≤ 90) := by
      rcases hc with hc | hc
      · simp only [isSlugLetter, Bool.or_eq_true, Bool.and_eq_true, decide_eq_true_eq] at hc
        rcases hc with ⟨h1, _⟩ | ⟨_, h2⟩
        · have h1' : 97 ≤ c.toNat := h1
          omega
        · have h2' : c.toNat ≤ 57 := h2
          omega
      · subst hc
        decide
    unfold Char.toLower
    simp only [hnot, if_false]
  unfold asciiLower
  have hmap : s.data.map Char.toLower = s.data := by
    conv_rhs => rw [← List.map_id s.data]
    exact List.map_congr_left (fun c hc => hchar c (h c hc))
  rw [hmap]

/-- C17: the slug is a function of the name alone: the lower-cased name with every
maximal run of characters outside `[a-z0-9]` replaced by one hyphen and a
hyphen at either end removed. For every name (and every `toLowerCase`) its
characters are in `[a-z0-9-]`, it neither starts nor ends with a hyphen and has
no two hyphens in a row; when `toLowerCase` leaves strings over `[a-z0-9-]` as
they are, as the JavaScript method does, the slug of a slug is that slug; and
the characters of `[a-z0-9]` in the slug are those of the lower-cased name, in
the same order. -/
theorem slugify_wellformed (toLowerCase : String → String) (name : String) :
    (∀ c ∈ (slugify toLowerCase name).data, isSlugLetter c = true ∨ c = '-') ∧
    (slugify toLowerCase name).data.head? ≠ some '-' ∧
    (slugify toLowerCase name).data.getLast? ≠ some '-' ∧
    ¬ (['-', '-'] <:+: (slugify toLowerCase name).data) ∧
    ((∀ s : String, (∀ c ∈ s.data, isSlugLetter c = true ∨ c = '-') → toLowerCase s = s) →
      slugify toLowerCase (slugify toLowerCase name) = slugify toLowerCase name) ∧
    (slugify toLowerCase name).data.filter isSlugLetter
      = (toLowerCase name).data.filter isSlugLetter := by
  have hchain := (replaceRuns_chain (toLowerCase name).data false).1
  have hpart := stripHyphens_part (replaceRuns false (toLowerCase name).data)
  have hchars : ∀ c ∈ stripHyphens (replaceRuns false (toLowerCase name).data),
      isSlugLetter c = true ∨ c = '-' :=
    fun c hc => replaceRuns_chars _ false c (hpart.subset hc)
  have hchain2 := hchain.infix hpart
  have hhead := stripHyphens_head _ hchain
  have hlast := stripHyphens_last _ hchain
  refine ⟨hchars, hhead, hlast, fun hdouble => ?_, fun hlower => ?_,
    (stripHyphens_letters _).trans (replaceRuns_letters _ false)⟩
  · have h2 : List.Chain' notBothHyphens ['-', '-'] := hchain2.infix hdouble
    exact (List.chain'_cons.mp h2).1 ⟨rfl, rfl⟩
  · show String.mk (stripHyphens (replaceRuns false
      (toLowerCase (slugify toLowerCase name)).data)) = _
    rw [hlower (slugify toLowerCase name) hchars]
    show String.mk (stripHyphens (replaceRuns false
      (stripHyphens (replaceRuns false (toLowerCase name).data)))) = _
    rw [replaceRuns_fixed _ false hchars hchain2 (fun h => by cases h),
      stripHyphens_fixed _ hhead hlast]
    rfl

/-- C17 on the two names of the specification, with the ASCII lower-casing. -/
theorem slugify_wellformed_witness :
    slugify asciiLower "Software & Apps" = "software-apps" ∧
    slugify asciiLower "  --Hello, World!--  " = "hello-world" ∧
    slugify asciiLower (slugify asciiLower "Software & Apps")
      = slugify asciiLower "Software & Apps" :=
  ⟨by decide, by decide,
   (slugify_wellformed asciiLower "Software & Apps").2.2.2.2.1 asciiLower_fixed⟩

/-! ## Updates through `findByIdAndUpdate` -/

/-- The run of `updateOrder` on an existing order with a valid update. -/
theorem updateOrder_found (validateUpdate : OrderUpdate → List String) (st : Store) (id : Id)
    (b : OrderUpdate) (o : Order) (hv : validateUpdate b = []) (ho : st.orders id = some o) :
    updateOrder validateUpdate st id b =
      ({ status := 200, success := true, message := [.lit "Order updated successfully"],
         data := some (applyOrderUpdate b o), errors := [] },
       { st with orders := Function.update st.orders id (some (applyOrderUpdate b o)) }) := by
  unfold updateOrder
  rw [hv]
  simp only
  rw [ho]

/-- C11 at the failing input: on the pending order 7, whose history is the single
entry pending / "Order created", `updateOrder` with the body `{ status:
"completed" }` answers 200 and stores status completed with the history
unchanged, so no entry for the new status is appended; with the body
`{ status: "completed", statusHistory: [] }` it stores an empty history, of
which the previous history is not a beginning. -/
theorem updateOrder_skips_history :
    ((updateOrder acceptUpdate storeWithOrders 7
        { emptyOrderUpdate with status := some "completed" }).1.status = 200 ∧
      ∃ o, (updateOrder acceptUpdate storeWithOrders 7
          { emptyOrderUpdate with status := some "completed" }).2.orders 7 = some o ∧
        o.status = "completed" ∧
        o.statusHistory = [{ status := "pending", timestamp := 0, note := "Order created" }] ∧
        o.statusHistory.getLast?.map (fun e => e.status) ≠ some o.status) ∧
    ((updateOrder acceptUpdate storeWithOrders 7
        { emptyOrderUpdate with status := some "completed", statusHistory := some [] }).1.status
        = 200 ∧
      ∃ o, (updateOrder acceptUpdate storeWithOrders 7
          { emptyOrderUpdate with status := some "completed",
                                  statusHistory := some [] }).2.orders 7 = some o ∧
        o.status = "completed" ∧ o.statusHistory = [] ∧
        ¬ ((gameOrder "pending").statusHistory <+: o.statusHistory)) := by
  rw [updateOrder_found acceptUpdate storeWithOrders 7
      { emptyOrderUpdate with status := some "completed" } (gameOrder "pending") rfl rfl,
    updateOrder_found acceptUpdate storeWithOrders 7
      { emptyOrderUpdate with status := some "completed", statusHistory := some [] }
      (gameOrder "pending") rfl rfl]
  refine ⟨⟨rfl, applyOrderUpdate { emptyOrderUpdate with status := some "completed" }
      (gameOrder "pending"), ?_, rfl, rfl, by decide⟩,
    rfl, applyOrderUpdate { emptyOrderUpdate with status := some "completed",
                                                  statusHistory := some [] }
      (gameOrder "pending"), ?_, rfl, rfl, ?_⟩
  · simp only [Function.update_same]
  · simp only [Function.update_same]
  · show ¬ ((gameOrder "pending").statusHistory <+: [])
    rw [List.prefix_nil]
    decide

/-- C18 at the failing input: `games` is stored with name "Games" and slug "games";
`updateCategory` with a body that sets the name "Video Games" answers 200 and
stores that name with the slug still "games", while the slug derived from the
new name, which the `pre('save')` hook would set, is "video-games". -/
theorem updateCategory_keeps_slug :
    (updateCategory shop 10 renameBody).1.status = 200 ∧
    (∃ c, findCategory (updateCategory shop 10 renameBody).2.categories 10 = some c ∧
      c.name = "Video Games" ∧ c.slug = some "games" ∧
      slugify asciiLower c.name = "video-games" ∧
      c.slug ≠ some (slugify asciiLower c.name)) ∧
    (Category.preSave asciiLower true { games with name := "Video Games" }).slug
      = some "video-games" := by
  refine ⟨by with_unfolding_all decide, ⟨{ games with name := "Video Games" },
    by with_unfolding_all decide, rfl, rfl, by decide, by decide⟩, by decide⟩

/-- C19 at the failing input: `updateCategory` on category 10 with a body whose
parent is 10 answers 200 and stores the category as its own parent. -/
theorem updateCategory_accepts_self_parent :
    (updateCategory shop 10 selfParentBody).1.status = 200 ∧
    ∃ c, findCategory (updateCategory shop 10 selfParentBody).2.categories 10 = some c ∧
      c._id = 10 ∧ c.parent = some c._id := by
  refine ⟨by with_unfolding_all decide, { games with parent := some 10 },
    by with_unfolding_all decide, rfl, rfl⟩

/-! ## Dashboard -/

theorem mathRound_eq_round (x : ℚ) : mathRound x = round x := by
  unfold mathRound
  rw [round_eq]

/-- C20, counterexample: with no revenue this month and a revenue of -100 last
month, the reported change is 0, while the previous revenue is not 0 and the
rounded quotient is -100. -/
theorem overviewRevenueChange_negative :
    overviewRevenueChange 0 (-100) = 0 ∧ (-100 : ℚ) ≠ 0 ∧
    round2 ((0 - (-100 : ℚ)) / (-100) * 100) = -100 ∧
    overviewRevenueChange 0 (-100) ≠ round2 ((0 - (-100 : ℚ)) / (-100) * 100) := by
  have h1 : overviewRevenueChange 0 (-100) = 0 := by
    norm_num [overviewRevenueChange, revenueChange, mathRound]
  have h2 : round2 ((0 - (-100 : ℚ)) / (-100) * 100) = -100 := by
    norm_num [round2, round_eq]
  refine ⟨h1, by norm_num, h2, ?_⟩
  rw [h1, h2]
  norm_num

/-- C20, amended: the reported `revenueChange` is 0 whenever the previous month's
revenue is 0 or negative, whatever the current month's revenue; when the
previous month's revenue is positive it is (current − previous) / previous × 100
rounded to two decimal places. -/
theorem overviewRevenueChange_spec (totalRevenue lastMonthTotal : ℚ) :
    (lastMonthTotal = 0 → overviewRevenueChange totalRevenue lastMonthTotal = 0) ∧
    (lastMonthTotal ≤ 0 → overviewRevenueChange totalRevenue lastMonthTotal = 0) ∧
    (0 < lastMonthTotal →
      overviewRevenueChange totalRevenue lastMonthTotal
        = round2 ((totalRevenue - lastMonthTotal) / lastMonthTotal * 100)) := by
  have hle : lastMonthTotal ≤ 0 → overviewRevenueChange totalRevenue lastMonthTotal = 0 := by
    intro h
    unfold overviewRevenueChange revenueChange mathRound
    rw [if_neg (not_lt.mpr h)]
    norm_num
  refine ⟨fun h => hle (le_of_eq h), hle, fun h => ?_⟩
  unfold overviewRevenueChange revenueChange round2
  rw [if_pos h, mathRound_eq_round]

/-- C20, amended, at a current revenue of 100: against 30 last month the change is
233.33, against 0 it is 0. -/
theorem overviewRevenueChange_spec_witness :
    overviewRevenueChange 100 30 = round2 ((100 - 30) / 30 * 100) ∧
    round2 (((100 : ℚ) - 30) / 30 * 100) = 233.33 ∧
    overviewRevenueChange 100 0 = 0 :=
  ⟨(overviewRevenueChange_spec 100 30).2.2 (by norm_num),
   by norm_num [round2, round_eq],
   (overviewRevenueChange_spec 100 0).1 rfl⟩

/-! ## The category tree -/

theorem allOrNone_map_some {α β : Type} (l : List α) (g : α → Option β) (h : α → β)
    (hg : ∀ a ∈ l, g a = some (h a)) : allOrNone (l.map g) = some (l.map h) := by
  induction l with
  | nil => rfl
  | cons a rest ih =>
    rw [List.map_cons, hg a (List.mem_cons_self _ _), allOrNone,
      ih (fun b hb => hg b (List.mem_cons_of_mem _ hb))]
    rfl

/-- The first pass leaves alone the keys that are no category's id. -/
theorem firstPass_foldl_other (categories : List Category) (m : Id → Option TreeEntry)
    (id : Id) (h : ∀ c ∈ categories, c._id ≠ id) :
    categories.foldl firstPassStep m id = m id := by
  induction categories generalizing m with
  | nil => rfl
  | cons a rest ih =>
    rw [List.foldl_cons, ih _ (fun c hc => h c (List.mem_cons_of_mem _ hc))]
    exact Function.update_noteq (Ne.symm (h a (List.mem_cons_self _ _))) _ _

/-- With ids that are all different, the first pass maps every category's id to
the category with no children. -/
theorem firstPass_foldl_mem (categories : List Category) (m : Id → Option TreeEntry)
    (hnd : (categories.map (fun c => c._id)).Nodup) (c : Category) (hc : c ∈ categories) :
    categories.foldl firstPassStep m c._id = some { category := c, children := [] } := by
  induction categories generalizing m with
  | nil => cases hc
  | cons a rest ih =>
    rw [List.map_cons, List.nodup_cons] at hnd
    rw [List.foldl_cons]
    rcases List.mem_cons.mp hc with heq | hmem
    · subst heq
      rw [firstPass_foldl_other rest _ c._id]
      · exact Function.update_same _ _ _
      · intro d hd hid
        exact hnd.1 (List.mem_map.mpr ⟨d, hd, hid⟩)
    · exact ih _ hnd.2 hmem

/-- The second pass, from any state: a value of the map gets the ids of the
categories whose parent is its key appended to its children, in order; a key
without a value stays without; `tree` gets the ids of the categories without
parent appended. -/
theorem secondPass_foldl (todo : List Category) (s : TreeBuild) :
    (∀ k e, s.categoryMap k = some e →
      (todo.foldl secondPassStep s).categoryMap k =
        some { category := e.category,
               children := e.children ++
                 (todo.filter (fun d => d.parent = some k)).map (fun d => d._id) }) ∧
    (∀ k, s.categoryMap k = none → (todo.foldl secondPassStep s).categoryMap k = none) ∧
    (todo.foldl secondPassStep s).tree =
      s.tree ++ (todo.filter (fun d => d.parent = none)).map (fun d => d._id) := by
  induction todo generalizing s with
  | nil =>
    refine ⟨fun k e h => ?_, fun k h => h, ?_⟩
    · simp [h]
    · simp
  | cons c rest ih =>
    rw [List.foldl_cons]
    obtain ⟨ih1, ih2, ih3⟩ := ih (secondPassStep s c)
    cases hp : c.parent with
    | none =>
      have hstep : secondPassStep s c = { s with tree := s.tree ++ [c._id] } := by
        unfold secondPassStep
        rw [hp]
      rw [hstep] at ih1 ih2 ih3 ⊢
      refine ⟨fun k e h => ?_, fun k h => ih2 k h, ?_⟩
      · rw [ih1 k e h]
        simp [List.filter_cons, hp]
      · rw [ih3]
        simp [List.filter_cons, hp]
    | some p =>
      cases hm : s.categoryMap p with
      | none =>
        have hstep : secondPassStep s c = s := by
          unfold secondPassStep
          rw [hp]
          simp only
          rw [hm]
        rw [hstep] at ih1 ih2 ih3 ⊢
        refine ⟨fun k e h => ?_, fun k h => ih2 k h, ?_⟩
        · have hk : p ≠ k := by
            intro hpk
            rw [hpk, h] at hm
            cases hm
          rw [ih1 k e h]
          simp [List.filter_cons, hp, hk]
        · rw [ih3]
          simp [List.filter_cons, hp]
      | some entry =>
        have hstep : secondPassStep s c =
            { categoryMap := Function.update s.categoryMap p
                (some { category := entry.category, children := entry.children ++ [c._id] }),
              tree := s.tree } := by
          unfold secondPassStep
          rw [hp]
          simp only
          rw [hm]
        rw [hstep] at ih1 ih2 ih3 ⊢
        refine ⟨fun k e h => ?_, fun k h => ?_, ?_⟩
        · by_cases hk : k = p
          · subst hk
            rw [hm] at h
            cases h
            rw [ih1 k { entry with children := entry.children ++ [c._id] }
              (Function.update_same _ _ _)]
            simp [List.filter_cons, hp]
          · rw [ih1 k e ((Function.update_noteq hk _ _).trans h)]
            simp [List.filter_cons, hp, Ne.symm hk]
        · have hk : k ≠ p := by
            intro hkp
            rw [hkp, hm] at h
            cases h
          exact ih2 k ((Function.update_noteq hk _ _).trans h)
        · rw [ih3]
          simp [List.filter_cons, hp]

/-- The map and the list of roots after the two passes, for categories whose ids
are all different. -/
theorem passes_result (categories : List Category)
    (hnd : (categories.map (fun c => c._id)).Nodup) :
    (∀ c ∈ categories,
      (secondPass categories (firstPass categories)).categoryMap c._id =
        some { category := c,
               children := (childrenOf categories c).map (fun d => d._id) }) ∧
    (secondPass categories (firstPass categories)).tree
      = (rootsOf categories).map (fun d => d._id) := by
  obtain ⟨h1, _, h3⟩ := secondPass_foldl categories
    { categoryMap := firstPass categories, tree := [] }
  refine ⟨fun c hc => ?_, ?_⟩
  · have := h1 c._id { category := c, children := [] }
      (firstPass_foldl_mem categories _ hnd c hc)
    simpa [secondPass, childrenOf] using this
  · simpa [secondPass, rootsOf] using h3

theorem category_eq_of_id (categories : List Category)
    (hnd : (categories.map (fun c => c._id)).Nodup) (a b : Category)
    (ha : a ∈ categories) (hb : b ∈ categories) (h : a._id = b._id) : a = b :=
  List.inj_on_of_nodup_map hnd ha hb h

theorem Level.mem {categories : List Category} {c : Category} {k : Nat}
    (h : Level categories c k) : c ∈ categories := by
  cases h with
  | root _ hc _ => exact hc
  | child _ _ _ hc _ _ _ => exact hc

/-- A category has one level at most. -/
theorem Level.one_level {categories : List Category}
    (hnd : (categories.map (fun c => c._id)).Nodup) {c : Category} {k j : Nat}
    (h1 : Level categories c k) (h2 : Level categories c j) : k = j := by
  induction h1 generalizing j with
  | root c _ hnone =>
    cases h2 with
    | root _ _ _ => rfl
    | child _ p _ _ _ hsome _ =>
      rw [hnone] at hsome
      cases hsome
  | child c p k _ hp hsome _ ih =>
    cases h2 with
    | root _ _ hnone =>
      rw [hnone] at hsome
      cases hsome
    | child _ q j _ hq hsome2 hlevel =>
      rw [hsome] at hsome2
      have hpq : p = q := category_eq_of_id categories hnd p q hp hq (Option.some.inj hsome2)
      subst hpq
      rw [ih hlevel]

/-- The chain of ancestors of a category of level `k`: `k + 1` different input
categories. -/
theorem Level.chain {categories : List Category}
    (hnd : (categories.map (fun c => c._id)).Nodup) {c : Category} {k : Nat}
    (h : Level categories c k) :
    ∃ l : List Category, l.Nodup ∧ l ⊆ categories ∧ l.length = k + 1 ∧
      ∀ x ∈ l, ∃ j, j ≤ k ∧ Level categories x j := by
  induction h with
  | root c hc hnone =>
    refine ⟨[c], List.nodup_singleton c, ?_, rfl, ?_⟩
    · intro x hx
      rw [List.mem_singleton] at hx
      rw [hx]
      exact hc
    · intro x hx
      rw [List.mem_singleton] at hx
      rw [hx]
      exact ⟨0, le_rfl, Level.root c hc hnone⟩
  | child c p k hc hp hsome hlevel ih =>
    obtain ⟨l, hl1, hl2, hl3, hl4⟩ := ih
    refine ⟨c :: l, List.nodup_cons.mpr ⟨?_, hl1⟩, ?_, by rw [List.length_cons, hl3], ?_⟩
    · intro hmem
      obtain ⟨j, hj, hlj⟩ := hl4 c hmem
      have := Level.one_level hnd hlj (Level.child c p k hc hp hsome hlevel)
      omega
    · intro x hx
      rcases List.mem_cons.mp hx with h | h
      · rw [h]
        exact hc
      · exact hl2 h
    · intro x hx
      rcases List.mem_cons.mp hx with h | h
      · rw [h]
        exact ⟨k + 1, le_rfl, Level.child c p k hc hp hsome hlevel⟩
      · obtain ⟨j, hj, hlj⟩ := hl4 x h
        exact ⟨j, by omega, hlj⟩

/-- A level is less than the number of categories. -/
theorem Level.lt_length {categories : List Category}
    (hnd : (categories.map (fun c => c._id)).Nodup) {c : Category} {k : Nat}
    (h : Level categories c k) : k < categories.length := by
  obtain ⟨l, hl1, hl2, hl3, _⟩ := Level.chain hnd h
  have := (List.subperm_of_subset hl1 hl2).length_le
  omega

theorem mem_childrenOf (categories : List Category) (c d : Category) :
    d ∈ childrenOf categories c ↔ d ∈ categories ∧ d.parent = some c._id := by
  simp [childrenOf]

theorem mem_rootsOf (categories : List Category) (d : Category) :
    d ∈ rootsOf categories ↔ d ∈ categories ∧ d.parent = none := by
  simp [rootsOf]

theorem Level.of_child {categories : List Category} {c d : Category} {k : Nat}
    (h : Level categories c k) (hd : d ∈ childrenOf categories c) :
    Level categories d (k + 1) :=
  Level.child d c k ((mem_childrenOf categories c d).mp hd).1 h.mem
    ((mem_childrenOf categories c d).mp hd).2 h

theorem subtree_category (categories : List Category) (depth : Nat) (c : Category) :
    (subtree categories depth c).category = c := by
  cases depth <;> rfl

/-- With enough fuel for the levels below, the serialisation of the value under a
category's id is the specification's subtree. -/
theorem serialize_eq_subtree (categories : List Category)
    (hnd : (categories.map (fun c => c._id)).Nodup) (fuel : Nat) (c : Category) (k : Nat)
    (h : Level categories c k) (hfuel : categories.length ≤ k + fuel) :
    serialize (secondPass categories (firstPass categories)).categoryMap fuel c._id
      = some (subtree categories fuel c) := by
  induction fuel generalizing c k with
  | zero =>
    have := Level.lt_length hnd h
    omega
  | succ fuel ih =>
    unfold serialize
    rw [(passes_result categories hnd).1 c h.mem]
    simp only [List.map_map]
    rw [allOrNone_map_some (childrenOf categories c) _ (subtree categories fuel)]
    · rfl
    · intro d hd
      exact ih d (k + 1) (h.of_child hd) (by omega)

/-- For categories whose ids are all different, the document built is the list of
the specification's subtrees of the categories without parent, in input order:
no chain of references is circular. -/
theorem buildCategoryTree_eq (categories : List Category)
    (hnd : (categories.map (fun c => c._id)).Nodup) :
    buildCategoryTree categories
      = some ((rootsOf categories).map (subtree categories categories.length)) := by
  unfold buildCategoryTree
  simp only
  rw [(passes_result categories hnd).2, List.map_map]
  apply allOrNone_map_some
  intro r hr
  have hr2 := (mem_rootsOf categories r).mp hr
  exact serialize_eq_subtree categories hnd categories.length r 0
    (Level.root r hr2.1 hr2.2) (by omega)

theorem nodesOfAll_eq_flatMap (ts : List CategoryNode) :
    nodesOfAll ts = ts.flatMap CategoryNode.nodes := by
  induction ts with
  | nil => rfl
  | cons t rest ih =>
    rw [nodesOfAll, ih, List.flatMap_cons]

theorem mem_nodesOfAll (ts : List CategoryNode) (node : CategoryNode) :
    node ∈ nodesOfAll ts ↔ ∃ t ∈ ts, node ∈ t.nodes := by
  rw [nodesOfAll_eq_flatMap, List.mem_flatMap]

theorem subtree_nodes_zero (categories : List Category) (c : Category) :
    (subtree categories 0 c).nodes = [.node c []] := by
  simp [subtree, CategoryNode.nodes, nodesOfAll]

theorem subtree_nodes_succ (categories : List Category) (depth : Nat) (c : Category) :
    (subtree categories (depth + 1) c).nodes
      = .node c ((childrenOf categories c).map (subtree categories depth)) ::
        (childrenOf categories c).flatMap (fun d => (subtree categories depth d).nodes) := by
  rw [subtree, CategoryNode.nodes, nodesOfAll_eq_flatMap, List.flatMap_map]

/-- In the subtree of a category, cut no shorter than the levels below it, every
node has as children the input categories whose parent it is, in input order. -/
theorem subtree_children (categories : List Category)
    (hnd : (categories.map (fun c => c._id)).Nodup) (depth : Nat) (c : Category) (k : Nat)
    (h : Level categories c k) (hdepth : categories.length ≤ k + depth)
    (node : CategoryNode) (hnode : node ∈ (subtree categories depth c).nodes) :
    node.children.map CategoryNode.category = childrenOf categories node.category := by
  induction depth generalizing c k with
  | zero =>
    have := Level.lt_length hnd h
    omega
  | succ depth ih =>
    rw [subtree_nodes_succ] at hnode
    rcases List.mem_cons.mp hnode with heq | hmem
    · rw [heq]
      show ((childrenOf categories c).map (subtree categories depth)).map CategoryNode.category
        = childrenOf categories c
      rw [List.map_map]
      conv_rhs => rw [← List.map_id (childrenOf categories c)]
      exact List.map_congr_left (fun d _ => subtree_category categories depth d)
    · obtain ⟨d, hd, hin⟩ := List.mem_flatMap.mp hmem
      exact ih d (k + 1) (h.of_child hd) (by omega) hin

theorem Descends.under {categories : List Category} {c d x : Category} {m : Nat}
    (hc : c ∈ categories) (hd : d ∈ childrenOf categories c)
    (h : Descends categories d x m) : Descends categories c x (m + 1) := by
  induction h with
  | self =>
    exact Descends.step d c 0 ((mem_childrenOf categories c d).mp hd).1 hc
      ((mem_childrenOf categories c d).mp hd).2 Descends.self
  | step x y m hx hy hsome _ ih => exact Descends.step x y (m + 1) hx hy hsome ih

theorem Descends.top {categories : List Category} {c x : Category} {m : Nat}
    (h : Descends categories c x (m + 1)) :
    ∃ d ∈ childrenOf categories c, Descends categories d x m := by
  generalize hn : m + 1 = n at h
  induction h generalizing m with
  | self => omega
  | step x y j hx hy hsome hdesc ih =>
    have hj : j = m := by omega
    subst hj
    cases j with
    | zero =>
      cases hdesc
      exact ⟨x, (mem_childrenOf categories c x).mpr ⟨hx, hsome⟩, Descends.self⟩
    | succ j =>
      obtain ⟨d, hd, hdy⟩ := ih rfl
      exact ⟨d, hd, Descends.step x y j hx hy hsome hdy⟩

theorem Descends.same_top {categories : List Category}
    (hnd : (categories.map (fun c => c._id)).Nodup) {c d x : Category} {m : Nat}
    (h1 : Descends categories c x m) (h2 : Descends categories d x m) : c = d := by
  induction h1 with
  | self =>
    cases h2
    rfl
  | step x y m _ hy hsome _ ih =>
    cases h2 with
    | step _ z _ _ hz hsome2 hdz =>
      rw [hsome] at hsome2
      have hyz : y = z := category_eq_of_id categories hnd y z hy hz (Option.some.inj hsome2)
      subst hyz
      exact ih hdz

theorem Descends.level {categories : List Category} {c x : Category} {k m : Nat}
    (hc : Level categories c k) (h : Descends categories c x m) :
    Level categories x (k + m) := by
  induction h with
  | self => exact hc
  | step x y m hx hy hsome _ ih => exact Level.child x y (k + m) hx hy hsome ih

theorem Level.descends {categories : List Category} {x : Category} {k : Nat}
    (h : Level categories x k) :
    ∃ r ∈ rootsOf categories, Descends categories r x k := by
  induction h with
  | root c hc hnone => exact ⟨c, (mem_rootsOf categories c).mpr ⟨hc, hnone⟩, Descends.self⟩
  | child c p k hc hp hsome _ ih =>
    obtain ⟨r, hr, hd⟩ := ih
    exact ⟨r, hr, Descends.step c p k hc hp hsome hd⟩

/-- The categories of the nodes of a subtree descend from its root. -/
theorem subtree_descends (categories : List Category) (depth : Nat) (c : Category)
    (hc : c ∈ categories) (x : Category)
    (hx : x ∈ (subtree categories depth c).nodes.map CategoryNode.category) :
    ∃ m, Descends categories c x m := by
  induction depth generalizing c with
  | zero =>
    rw [subtree_nodes_zero] at hx
    simp only [List.map_cons, List.map_nil, List.mem_singleton] at hx
    rw [hx]
    exact ⟨0, Descends.self⟩
  | succ depth ih =>
    rw [subtree_nodes_succ, List.map_cons, List.mem_cons] at hx
    rcases hx with heq | hmem
    · rw [heq]
      exact ⟨0, Descends.self⟩
    · obtain ⟨node, hnode, hcat⟩ := List.mem_map.mp hmem
      obtain ⟨d, hd, hin⟩ := List.mem_flatMap.mp hnode
      obtain ⟨m, hm⟩ := ih d ((mem_childrenOf categories c d).mp hd).1
        (List.mem_map.mpr ⟨node, hin, hcat⟩)
      exact ⟨m + 1, hm.under hc hd⟩

/-- A subtree holds every category that descends from its root within its depth. -/
theorem subtree_holds (categories : List Category) (depth : Nat) (c x : Category) (m : Nat)
    (h : Descends categories c x m) (hm : m ≤ depth) :
    x ∈ (subtree categories depth c).nodes.map CategoryNode.category := by
  induction depth generalizing c x m with
  | zero =>
    have hm0 : m = 0 := by omega
    subst hm0
    cases h
    rw [subtree_nodes_zero]
    simp [CategoryNode.category]
  | succ depth ih =>
    rw [subtree_nodes_succ, List.map_cons, List.mem_cons]
    cases m with
    | zero =>
      cases h
      exact Or.inl rfl
    | succ m =>
      obtain ⟨d, hd, hdx⟩ := h.top
      obtain ⟨node, hnode, hcat⟩ := List.mem_map.mp (ih d x m hdx (by omega))
      exact Or.inr (List.mem_map.mpr ⟨node, List.mem_flatMap.mpr ⟨d, hd, hnode⟩, hcat⟩)

/-- Subtrees under different categories of one level share no category. -/
theorem subtrees_nodup (categories : List Category)
    (hnd : (categories.map (fun c => c._id)).Nodup) (l : List Category) (depth k : Nat)
    (hl : l.Nodup) (hlevel : ∀ d ∈ l, Level categories d k)
    (heach : ∀ d ∈ l, ((subtree categories depth d).nodes.map CategoryNode.category).Nodup) :
    (l.flatMap
      (fun d => (subtree categories depth d).nodes.map CategoryNode.category)).Nodup := by
  rw [List.nodup_flatMap]
  refine ⟨heach, List.Pairwise.imp_of_mem ?_ hl⟩
  intro a b ha hb hne
  show List.Disjoint _ _
  intro x hxa hxb
  obtain ⟨m, hm⟩ := subtree_descends categories depth a (hlevel a ha).mem x hxa
  obtain ⟨j, hj⟩ := subtree_descends categories depth b (hlevel b hb).mem x hxb
  have hmj : k + m = k + j :=
    Level.one_level hnd (hm.level (hlevel a ha)) (hj.level (hlevel b hb))
  have hmj2 : m = j := by omega
  subst hmj2
  exact hne (Descends.same_top hnd hm hj)

/-- No category occurs twice in a subtree. -/
theorem subtree_nodup (categories : List Category)
    (hnd : (categories.map (fun c => c._id)).Nodup) (depth : Nat) (c : Category) (k : Nat)
    (h : Level categories c k) :
    ((subtree categories depth c).nodes.map CategoryNode.category).Nodup := by
  induction depth generalizing c k with
  | zero =>
    rw [subtree_nodes_zero]
    exact List.nodup_singleton _
  | succ depth ih =>
    rw [subtree_nodes_succ, List.map_cons, List.map_flatMap, List.nodup_cons]
    constructor
    · intro hmem
      obtain ⟨d, hd, hin⟩ := List.mem_flatMap.mp hmem
      obtain ⟨m, hm⟩ := subtree_descends categories depth d
        ((mem_childrenOf categories c d).mp hd).1 c hin
      have := Level.one_level hnd h (hm.level (h.of_child hd))
      omega
    · exact subtrees_nodup categories hnd (childrenOf categories c) depth (k + 1)
        ((List.Nodup.of_map _ hnd).filter _) (fun d hd => h.of_child hd)
        (fun d hd => ih d (k + 1) (h.of_child hd))

/-- The categories of the nodes of the forest of the categories without parent. -/
theorem forest_categories (categories : List Category) (depth : Nat) :
    (nodesOfAll ((rootsOf categories).map (subtree categories depth))).map
        CategoryNode.category
      = (rootsOf categories).flatMap
          (fun r => (subtree categories depth r).nodes.map CategoryNode.category) := by
  rw [nodesOfAll_eq_flatMap, List.flatMap_map, List.map_flatMap]

theorem rootsOf_level (categories : List Category) (r : Category)
    (hr : r ∈ rootsOf categories) : Level categories r 0 :=
  Level.root r ((mem_rootsOf categories r).mp hr).1 ((mem_rootsOf categories r).mp hr).2

/-- No category occurs twice in the forest. -/
theorem forest_nodup (categories : List Category)
    (hnd : (categories.map (fun c => c._id)).Nodup) (depth : Nat) :
    ((nodesOfAll ((rootsOf categories).map (subtree categories depth))).map
      CategoryNode.category).Nodup := by
  rw [forest_categories]
  exact subtrees_nodup categories hnd (rootsOf categories) depth 0
    ((List.Nodup.of_map _ hnd).filter _) (rootsOf_level categories)
    (fun r hr => subtree_nodup categories hnd depth r 0 (rootsOf_level categories r hr))

/-- The categories of the forest are those with an ancestor chain that ends at a
category without parent. -/
theorem mem_forest (categories : List Category)
    (hnd : (categories.map (fun c => c._id)).Nodup) (x : Category) :
    x ∈ (nodesOfAll ((rootsOf categories).map
        (subtree categories categories.length))).map CategoryNode.category
      ↔ ∃ k, Level categories x k := by
  rw [forest_categories, List.mem_flatMap]
  constructor
  · rintro ⟨r, hr, hx⟩
    obtain ⟨m, hm⟩ := subtree_descends categories _ r ((mem_rootsOf categories r).mp hr).1 x hx
    exact ⟨0 + m, hm.level (rootsOf_level categories r hr)⟩
  · rintro ⟨k, hk⟩
    obtain ⟨r, hr, hd⟩ := hk.descends
    exact ⟨r, hr, subtree_holds categories _ r x k hd (le_of_lt (Level.lt_length hnd hk))⟩

theorem CategoryNode.mem_nodes_self (t : CategoryNode) : t ∈ t.nodes := by
  cases t with
  | node c cs =>
    rw [CategoryNode.nodes]
    exact List.mem_cons_self _ _

/-- The children of a node of a subtree are nodes of the subtree. -/
theorem subtree_children_mem (categories : List Category) (depth : Nat) (c : Category)
    (node ch : CategoryNode) (hnode : node ∈ (subtree categories depth c).nodes)
    (hch : ch ∈ node.children) : ch ∈ (subtree categories depth c).nodes := by
  induction depth generalizing c with
  | zero =>
    rw [subtree_nodes_zero, List.mem_singleton] at hnode
    rw [hnode] at hch
    cases hch
  | succ depth ih =>
    rw [subtree_nodes_succ] at hnode ⊢
    rcases List.mem_cons.mp hnode with heq | hmem
    · rw [heq] at hch
      obtain ⟨d, hd, hsub⟩ := List.mem_map.mp hch
      exact List.mem_cons_of_mem _ (List.mem_flatMap.mpr ⟨d, hd, hsub ▸ ch.mem_nodes_self⟩)
    · obtain ⟨d, hd, hin⟩ := List.mem_flatMap.mp hmem
      exact List.mem_cons_of_mem _ (List.mem_flatMap.mpr ⟨d, hd, ih d hin⟩)

/-- The run of `getCategoryTree` when the document is built. -/
theorem getCategoryTree_of_built (categories : List Category) (forest : List CategoryNode)
    (h : buildCategoryTree categories = some forest) :
    getCategoryTree categories = Reply.ok 200 (some forest) [] := by
  unfold getCategoryTree
  rw [h]

/-- C15: for input categories whose ids are all different, the tree builder raises
no error (status 200); the roots of its output are exactly the input categories
whose parent is null, in input order; and a category whose parent id is no input
category's id is the category of no node of the output. -/
theorem buildCategoryTree_roots (categories : List Category)
    (hnd : (categories.map (fun c => c._id)).Nodup) :
    ∃ forest, buildCategoryTree categories = some forest ∧
      (getCategoryTree categories).status = 200 ∧
      (getCategoryTree categories).data = some forest ∧
      forest.map CategoryNode.category = categories.filter (fun c => c.parent = none) ∧
      ∀ c ∈ categories, ∀ p, c.parent = some p → (∀ d ∈ categories, d._id ≠ p) →
        c ∉ (nodesOfAll forest).map CategoryNode.category := by
  have hbuilt := buildCategoryTree_eq categories hnd
  refine ⟨_, hbuilt, ?_, ?_, ?_, ?_⟩
  · rw [getCategoryTree_of_built categories _ hbuilt]
    rfl
  · rw [getCategoryTree_of_built categories _ hbuilt]
    rfl
  · rw [List.map_map]
    show (rootsOf categories).map _ = rootsOf categories
    conv_rhs => rw [← List.map_id (rootsOf categories)]
    exact List.map_congr_left (fun d _ => subtree_category categories _ d)
  · intro c _ p hp hmissing hmem
    obtain ⟨k, hk⟩ := (mem_forest categories hnd c).mp hmem
    cases hk with
    | root _ _ hnone =>
      rw [hnone] at hp
      cases hp
    | child _ q _ _ hq hsome _ =>
      rw [hsome] at hp
      exact hmissing q hq (Option.some.inj hp)

/-- C15 on the specification's example: for A (root), B (parent A) and C (parent
missing) the output is A with the one child B, and C is in no node. -/
theorem buildCategoryTree_roots_witness :
    buildCategoryTree [catA, catB, catC] = some [.node catA [.node catB []]] ∧
    ∃ forest, buildCategoryTree [catA, catB, catC] = some forest ∧
      (getCategoryTree [catA, catB, catC]).status = 200 ∧
      (getCategoryTree [catA, catB, catC]).data = some forest ∧
      forest.map CategoryNode.category = [catA, catB, catC].filter (fun c => c.parent = none) ∧
      ∀ c ∈ [catA, catB, catC], ∀ p, c.parent = some p →
        (∀ d ∈ [catA, catB, catC], d._id ≠ p) →
        c ∉ (nodesOfAll forest).map CategoryNode.category :=
  ⟨rfl, buildCategoryTree_roots [catA, catB, catC] (by decide)⟩

/-- C16: for input categories whose ids are all different, in the tree builder's
output every node, at any depth, has as children exactly the input categories
whose parent is the node's id, in input order, and these children are nodes of
the output themselves; every input category whose ancestor chain ends at a
category with a null parent is the category of exactly one node, and no other
category is the category of a node. -/
theorem buildCategoryTree_nested (categories : List Category)
    (hnd : (categories.map (fun c => c._id)).Nodup) :
    ∃ forest, buildCategoryTree categories = some forest ∧
      (∀ node ∈ nodesOfAll forest,
        node.children.map CategoryNode.category
          = categories.filter (fun d => d.parent = some node.category._id)) ∧
      (∀ node ∈ nodesOfAll forest, ∀ ch ∈ node.children, ch ∈ nodesOfAll forest) ∧
      (∀ x, (∃ k, Level categories x k) →
        ((nodesOfAll forest).map CategoryNode.category).count x = 1) ∧
      (∀ x ∈ (nodesOfAll forest).map CategoryNode.category, ∃ k, Level categories x k) := by
  refine ⟨_, buildCategoryTree_eq categories hnd, ?_, ?_, ?_, ?_⟩
  · intro node hnode
    obtain ⟨t, ht, hin⟩ := (mem_nodesOfAll _ node).mp hnode
    obtain ⟨r, hr, hsub⟩ := List.mem_map.mp ht
    rw [← hsub] at hin
    exact subtree_children categories hnd _ r 0 (rootsOf_level categories r hr) (by omega)
      node hin
  · intro node hnode ch hch
    obtain ⟨t, ht, hin⟩ := (mem_nodesOfAll _ node).mp hnode
    obtain ⟨r, hr, hsub⟩ := List.mem_map.mp ht
    rw [← hsub] at hin
    exact (mem_nodesOfAll _ ch).mpr
      ⟨t, ht, hsub ▸ subtree_children_mem categories _ r node ch hin hch⟩
  · intro x hx
    exact List.count_eq_one_of_mem (forest_nodup categories hnd _)
      ((mem_forest categories hnd x).mpr hx)
  · intro x hx
    exact (mem_forest categories hnd x).mp hx

/-- C16 on an input that lists the grandchild D before its parent B and B before
the root A: the output is A, holding B, holding D. -/
theorem buildCategoryTree_nested_witness :
    buildCategoryTree [catD, catB, catA] = some [.node catA [.node catB [.node catD []]]] ∧
    ∃ forest, buildCategoryTree [catD, catB, catA] = some forest ∧
      (∀ node ∈ nodesOfAll forest,
        node.children.map CategoryNode.category
          = [catD, catB, catA].filter (fun d => d.parent = some node.category._id)) ∧
      (∀ node ∈ nodesOfAll forest, ∀ ch ∈ node.children, ch ∈ nodesOfAll forest) ∧
      (∀ x, (∃ k, Level [catD, catB, catA] x k) →
        ((nodesOfAll forest).map CategoryNode.category).count x = 1) ∧
      (∀ x ∈ (nodesOfAll forest).map CategoryNode.category,
        ∃ k, Level [catD, catB, catA] x k) :=
  ⟨rfl, buildCategoryTree_nested [catD, catB, catA] (by decide)⟩

/-! ## A missing product -/

/-- C22, counterexample: a request whose second item references id 9, under which
no product is stored, is answered with status 400, not 404. -/
theorem createOrder_missing_product_status :
    sampleStore.products 9 = none ∧
    (createOrder sampleSchema 0 7 sampleStore (sampleRequest missingItems)).1.status = 400 ∧
    (createOrder sampleSchema 0 7 sampleStore (sampleRequest missingItems)).1.status ≠ 404 := by
  obtain ⟨f, hf, hv, hi⟩ :=
    sampleRequest_fields { product := 2, quantity := 1 }
      [{ product := 9, quantity := 1 }, { product := 1, quantity := 2 }]
  have hl : processItems (initialLoop sampleStore) missingItems
      = .error (failure 400 (msgProductNotFound 9),
          (stepLoop (initialLoop sampleStore) { product := 2, quantity := 1 } sticker).products) := by
    rw [missingItems, processItems_cons_enough _ _ _ sticker rfl (by norm_num [sticker])]
    exact processItems_cons_missing _ _ _ (by simp [stepLoop, initialLoop, sampleStore])
  rw [createOrder_of_loop_error sampleSchema 0 7 sampleStore (sampleRequest missingItems) f _ _ _
    hf hv hi hl]
  exact ⟨rfl, rfl, by decide⟩

/-- C22, amended: when the loop has processed the items before item k and item k's
product reference resolves to no product, `createOrder` answers 400 with the
message "Product with ID (id) not found"; no order is persisted; the Product
collection is exactly the one left by the items before k, so that item k and
the later items change no stock. -/
theorem createOrder_missing_product (schema : OrderSchema) (now : Timestamp) (newId : Id)
    (st : Store) (req : Request) (f : Fields) (done rest : List ReqItem) (item : ReqItem)
    (s : LoopState)
    (hf : parseFields req = .ok f) (hv : validateFields f = none)
    (hi : f.items = some (done ++ item :: rest))
    (hdone : processItems (initialLoop st) done = .ok s)
    (hp : s.products item.product = none) :
    (createOrder schema now newId st req).1 = failure 400 (msgProductNotFound item.product) ∧
      (createOrder schema now newId st req).1.status = 400 ∧
      (createOrder schema now newId st req).2.orders = st.orders ∧
      (createOrder schema now newId st req).2.products = s.products ∧
      (createOrder schema now newId st req).2.products item.product = none ∧
      (∀ id p, st.products id = some p →
        ∃ q, (createOrder schema now newId st req).2.products id = some q ∧
          q.stock = p.stock - requestedQuantity id done) ∧
      (∀ id, (∀ it ∈ done, it.product ≠ id) →
        (createOrder schema now newId st req).2.products id = st.products id) := by
  have hl : processItems (initialLoop st) (done ++ item :: rest)
      = .error (failure 400 (msgProductNotFound item.product), s.products) := by
    rw [processItems_append _ _ _ _ hdone]
    exact processItems_cons_missing s item rest hp
  rw [createOrder_of_loop_error schema now newId st req f _ _ _ hf hv hi hl]
  refine ⟨rfl, rfl, rfl, rfl, hp, fun id p hpid => ?_, fun id hid => ?_⟩
  · obtain ⟨q, hq, hstock, _⟩ := (processItems_ok_products _ _ _ hdone id).1 p hpid
    exact ⟨q, hq, hstock⟩
  · exact processItems_ok_frame _ _ _ hdone id hid

/-- C22, amended, at a request for one sticker, then the missing product 9, then
two Game X: the answer is 400 naming id 9, no order is stored, the sticker's
stock stays decremented to 49 and Game X, a later item, keeps its stock of 5. -/
theorem createOrder_missing_product_witness :
    ((createOrder sampleSchema 0 7 sampleStore (sampleRequest missingItems)).1
        = failure 400 (msgProductNotFound 9) ∧
      (createOrder sampleSchema 0 7 sampleStore (sampleRequest missingItems)).1.status = 400 ∧
      (createOrder sampleSchema 0 7 sampleStore (sampleRequest missingItems)).2.orders
        = sampleStore.orders ∧
      (createOrder sampleSchema 0 7 sampleStore (sampleRequest missingItems)).2.products
        = (stepLoop (initialLoop sampleStore) { product := 2, quantity := 1 } sticker).products ∧
      (createOrder sampleSchema 0 7 sampleStore (sampleRequest missingItems)).2.products 9 = none ∧
      (∀ id p, sampleStore.products id = some p →
        ∃ q, (createOrder sampleSchema 0 7 sampleStore (sampleRequest missingItems)).2.products id
            = some q ∧
          q.stock = p.stock - requestedQuantity id [{ product := 2, quantity := 1 }]) ∧
      (∀ id, (∀ it ∈ [({ product := 2, quantity := 1 } : ReqItem)], it.product ≠ id) →
        (createOrder sampleSchema 0 7 sampleStore (sampleRequest missingItems)).2.products id
          = sampleStore.products id)) ∧
    (createOrder sampleSchema 0 7 sampleStore (sampleRequest missingItems)).2.products 1
      = some gameX := by
  obtain ⟨f, hf, hv, hi⟩ :=
    sampleRequest_fields { product := 2, quantity := 1 }
      [{ product := 9, quantity := 1 }, { product := 1, quantity := 2 }]
  have h := createOrder_missing_product sampleSchema 0 7 sampleStore (sampleRequest missingItems) f
    [{ product := 2, quantity := 1 }] [{ product := 1, quantity := 2 }]
    { product := 9, quantity := 1 }
    (stepLoop (initialLoop sampleStore) { product := 2, quantity := 1 } sticker)
    hf hv hi
    (processItems_cons_enough _ _ _ sticker rfl (by norm_num [sticker]))
    (by simp [stepLoop, initialLoop, sampleStore])
  refine ⟨h, ?_⟩
  rw [h.2.2.2.2.2.2 1 (by simp)]
  rfl

/-! ## Stock stays non-negative -/

/-- The item loop keeps every stock at or above zero, whether it runs to its end
or is left early: an item is only processed when the stock covers its
quantity. -/
theorem processItems_keeps_nonneg (s : LoopState) (items : List ReqItem)
    (h : ∀ id p, s.products id = some p → 0 ≤ p.stock) :
    (∀ t, processItems s items = .ok t → ∀ id p, t.products id = some p → 0 ≤ p.stock) ∧
    (∀ r ps, processItems s items = .error (r, ps) → ∀ id p, ps id = some p → 0 ≤ p.stock) := by
  induction items generalizing s with
  | nil =>
    refine ⟨fun t ht => ?_, fun r ps hr => ?_⟩
    · rw [processItems_nil] at ht
      cases ht
      exact h
    · rw [processItems_nil] at hr
      cases hr
  | cons item rest ih =>
    cases hp : s.products item.product with
    | none =>
      rw [processItems_cons_missing s item rest hp]
      refine ⟨fun t ht => (by cases ht), fun r ps hr => ?_⟩
      cases hr
      exact h
    | some product =>
      by_cases hlt : product.stock < item.quantity
      · rw [processItems_cons_short s item rest product hp hlt]
        refine ⟨fun t ht => (by cases ht), fun r ps hr => ?_⟩
        cases hr
        exact h
      · rw [processItems_cons_enough s item rest product hp hlt]
        apply ih
        intro id p hid
        by_cases heq : id = item.product
        · subst heq
          simp only [stepLoop, Function.update_same, Option.some.injEq] at hid
          subst hid
          show 0 ≤ product.stock - item.quantity
          linarith [not_lt.mp hlt]
        · simp only [stepLoop, Function.update_noteq heq] at hid
          exact h id p hid

/-- C24: when every stored product has a stock of at least zero, every product has
a stock of at least zero after any `createOrder` request, whatever its item
quantities and whether the request succeeds, is refused before the loop, or
fails part-way through the items. -/
theorem createOrder_keeps_stock_nonneg (schema : OrderSchema) (now : Timestamp) (newId : Id)
    (st : Store) (req : Request) (h : ∀ id p, st.products id = some p → 0 ≤ p.stock) :
    ∀ id q, (createOrder schema now newId st req).2.products id = some q → 0 ≤ q.stock := by
  intro id q hq
  unfold createOrder at hq
  cases hf : parseFields req with
  | error e =>
    simp only [hf] at hq
    exact h id q hq
  | ok f =>
    simp only [hf] at hq
    cases hv : validateFields f with
    | some r =>
      simp only [hv] at hq
      exact h id q hq
    | none =>
      simp only [hv] at hq
      obtain ⟨hok, herr⟩ := processItems_keeps_nonneg (initialLoop st) (f.items.getD []) h
      cases hl : processItems (initialLoop st) (f.items.getD []) with
      | error e =>
        obtain ⟨r, ps⟩ := e
        simp only [hl] at hq
        exact herr r ps hl id q hq
      | ok s =>
        simp only [hl] at hq
        cases hs : schema.validate (buildOrder schema now f s) with
        | nil =>
          simp only [hs] at hq
          exact hok s hl id q hq
        | cons e es =>
          simp only [hs] at hq
          exact hok s hl id q hq

/-- C24 on the sample store, at a request that fails part-way (one sticker, then
nine Game X with five in stock): no stock is negative before, none after. -/
theorem createOrder_keeps_stock_nonneg_witness :
    (∀ id p, sampleStore.products id = some p → 0 ≤ p.stock) ∧
    ∀ id q, (createOrder sampleSchema 0 7 sampleStore (sampleRequest overdrawnItems)).2.products id
      = some q → 0 ≤ q.stock :=
  have h : ∀ id p, sampleStore.products id = some p → 0 ≤ p.stock := by
    intro id p hp
    simp only [sampleStore] at hp
    split_ifs at hp <;> cases hp <;> norm_num [gameX, sticker]
  ⟨h, createOrder_keeps_stock_nonneg sampleSchema 0 7 sampleStore (sampleRequest overdrawnItems) h⟩

/-! ## Placement followed by deletion -/

/-- The snapshots of a list of request items carry the items' product ids and
quantities: they add up to the same quantity for every product. -/
theorem snapshots_quantities (products : Products) (items : List ReqItem)
    (entries : List OrderItem)
    (h : List.Forall₂ (fun (item : ReqItem) (entry : OrderItem) =>
      ∃ p, products item.product = some p ∧ entry = snapshot item p) items entries) :
    (∀ e ∈ entries, ∃ item ∈ items, e.product = item.product ∧ e.quantity = item.quantity) ∧
    (∀ item ∈ items, ∃ e ∈ entries, e.product = item.product) ∧
    ∀ id, orderedQuantity id entries = requestedQuantity id items := by
  induction h with
  | nil =>
    exact ⟨fun e he => absurd he (List.not_mem_nil e),
      fun it hit => absurd hit (List.not_mem_nil it), fun _ => rfl⟩
  | @cons item entry items entries hhead _ ih =>
    obtain ⟨p, _, hentry⟩ := hhead
    obtain ⟨ih1, ih3, ih2⟩ := ih
    subst hentry
    refine ⟨fun e he => ?_, fun it hit => ?_, fun id => ?_⟩
    · rcases List.mem_cons.mp he with heq | hmem
      · subst heq
        exact ⟨item, List.mem_cons_self _ _, rfl, rfl⟩
      · obtain ⟨it, hit, h1, h2⟩ := ih1 e hmem
        exact ⟨it, List.mem_cons_of_mem _ hit, h1, h2⟩
    · rcases List.mem_cons.mp hit with heq | hmem
      · subst heq
        exact ⟨snapshot it p, List.mem_cons_self _ _, rfl⟩
      · obtain ⟨e, he, h1⟩ := ih3 it hmem
        exact ⟨e, List.mem_cons_of_mem _ he, h1⟩
    · have hrec := ih2 id
      unfold orderedQuantity requestedQuantity at hrec ⊢
      by_cases hid : item.product = id
      · simp [List.filter_cons, snapshot, hid, hrec]
      · simp [List.filter_cons, snapshot, hid, hrec]

/-- After a run of the loop to its end, no product that an item references has a
negative stock: the last item that referenced it was only processed because the
stock covered its quantity. -/
theorem processItems_ok_referenced_nonneg (s t : LoopState) (items : List ReqItem)
    (h : processItems s items = .ok t) (it : ReqItem) (hit : it ∈ items) (p : Product)
    (hp : t.products it.product = some p) : 0 ≤ p.stock := by
  induction items generalizing s it with
  | nil => cases hit
  | cons item rest ih =>
    obtain ⟨product, _, hge, hrest⟩ := processItems_cons_ok s t item rest h
    by_cases hlater : ∃ it2 ∈ rest, it2.product = it.product
    · obtain ⟨it2, hit2, heq⟩ := hlater
      exact ih (stepLoop s item product) hrest it2 hit2 (by rw [heq]; exact hp)
    · have hframe := processItems_ok_frame (stepLoop s item product) t rest hrest it.product
        (fun it2 hit2 heq => hlater ⟨it2, hit2, heq⟩)
      rcases List.mem_cons.mp hit with heq | hmem
      · subst heq
        rw [hframe] at hp
        simp only [stepLoop, Function.update_same, Option.some.injEq] at hp
        subst hp
        show 0 ≤ product.stock - it.quantity
        linarith [not_lt.mp hge]
      · exact absurd ⟨it, hmem, rfl⟩ hlater

/-- With no negative quantity among the items and no negative stock among the
products they reference, no `save` of the restoring loop throws. -/
theorem restoreStock_total_of_referenced (products : Products) (items : List OrderItem)
    (hq : ∀ it ∈ items, 0 ≤ it.quantity)
    (hstock : ∀ it ∈ items, ∀ p, products it.product = some p → 0 ≤ p.stock) :
    ∃ ps, restoreStock products items = .ok ps := by
  induction items generalizing products with
  | nil => exact ⟨products, rfl⟩
  | cons item rest ih =>
    have hrest : ∀ it ∈ rest, 0 ≤ it.quantity := fun it hit => hq it (List.mem_cons_of_mem _ hit)
    cases hp : products item.product with
    | none =>
      rw [restoreStock_cons_missing products item rest hp]
      exact ih products hrest (fun it hit => hstock it (List.mem_cons_of_mem _ hit))
    | some product =>
      have h0 : 0 ≤ product.stock := hstock item (List.mem_cons_self _ _) product hp
      have hitem : 0 ≤ item.quantity := hq item (List.mem_cons_self _ _)
      rw [restoreStock_cons_found products item rest product hp (by linarith)]
      apply ih _ hrest
      intro it hit p hpit
      by_cases heq : it.product = item.product
      · rw [heq] at hpit
        simp only [Function.update_same, Option.some.injEq] at hpit
        subst hpit
        show 0 ≤ product.stock + item.quantity
        linarith
      · rw [Function.update_noteq heq] at hpit
        exact hstock it (List.mem_cons_of_mem _ hit) p hpit

/-- Two products with the same stock whose statuses both match the stock have
the same status. -/
theorem statusMatchesStock_unique (p q : Product) (hp : statusMatchesStock p)
    (hq : statusMatchesStock q) (h : q.stock = p.stock) : q.status = p.status := by
  obtain ⟨hp0, hp1, hp2⟩ := hp
  obtain ⟨hq0, hq1, hq2⟩ := hq
  by_cases h0 : p.stock = 0
  · rw [hp0 h0, hq0 (h.trans h0)]
  · by_cases h10 : p.stock ≤ 10
    · rw [hp1 h0 h10, hq1 (by rw [h]; exact h0) (by rw [h]; exact h10)]
    · rw [hp2 (not_le.mp h10), hq2 (by rw [h]; exact not_le.mp h10)]

/-- The run of `deleteOrder` on an order that is not completed, when a `save` of
the restoring loop throws. -/
theorem deleteOrder_of_restore_error (st : Store) (id : Id) (o : Order) (ps : Products)
    (ho : st.orders id = some o) (hstatus : o.status ≠ "completed")
    (hr : restoreStock st.products o.items = .error ps) :
    deleteOrder st id
      = (failure 500 [.lit "Error deleting order"], { st with products := ps }) := by
  rw [deleteOrder_of_open st id o ho hstatus, hr]

/-- The run of `deleteOrder` on an order that is not completed, when the restoring
loop runs to its end. -/
theorem deleteOrder_of_restore_ok (st : Store) (id : Id) (o : Order) (ps : Products)
    (ho : st.orders id = some o) (hstatus : o.status ≠ "completed")
    (hr : restoreStock st.products o.items = .ok ps) :
    deleteOrder st id
      = ({ status := 200, success := true, message := [.lit "Order deleted successfully"],
           data := none, errors := [] },
         { products := ps, orders := Function.update st.orders id none }) := by
  rw [deleteOrder_of_open st id o ho hstatus, hr]

/-- C25, counterexample: a request with the quantities -6 and 11 for Game X (five
in stock) is answered 201 and leaves Game X with stock 0; deleting the created
order, whose status is pending, is answered 500, because adding back -6 would
make the stock negative: the order stays and Game X keeps the stock 0 instead
of returning to 5. -/
theorem deleteOrder_after_negative_quantity :
    (createOrder sampleSchema 0 7 sampleStore (sampleRequest swingItems)).1.status = 201 ∧
    (∃ o, (createOrder sampleSchema 0 7 sampleStore (sampleRequest swingItems)).2.orders 7
        = some o ∧ o.status = "pending" ∧ o.status ≠ "completed") ∧
    (∃ p, sampleStore.products 1 = some p ∧ p.stock = 5) ∧
    (deleteOrder (createOrder sampleSchema 0 7 sampleStore (sampleRequest swingItems)).2 7).1.status
      = 500 ∧
    (∃ q, (deleteOrder (createOrder sampleSchema 0 7 sampleStore
        (sampleRequest swingItems)).2 7).2.products 1 = some q ∧ q.stock = 0 ∧ q.stock ≠ 5) ∧
    (deleteOrder (createOrder sampleSchema 0 7 sampleStore (sampleRequest swingItems)).2 7).2.orders 7
      ≠ none := by
  obtain ⟨f, hf, hv, hi⟩ :=
    sampleRequest_fields { product := 1, quantity := -6 } [{ product := 1, quantity := 11 }]
  have hl : processItems (initialLoop sampleStore) swingItems
      = .ok (stepLoop (stepLoop (initialLoop sampleStore) { product := 1, quantity := -6 } gameX)
          { product := 1, quantity := 11 }
          (Product.preSave { gameX with stock := gameX.stock - -6 })) := by
    rw [swingItems, processItems_cons_enough _ _ _ gameX rfl (by norm_num [gameX]),
      processItems_cons_enough _ _ _ (Product.preSave { gameX with stock := gameX.stock - -6 })
        (by simp [stepLoop]) (by norm_num [Product.preSave, gameX])]
    rfl
  have hrun := createOrder_of_loop_ok sampleSchema 0 7 sampleStore (sampleRequest swingItems) f _ _
    hf hv hi hl rfl
  have ho : (createOrder sampleSchema 0 7 sampleStore (sampleRequest swingItems)).2.orders 7
      = some (buildOrder sampleSchema 0 f
          (stepLoop (stepLoop (initialLoop sampleStore) { product := 1, quantity := -6 } gameX)
            { product := 1, quantity := 11 }
            (Product.preSave { gameX with stock := gameX.stock - -6 }))) := by
    rw [hrun]
    simp only [Function.update_same]
  have hopen : (buildOrder sampleSchema 0 f
      (stepLoop (stepLoop (initialLoop sampleStore) { product := 1, quantity := -6 } gameX)
        { product := 1, quantity := 11 }
        (Product.preSave { gameX with stock := gameX.stock - -6 }))).status ≠ "completed" := by
    show "pending" ≠ "completed"
    decide
  have hrestore : restoreStock
      (createOrder sampleSchema 0 7 sampleStore (sampleRequest swingItems)).2.products
      (buildOrder sampleSchema 0 f
        (stepLoop (stepLoop (initialLoop sampleStore) { product := 1, quantity := -6 } gameX)
          { product := 1, quantity := 11 }
          (Product.preSave { gameX with stock := gameX.stock - -6 }))).items
      = .error (createOrder sampleSchema 0 7 sampleStore (sampleRequest swingItems)).2.products := by
    rw [hrun]
    exact restoreStock_cons_negative _ (snapshot { product := 1, quantity := -6 } gameX)
      [snapshot { product := 1, quantity := 11 }
        (Product.preSave { gameX with stock := gameX.stock - -6 })]
      (Product.preSave { (Product.preSave { gameX with stock := gameX.stock - -6 }) with
        stock := (Product.preSave { gameX with stock := gameX.stock - -6 }).stock - 11 })
      (by simp [stepLoop, snapshot]) (by norm_num [Product.preSave, gameX, snapshot])
  rw [deleteOrder_of_restore_error _ 7 _ _ ho hopen hrestore]
  refine ⟨by rw [hrun], ⟨_, ho, rfl, hopen⟩, ⟨gameX, rfl, rfl⟩, rfl, ?_, ?_⟩
  · rw [hrun]
    refine ⟨Product.preSave { (Product.preSave { gameX with stock := gameX.stock - -6 }) with
        stock := (Product.preSave { gameX with stock := gameX.stock - -6 }).stock - 11 },
      by simp [stepLoop], ?_, ?_⟩ <;>
      norm_num [Product.preSave, gameX]
  · show (createOrder sampleSchema 0 7 sampleStore (sampleRequest swingItems)).2.orders 7 ≠ none
    rw [ho]
    exact Option.some_ne_none _

/-- C25, amended: for a request that `createOrder` answers with 201 and none of
whose item quantities is negative, deleting the created order while its status
is not completed, with nothing else changed in between, is answered 200, removes
the order and returns every product's stock to its value before the order was
placed, also when several items reference the same product; name, image and
price are as before, and a product whose status matched its stock before the
order is again exactly as it was. If the id of the order was not in use before,
the Order collection is as before as well. -/
theorem deleteOrder_undoes_createOrder (schema : OrderSchema) (now : Timestamp) (newId : Id)
    (st : Store) (req : Request) (f : Fields) (items : List ReqItem) (o : Order)
    (h201 : (createOrder schema now newId st req).1.status = 201)
    (hf : parseFields req = .ok f) (hi : f.items = some items)
    (hq : ∀ it ∈ items, 0 ≤ it.quantity)
    (ho : (createOrder schema now newId st req).2.orders newId = some o)
    (hopen : o.status ≠ "completed") :
    (deleteOrder (createOrder schema now newId st req).2 newId).1.status = 200 ∧
    (deleteOrder (createOrder schema now newId st req).2 newId).2.orders newId = none ∧
    (st.orders newId = none →
      (deleteOrder (createOrder schema now newId st req).2 newId).2.orders = st.orders) ∧
    ∀ id,
      (∀ p, st.products id = some p →
        ∃ q, (deleteOrder (createOrder schema now newId st req).2 newId).2.products id = some q ∧
          q.stock = p.stock ∧ q.name = p.name ∧ q.image = p.image ∧ q.price = p.price ∧
          (statusMatchesStock p → q = p)) ∧
      (st.products id = none →
        (deleteOrder (createOrder schema now newId st req).2 newId).2.products id = none) := by
  obtain ⟨f2, items2, s, hf2, _, hi2, hl, _, _, hstore⟩ :=
    createOrder_created schema now newId st req h201
  rw [hf] at hf2
  cases hf2
  rw [hi] at hi2
  cases hi2
  have hstored : (createOrder schema now newId st req).2.orders newId
      = some (buildOrder schema now f s) := by
    rw [hstore]
    simp only [Function.update_same]
  rw [hstored] at ho
  cases ho
  obtain ⟨entries, hentries, hrel, _⟩ := processItems_ok_items (initialLoop st) s items hl
  have hitems : (buildOrder schema now f s).items = entries := by
    show s.processedItems = entries
    rw [hentries]
    rfl
  obtain ⟨hmem, hback_mem, hsum⟩ := snapshots_quantities _ items entries hrel
  have hproducts : (createOrder schema now newId st req).2.products = s.products := by
    rw [hstore]
  obtain ⟨ps, hps⟩ := restoreStock_total_of_referenced s.products entries
    (fun e he => by
      obtain ⟨it, hit, _, hquantity⟩ := hmem e he
      rw [hquantity]
      exact hq it hit)
    (fun e he p hp => by
      obtain ⟨it, hit, hproduct, _⟩ := hmem e he
      rw [hproduct] at hp
      exact processItems_ok_referenced_nonneg (initialLoop st) s items hl it hit p hp)
  have hrestore : restoreStock (createOrder schema now newId st req).2.products
      (buildOrder schema now f s).items = .ok ps := by
    rw [hproducts, hitems]
    exact hps
  rw [deleteOrder_of_restore_ok _ newId _ ps hstored hopen hrestore]
  refine ⟨rfl, Function.update_same _ _ _, fun hfresh => ?_, fun id => ?_⟩
  · show Function.update (createOrder schema now newId st req).2.orders newId none = st.orders
    rw [hstore]
    funext i
    by_cases hi2 : i = newId
    · subst hi2
      simp only [Function.update_same]
      exact hfresh.symm
    · simp only [Function.update_noteq hi2]
  · obtain ⟨hplace, hplace_none⟩ := processItems_ok_products (initialLoop st) s items hl id
    obtain ⟨hback, hback_none, hframe⟩ := restoreStock_ok_effect s.products ps entries hps id
    refine ⟨fun p hp => ?_, fun hnone => hback_none (hplace_none hnone)⟩
    obtain ⟨q1, hq1, hstock1, hname1, himage1, hprice1⟩ := hplace p hp
    obtain ⟨q, hq2, hstock2, hname2, himage2, hprice2⟩ := hback q1 hq1
    have hstock : q.stock = p.stock := by
      rw [hstock2, hstock1, hsum id]
      ring
    refine ⟨q, hq2, hstock, hname2.trans hname1, himage2.trans himage1, hprice2.trans hprice1,
      fun hmatch => ?_⟩
    by_cases href : ∃ e ∈ entries, e.product = id
    · obtain ⟨e, he, heq⟩ := href
      obtain ⟨q3, hq3, hmatch3⟩ :=
        (restoreStock_ok_status s.products ps entries hps id).2 e he heq (by rw [hq1]; simp)
      rw [hq2] at hq3
      cases hq3
      have hstatus := statusMatchesStock_unique p q hmatch hmatch3 hstock
      cases p
      cases q
      simp only [Product.mk.injEq]
      exact ⟨hname2.trans hname1, himage2.trans himage1, hprice2.trans hprice1, hstock, hstatus⟩
    · have hsame : ps id = s.products id :=
        hframe (fun e he heq => href ⟨e, he, heq⟩)
      have hsame1 : s.products id = st.products id :=
        processItems_ok_frame (initialLoop st) s items hl id (fun it hit heq => by
          obtain ⟨entry, hentry, hp2⟩ := hback_mem it hit
          exact href ⟨entry, hentry, hp2.trans heq⟩)
      rw [hsame, hsame1, hp] at hq2
      cases hq2
      rfl

/-- C25, amended, at a request with two lines for Game X (two units, then three,
with five in stock): the order is created, its deletion is answered 200, and
Game X and the sticker are stored exactly as before the order. -/
theorem deleteOrder_undoes_createOrder_witness :
    (createOrder sampleSchema 0 7 sampleStore (sampleRequest splitItems)).1.status = 201 ∧
    (∀ it ∈ splitItems, 0 ≤ it.quantity) ∧
    (deleteOrder (createOrder sampleSchema 0 7 sampleStore (sampleRequest splitItems)).2 7).1.status
      = 200 ∧
    (deleteOrder (createOrder sampleSchema 0 7 sampleStore (sampleRequest splitItems)).2 7).2.orders
      = sampleStore.orders ∧
    (deleteOrder (createOrder sampleSchema 0 7 sampleStore
      (sampleRequest splitItems)).2 7).2.products 1 = some gameX ∧
    (deleteOrder (createOrder sampleSchema 0 7 sampleStore
      (sampleRequest splitItems)).2 7).2.products 2 = some sticker := by
  obtain ⟨f, hf, hv, hi⟩ :=
    sampleRequest_fields { product := 1, quantity := 2 } [{ product := 1, quantity := 3 }]
  have hl : processItems (initialLoop sampleStore) splitItems
      = .ok (stepLoop (stepLoop (initialLoop sampleStore) { product := 1, quantity := 2 } gameX)
          { product := 1, quantity := 3 }
          (Product.preSave { gameX with stock := gameX.stock - 2 })) := by
    rw [splitItems, processItems_cons_enough _ _ _ gameX rfl (by norm_num [gameX]),
      processItems_cons_enough _ _ _ (Product.preSave { gameX with stock := gameX.stock - 2 })
        (by simp [stepLoop]) (by norm_num [Product.preSave, gameX])]
    rfl
  have hrun := createOrder_of_loop_ok sampleSchema 0 7 sampleStore (sampleRequest splitItems) f _ _
    hf hv hi hl rfl
  have h201 : (createOrder sampleSchema 0 7 sampleStore (sampleRequest splitItems)).1.status
      = 201 := by
    rw [hrun]
  have ho : (createOrder sampleSchema 0 7 sampleStore (sampleRequest splitItems)).2.orders 7
      = some (buildOrder sampleSchema 0 f
          (stepLoop (stepLoop (initialLoop sampleStore) { product := 1, quantity := 2 } gameX)
            { product := 1, quantity := 3 }
            (Product.preSave { gameX with stock := gameX.stock - 2 }))) := by
    rw [hrun]
    simp only [Function.update_same]
  have hq : ∀ it ∈ splitItems, 0 ≤ it.quantity := by
    intro it hit
    simp only [splitItems, List.mem_cons, List.mem_singleton, List.not_mem_nil, or_false] at hit
    rcases hit with h | h <;> subst h <;> norm_num
  have hmatch : ∀ p, p = gameX ∨ p = sticker → statusMatchesStock p := by
    intro p hp
    rcases hp with h | h <;> subst h <;>
      refine ⟨fun h0 => ?_, fun _ h10 => ?_, fun h10 => ?_⟩ <;>
      norm_num [gameX, sticker] at *
  obtain ⟨h200, _, horders, hproducts⟩ :=
    deleteOrder_undoes_createOrder sampleSchema 0 7 sampleStore (sampleRequest splitItems) f
      splitItems _ h201 hf hi hq ho (by show "pending" ≠ "completed"; decide)
  refine ⟨h201, hq, h200, horders rfl, ?_, ?_⟩
  · obtain ⟨q, hq1, _, _, _, _, hsame⟩ := (hproducts 1).1 gameX rfl
    rw [hq1, hsame (hmatch gameX (Or.inl rfl))]
  · obtain ⟨q, hq1, _, _, _, _, hsame⟩ := (hproducts 2).1 sticker rfl
    rw [hq1, hsame (hmatch sticker (Or.inr rfl))]

/-! ## Stock and subtotal under the sign of the quantities -/

/-- With no negative quantity among the items, the loop raises no stock, whether
it runs to its end or is left early. -/
theorem processItems_stock_le (s : LoopState) (items : List ReqItem)
    (hq : ∀ it ∈ items, 0 ≤ it.quantity) :
    (∀ t, processItems s items = .ok t →
      ∀ id p, s.products id = some p → ∃ q, t.products id = some q ∧ q.stock ≤ p.stock) ∧
    (∀ r ps, processItems s items = .error (r, ps) →
      ∀ id p, s.products id = some p → ∃ q, ps id = some q ∧ q.stock ≤ p.stock) := by
  induction items generalizing s with
  | nil =>
    refine ⟨fun t ht id p hp => ?_, fun r ps hr => ?_⟩
    · rw [processItems_nil] at ht
      cases ht
      exact ⟨p, hp, le_refl _⟩
    · rw [processItems_nil] at hr
      cases hr
  | cons item rest ih =>
    have hitem : 0 ≤ item.quantity := hq item (List.mem_cons_self _ _)
    have hrest : ∀ it ∈ rest, 0 ≤ it.quantity := fun it hit => hq it (List.mem_cons_of_mem _ hit)
    cases hp : s.products item.product with
    | none =>
      rw [processItems_cons_missing s item rest hp]
      refine ⟨fun t ht => (by cases ht), fun r ps hr id p hid => ?_⟩
      cases hr
      exact ⟨p, hid, le_refl _⟩
    | some product =>
      by_cases hlt : product.stock < item.quantity
      · rw [processItems_cons_short s item rest product hp hlt]
        refine ⟨fun t ht => (by cases ht), fun r ps hr id p hid => ?_⟩
        cases hr
        exact ⟨p, hid, le_refl _⟩
      · rw [processItems_cons_enough s item rest product hp hlt]
        obtain ⟨hok, herr⟩ := ih (stepLoop s item product) hrest
        have hstep : ∀ id p, s.products id = some p →
            ∃ q, (stepLoop s item product).products id = some q ∧ q.stock ≤ p.stock := by
          intro id p hid
          by_cases heq : id = item.product
          · subst heq
            rw [hp] at hid
            cases hid
            refine ⟨Product.preSave { product with stock := product.stock - item.quantity },
              by simp [stepLoop], ?_⟩
            show product.stock - item.quantity ≤ product.stock
            linarith
          · exact ⟨p, by simp [stepLoop, Function.update_noteq heq, hid], le_refl _⟩
        refine ⟨fun t ht id p hid => ?_, fun r ps hr id p hid => ?_⟩
        · obtain ⟨q, hq1, hle1⟩ := hstep id p hid
          obtain ⟨q2, hq2, hle2⟩ := hok t ht id q hq1
          exact ⟨q2, hq2, le_trans hle2 hle1⟩
        · obtain ⟨q, hq1, hle1⟩ := hstep id p hid
          obtain ⟨q2, hq2, hle2⟩ := herr r ps hr id q hq1
          exact ⟨q2, hq2, le_trans hle2 hle1⟩

/-- With no negative quantity among the items and no negative price in the
collection, a run of the loop to its end leaves a subtotal that is not below the
one it started with. -/
theorem processItems_ok_subtotal_le (s t : LoopState) (items : List ReqItem)
    (hq : ∀ it ∈ items, 0 ≤ it.quantity)
    (hprice : ∀ id p, s.products id = some p → 0 ≤ p.price)
    (h : processItems s items = .ok t) : s.subtotal ≤ t.subtotal := by
  induction items generalizing s with
  | nil =>
    rw [processItems_nil] at h
    cases h
    exact le_refl _
  | cons item rest ih =>
    obtain ⟨product, hp, _, hrest⟩ := processItems_cons_ok s t item rest h
    have hitem : 0 ≤ item.quantity := hq item (List.mem_cons_self _ _)
    have hstep : ∀ id p, (stepLoop s item product).products id = some p → 0 ≤ p.price := by
      intro id p hid
      by_cases heq : id = item.product
      · subst heq
        simp only [stepLoop, Function.update_same, Option.some.injEq] at hid
        subst hid
        exact hprice _ product hp
      · simp only [stepLoop, Function.update_noteq heq] at hid
        exact hprice id p hid
    have hnext := ih (stepLoop s item product)
      (fun it hit => hq it (List.mem_cons_of_mem _ hit)) hstep hrest
    have hmul : 0 ≤ product.price * item.quantity := mul_nonneg (hprice _ product hp) hitem
    have hsub : (stepLoop s item product).subtotal = s.subtotal + product.price * item.quantity :=
      rfl
    linarith

/-- The Product collection after `createOrder` on a request that passes the four
checks and whose items the loop processes to the end: the collection the loop
leaves, whether or not the Order schema then accepts the order. -/
theorem createOrder_products_of_loop_ok (schema : OrderSchema) (now : Timestamp) (newId : Id)
    (st : Store) (req : Request) (f : Fields) (items : List ReqItem) (s : LoopState)
    (hf : parseFields req = .ok f) (hv : validateFields f = none) (hi : f.items = some items)
    (hl : processItems (initialLoop st) items = .ok s) :
    (createOrder schema now newId st req).2.products = s.products := by
  have hl2 : processItems (initialLoop st) (f.items.getD []) = .ok s := by
    rw [hi]
    exact hl
  unfold createOrder
  simp only [hf, hv, hl2]
  cases hs : schema.validate (buildOrder schema now f s) <;> rfl

/-- C27, counterexample: a request for -2 Game X passes the four checks and is
answered 201; the stock of Game X goes from 5 up to 7 and the created order has
the subtotal -40. The stock goes up whatever the Order schema then says of the
order. -/
theorem createOrder_negative_quantity :
    (createOrder sampleSchema 0 7 sampleStore (sampleRequest negativeItems)).1.status = 201 ∧
    sampleStore.products 1 = some gameX ∧ gameX.stock = 5 ∧
    (∃ q, (createOrder sampleSchema 0 7 sampleStore (sampleRequest negativeItems)).2.products 1
        = some q ∧ q.stock = 7 ∧ gameX.stock < q.stock) ∧
    (∃ o, (createOrder sampleSchema 0 7 sampleStore (sampleRequest negativeItems)).2.orders 7
        = some o ∧
      (createOrder sampleSchema 0 7 sampleStore (sampleRequest negativeItems)).1.data = some o ∧
      o.subtotal = -40 ∧ o.subtotal < 0) ∧
    (∀ schema : OrderSchema,
      ∃ q, (createOrder schema 0 7 sampleStore (sampleRequest negativeItems)).2.products 1
        = some q ∧ q.stock = 7) := by
  obtain ⟨f, hf, hv, hi⟩ := sampleRequest_fields { product := 1, quantity := -2 } []
  have hl : processItems (initialLoop sampleStore) negativeItems
      = .ok (stepLoop (initialLoop sampleStore) { product := 1, quantity := -2 } gameX) := by
    rw [negativeItems, processItems_cons_enough _ _ _ gameX rfl (by norm_num [gameX])]
    rfl
  have hstock : ∀ schema : OrderSchema,
      ∃ q, (createOrder schema 0 7 sampleStore (sampleRequest negativeItems)).2.products 1
        = some q ∧ q.stock = 7 := by
    intro schema
    rw [createOrder_products_of_loop_ok schema 0 7 sampleStore (sampleRequest negativeItems) f _ _
      hf hv hi hl]
    refine ⟨Product.preSave { gameX with stock := gameX.stock - -2 },
      by simp only [stepLoop, Function.update_same], ?_⟩
    norm_num [Product.preSave, gameX]
  rw [createOrder_of_loop_ok sampleSchema 0 7 sampleStore (sampleRequest negativeItems) f _ _
    hf hv hi hl rfl]
  refine ⟨rfl, rfl, rfl, ?_, ?_, hstock⟩
  · refine ⟨Product.preSave { gameX with stock := gameX.stock - -2 },
      by simp only [stepLoop, Function.update_same], ?_, ?_⟩ <;>
      norm_num [Product.preSave, gameX]
  · refine ⟨_, by simp only [Function.update_same], rfl, ?_, ?_⟩ <;>
      norm_num [buildOrder, stepLoop, initialLoop, gameX]

/-- C27, amended: for a `createOrder` request that passes the four checks and none
of whose item quantities is negative, no product's stock is higher afterwards
than before (whether the request succeeds or fails part-way), and, when no
stored price is negative, the subtotal of a created order is not negative. -/
theorem createOrder_nonneg_quantities (schema : OrderSchema) (now : Timestamp) (newId : Id)
    (st : Store) (req : Request) (f : Fields) (items : List ReqItem)
    (hf : parseFields req = .ok f) (hv : validateFields f = none) (hi : f.items = some items)
    (hq : ∀ it ∈ items, 0 ≤ it.quantity) :
    (∀ id p, st.products id = some p →
      ∃ q, (createOrder schema now newId st req).2.products id = some q ∧ q.stock ≤ p.stock) ∧
    ((∀ id p, st.products id = some p → 0 ≤ p.price) →
      (createOrder schema now newId st req).1.status = 201 →
      ∃ o, (createOrder schema now newId st req).1.data = some o ∧
        (createOrder schema now newId st req).2.orders newId = some o ∧ 0 ≤ o.subtotal) := by
  obtain ⟨hok, herr⟩ := processItems_stock_le (initialLoop st) items hq
  cases hl : processItems (initialLoop st) items with
  | error e =>
    obtain ⟨r, ps⟩ := e
    rw [createOrder_of_loop_error schema now newId st req f items r ps hf hv hi hl]
    refine ⟨fun id p hp => herr r ps hl id p hp, fun _ h201 => ?_⟩
    have h400 := processItems_error_status _ _ r ps hl
    have h201 : r.status = 201 := h201
    rw [h400] at h201
    cases h201
  | ok s =>
    refine ⟨fun id p hp => ?_, fun hprice h201 => ?_⟩
    · rw [createOrder_products_of_loop_ok schema now newId st req f items s hf hv hi hl]
      exact hok s hl id p hp
    · obtain ⟨f2, items2, s2, hf2, _, hi2, hl2, _, hdata, hstore⟩ :=
        createOrder_created schema now newId st req h201
      rw [hf] at hf2
      cases hf2
      rw [hi] at hi2
      cases hi2
      rw [hl] at hl2
      cases hl2
      refine ⟨buildOrder schema now f s, hdata, ?_, ?_⟩
      · rw [hstore]
        simp only [Function.update_same]
      · have hle := processItems_ok_subtotal_le (initialLoop st) s items hq hprice hl
        exact hle

/-- C27, amended, at the specification's example (two Game X, five in stock): no
stock has gone up and the subtotal of the created order is not negative. -/
theorem createOrder_nonneg_quantities_witness :
    (∀ it ∈ [({ product := 1, quantity := 2 } : ReqItem)], 0 ≤ it.quantity) ∧
    (∀ id p, sampleStore.products id = some p →
      ∃ q, (createOrder sampleSchema 0 7 sampleStore gameRequest).2.products id = some q ∧
        q.stock ≤ p.stock) ∧
    (∃ o, (createOrder sampleSchema 0 7 sampleStore gameRequest).1.data = some o ∧
      (createOrder sampleSchema 0 7 sampleStore gameRequest).2.orders 7 = some o ∧
      0 ≤ o.subtotal) := by
  obtain ⟨f, hf, hv, hi⟩ := sampleRequest_fields { product := 1, quantity := 2 } []
  have hq : ∀ it ∈ [({ product := 1, quantity := 2 } : ReqItem)], 0 ≤ it.quantity := by
    intro it hit
    rw [List.mem_singleton] at hit
    subst hit
    norm_num
  have hprice : ∀ id p, sampleStore.products id = some p → 0 ≤ p.price := by
    intro id p hp
    simp only [sampleStore] at hp
    split_ifs at hp <;> cases hp <;> norm_num [gameX, sticker]
  have hl : processItems (initialLoop sampleStore) [{ product := 1, quantity := 2 }]
      = .ok (stepLoop (initialLoop sampleStore) { product := 1, quantity := 2 } gameX) := by
    rw [processItems_cons_enough _ _ _ gameX rfl (by norm_num [gameX])]
    rfl
  have h201 : (createOrder sampleSchema 0 7 sampleStore gameRequest).1.status = 201 := by
    rw [createOrder_of_loop_ok sampleSchema 0 7 sampleStore gameRequest f _ _ hf hv hi hl rfl]
  have h := createOrder_nonneg_quantities sampleSchema 0 7 sampleStore gameRequest f _ hf hv hi hq
  exact ⟨hq, h.1, h.2 hprice h201⟩

/-! ## Pagination -/

theorem orDefault_none (d : ℤ) : orDefault none d = d := rfl

theorem orDefault_zero (d : ℤ) : orDefault (some 0) d = d := rfl

theorem orDefault_of_ne_zero (n d : ℤ) (h : n ≠ 0) : orDefault (some n) d = n := by
  simp [orDefault, h]

/-- The ceiling of total / limit is the least number of pages of `limit` entries
that hold `total` entries. -/
theorem ceil_div_least (total : ℕ) (limit : ℤ) (h : 1 ≤ limit) :
    (total : ℤ) ≤ ⌈(total : ℚ) / (limit : ℚ)⌉ * limit ∧
    ∀ p : ℤ, (total : ℤ) ≤ p * limit → ⌈(total : ℚ) / (limit : ℚ)⌉ ≤ p := by
  have hpos : (0 : ℚ) < (limit : ℚ) := by exact_mod_cast (by omega : 0 < limit)
  constructor
  · have hle : (total : ℚ) / (limit : ℚ) ≤ (⌈(total : ℚ) / (limit : ℚ)⌉ : ℚ) := Int.le_ceil _
    have hmul : (total : ℚ) ≤ (⌈(total : ℚ) / (limit : ℚ)⌉ : ℚ) * (limit : ℚ) :=
      (div_le_iff₀ hpos).mp hle
    exact_mod_cast hmul
  · intro p hp
    rw [Int.ceil_le, div_le_iff₀ hpos]
    exact_mod_cast hp

/-- The rule holds of every object that `paginate` builds with a limit that comes
from `orDefault`. -/
theorem paginate_rule (q : PageQuery) (d page : ℤ) (total : ℕ) :
    PaginationRule q d (paginate page (orDefault q.limit d) total) := by
  refine ⟨fun h => ?_, fun n hn h0 => ?_, rfl, fun h1 => ceil_div_least total _ h1⟩
  · rcases h with h | h <;> rw [h] <;> rfl
  · rw [hn]
    exact orDefault_of_ne_zero n d h0

/-- C23: the pagination objects of `getOrders`, `getProducts` (on both of its
answers) and `getCategories` have the parsed query limit, or the default 10 (50
for categories) when that is absent, not a number or 0, as their limit, and
pages = ceil(total / limit); for a limit of at least 1, pages is the least
integer p with p × limit ≥ total. -/
theorem pagination_pages (q : PageQuery) (total : ℕ) (unknownCategory : Bool) :
    PaginationRule q 10 (getOrdersPagination q total) ∧
    PaginationRule q 10 (getProductsPagination q unknownCategory total) ∧
    PaginationRule q 50 (getCategoriesPagination q total) := by
  refine ⟨paginate_rule q 10 _ total, ?_, paginate_rule q 50 _ total⟩
  cases unknownCategory with
  | false => exact paginate_rule q 10 _ total
  | true =>
    refine ⟨fun h => ?_, fun n hn h0 => ?_, ?_, fun h1 => ?_⟩
    · rcases h with h | h <;>
        simp [getProductsPagination, h, orDefault]
    · simp [getProductsPagination, hn, orDefault, h0]
    · simp [getProductsPagination]
    · have h := ceil_div_least 0 (orDefault q.limit 10) h1
      simpa [getProductsPagination] using h

/-- C23 at 25 documents and `limit=10`: 3 pages; at an absent limit the
categories come in pages of 50, so 1 page; 3 is the least p with p × 10 ≥ 25. -/
theorem pagination_pages_witness :
    (getOrdersPagination { page := some 2, limit := some 10 } 25).pages = 3 ∧
    (getCategoriesPagination { page := none, limit := none } 25).limit = 50 ∧
    (getCategoriesPagination { page := none, limit := none } 25).pages = 1 ∧
    ((25 : ℤ) ≤ 3 * 10 ∧ ∀ p : ℤ, (25 : ℤ) ≤ p * 10 → 3 ≤ p) := by
  have h := (pagination_pages { page := some 2, limit := some 10 } 25 false).1
  have hpages : (getOrdersPagination { page := some 2, limit := some 10 } 25).pages = 3 := by
    show ⌈((25 : ℕ) : ℚ) / ((10 : ℤ) : ℚ)⌉ = 3
    rw [Int.ceil_eq_iff]
    norm_num
  have hleast := h.2.2.2 (by decide)
  rw [hpages] at hleast
  refine ⟨hpages, rfl, ?_, hleast⟩
  show ⌈((25 : ℕ) : ℚ) / ((50 : ℤ) : ℚ)⌉ = 1
  rw [Int.ceil_eq_iff]
  norm_num

/-! ## Dashboard aggregates and cancelled orders -/

/-- A `$match` stage with the condition `status: { $ne: 'cancelled' }` sees the
same documents whether or not the cancelled orders have been removed from the
collection before. -/
theorem filter_notCancelled (c : OrderDoc → Bool) (orders : List OrderDoc) :
    (orders.filter notCancelled).filter (fun o => c o && notCancelled o)
      = orders.filter (fun o => c o && notCancelled o) := by
  rw [List.filter_filter]
  congr 1
  funext o
  cases c o <;> cases notCancelled o <;> rfl

/-- The pipelines that have the `$match` stage on the status give the same result
on a collection and on the collection without its cancelled orders. -/
theorem matched_aggregates_ignore_cancelled (catalog : Catalog) (now later : Timestamp)
    (startDate : ℤ) (orders : List OrderDoc) :
    currentMonthRevenue now (orders.filter notCancelled) = currentMonthRevenue now orders ∧
    lastMonthRevenue now (orders.filter notCancelled) = lastMonthRevenue now orders ∧
    salesTrend later (orders.filter notCancelled) = salesTrend later orders ∧
    dailySales startDate (orders.filter notCancelled) = dailySales startDate orders ∧
    categoryPerformance catalog startDate (orders.filter notCancelled)
      = categoryPerformance catalog startDate orders := by
  refine ⟨?_, ?_, ?_, ?_, ?_⟩
  · unfold currentMonthRevenue
    rw [filter_notCancelled]
  · unfold lastMonthRevenue
    rw [filter_notCancelled]
  · unfold salesTrend
    rw [filter_notCancelled]
  · unfold dailySales
    rw [filter_notCancelled]
  · unfold categoryPerformance
    rw [filter_notCancelled]

/-- C21: the pipeline `topProducts` of `getDashboardStats` counts cancelled orders.
On a collection that holds one cancelled order of two Game X (total 40 for the
line), `topProducts` reports 2 units and a revenue of 40 for Game X, while on
the empty collection it reports nothing; the other revenue figures of
`getDashboardStats` and `getSalesAnalytics` are the same on both collections. -/
theorem topProducts_counts_cancelled :
    cancelledOrder.fields.status = "cancelled" ∧
    (getDashboardStats midFebruary midFebruary []).topProducts = [] ∧
    (getDashboardStats midFebruary midFebruary [cancelledOrder]).topProducts
      = [{ _id := 1, totalSold := 2, revenue := 40, productName := some "Game X" }] ∧
    (getDashboardStats midFebruary midFebruary [cancelledOrder]).totalRevenue
      = (getDashboardStats midFebruary midFebruary []).totalRevenue ∧
    (getDashboardStats midFebruary midFebruary [cancelledOrder]).revenueChange
      = (getDashboardStats midFebruary midFebruary []).revenueChange ∧
    (getDashboardStats midFebruary midFebruary [cancelledOrder]).salesTrend
      = (getDashboardStats midFebruary midFebruary []).salesTrend ∧
    (getSalesAnalytics shop midFebruary none [cancelledOrder]).dailySales
      = (getSalesAnalytics shop midFebruary none []).dailySales ∧
    (getSalesAnalytics shop midFebruary none [cancelledOrder]).categoryPerformance
      = (getSalesAnalytics shop midFebruary none []).categoryPerformance := by
  refine ⟨rfl, rfl, ?_, rfl, rfl, rfl, rfl, rfl⟩
  simp [getDashboardStats, topProducts, unwindItems, cancelledOrder, gameOrder, distinct]

/-! ## The window of the previous month -/

/-- The upper bound of the window of `lastMonthRevenue` is midnight one day before
the start of the current month. -/
theorem endOfLastMonth_eq (now : Timestamp) :
    endOfLastMonth now = startOfMonth now - msPerDay := by
  unfold endOfLastMonth startOfMonth newDate makeDay
  ring

/-- An order created after that midnight is left out of `lastMonthRevenue`, and
one created before the start of the current month is left out of
`currentMonthRevenue`. -/
theorem revenue_of_last_day (now : Timestamp) (o : OrderDoc)
    (hafter : startOfMonth now - msPerDay < (o.createdAt : ℤ))
    (hbefore : (o.createdAt : ℤ) < startOfMonth now) :
    lastMonthRevenue now [o] = [] ∧ currentMonthRevenue now [o] = [] := by
  constructor
  · have hgt : ¬ (o.createdAt : ℤ) ≤ endOfLastMonth now := by
      rw [endOfLastMonth_eq]
      exact not_le.mpr hafter
    unfold lastMonthRevenue
    rw [List.filter_cons_of_neg (by rw [decide_eq_false hgt]; simp)]
    rfl
  · unfold currentMonthRevenue
    rw [List.filter_cons_of_neg (by rw [decide_eq_false (not_le.mpr hbefore)]; simp)]
    rfl

/-- C26: `lastMonthRevenue` leaves out the last day of the previous month. With
`now` on 15 February 2024, a pending order created on 31 January 2024 at 12:00
lies between `startOfLastMonth` (1 January) and `startOfMonth` (1 February), yet
it is matched neither by `lastMonthRevenue`, whose upper bound `endOfLastMonth`
is 31 January 00:00, nor by `currentMonthRevenue`: the dashboard reports a
revenue of 0 and a change of 0. -/
theorem lastMonthRevenue_misses_last_day :
    startOfLastMonth midFebruary = 1704067200000 ∧
    endOfLastMonth midFebruary = 1706659200000 ∧
    startOfMonth midFebruary = 1706745600000 ∧
    startOfLastMonth midFebruary ≤ (januaryOrder.createdAt : ℤ) ∧
    (januaryOrder.createdAt : ℤ) < startOfMonth midFebruary ∧
    januaryOrder.fields.status ≠ "cancelled" ∧
    januaryOrder.fields.total = 53.2 ∧
    lastMonthRevenue midFebruary [januaryOrder] = [] ∧
    currentMonthRevenue midFebruary [januaryOrder] = [] ∧
    (getDashboardStats midFebruary midFebruary [januaryOrder]).totalRevenue = 0 ∧
    (getDashboardStats midFebruary midFebruary [januaryOrder]).revenueChange = 0 := by
  refine ⟨rfl, rfl, rfl, by decide, by decide, by decide, rfl, rfl, rfl, rfl, ?_⟩
  have h : getDashboardStats midFebruary midFebruary [januaryOrder]
      = { totalRevenue := 0, revenueChange := overviewRevenueChange 0 0, salesTrend := [],
          topProducts := topProducts [januaryOrder] } := rfl
  rw [h]
  norm_num [overviewRevenueChange, revenueChange, mathRound]

end CSH
